import Mathlib

/-!
Bluetooth long-range smart-home bridge: the central application and the actuators of the
dehumidifier.

A shallow embedding of `apps/central/src/mqtt.c`, `apps/central/src/bluetooth.c` and the
setters of `apps/dehumidifier/src/main.c`.

* C strings and byte buffers are `List Char`; raw attribute bytes are `List Nat`.
* A pointer into a buffer is the list of bytes from that address onward, so a
  `(pointer, size)` pair such as `struct mqtt_utf8` keeps the bytes that follow the
  `size` bytes it describes.
* `struct bt_conn *` values are `Option Nat` (`none` is `NULL`), callback pointers are
  `Bool` (`false` is `NULL`).
* The Zephyr and C library routines the code calls (`char2hex`, `hex2bin`, `bin2hex`,
  `bt_addr_from_str`, `strtoul`, `snprintf`) are embedded from their library
  implementations; calls into the Bluetooth and MQTT stacks are environment inputs.
-/

namespace Central

/-! ## errno values -/

def ENOENT : Int := 2
def EIO : Int := 5
def EAGAIN : Int := 11
def ENOMEM : Int := 12
def EBUSY : Int := 16
def EINVAL : Int := 22
def ERANGE : Int := 34
def ETIMEDOUT : Int := 116
def ENOTCONN : Int := 128

/-- Outcome of a routine that can fail with an errno value or leave the part of memory
the embedding describes. -/
inductive Res (α : Type) where
  | ok (a : α)
  | fail (errno : Int)
  | undefined
  deriving Repr, DecidableEq

/-! ## Zephyr `lib/os/hex.c` -/

/-- Zephyr `char2hex`: the value of one hexadecimal digit, `none` for `-EINVAL`. -/
def char2hex (c : Char) : Option Nat :=
  if '0'.toNat ≤ c.toNat ∧ c.toNat ≤ '9'.toNat then some (c.toNat - '0'.toNat)
  else if 'a'.toNat ≤ c.toNat ∧ c.toNat ≤ 'f'.toNat then some (c.toNat - 'a'.toNat + 10)
  else if 'A'.toNat ≤ c.toNat ∧ c.toNat ≤ 'F'.toNat then some (c.toNat - 'A'.toNat + 10)
  else none

/-- Zephyr `hex2char`: the lowercase digit of a nibble, `none` for `-EINVAL`. -/
def hex2char (x : Nat) : Option Char :=
  if x ≤ 9 then some (Char.ofNat (x + '0'.toNat))
  else if x ≤ 15 then some (Char.ofNat (x - 10 + 'a'.toNat))
  else none

/-- The "regular hex conversion" loop of `hex2bin`: one output byte per pair of digits,
`none` as soon as `char2hex` fails. -/
def hex2bin_loop : List Char → Option (List Nat)
  | a :: b :: rest =>
    match char2hex a with
    | none => none
    | some hi =>
      match char2hex b with
      | none => none
      | some lo =>
        match hex2bin_loop rest with
        | none => none
        | some bytes => some ((hi * 16 + lo) % 256 :: bytes)
  | _ => some []

/-- Zephyr `hex2bin(hex, hexlen, buf, buflen)` with `hexlen = hex.length`. The result is
the bytes stored in `buf`, the C return value being their number; `none` is the C return
value `0` of the failure paths. An odd `hexlen` is not a failure: the first digit becomes
a byte of its own (a leading zero nibble is inserted). -/
def hex2bin (hex : List Char) (buflen : Nat) : Option (List Nat) :=
  if buflen < hex.length / 2 + hex.length % 2 then none
  else if hex.length % 2 ≠ 0 then
    match hex with
    | [] => none
    | c :: rest =>
      match char2hex c with
      | none => none
      | some dec =>
        match hex2bin_loop rest with
        | none => none
        | some bytes => some (dec :: bytes)
  else hex2bin_loop hex

/-- The digit loop of `bin2hex`: two lowercase digits per byte. -/
def bin2hex_loop : List Nat → Option (List Char)
  | [] => some []
  | b :: rest =>
    match hex2char (b / 16 % 16), hex2char (b % 16) with
    | some hi, some lo =>
      match bin2hex_loop rest with
      | none => none
      | some cs => some (hi :: lo :: cs)
    | _, _ => none

/-- Zephyr `bin2hex(buf, buflen, hex, hexlen)`: `none` is the C return value `0`, taken
when the output (with its terminating NUL) does not fit `hexlen`. -/
def bin2hex (buf : List Nat) (hexlen : Nat) : Option (List Char) :=
  if hexlen < buf.length * 2 + 1 then none else bin2hex_loop buf

/-! ## C library: `strlen`, `strtoul`, `snprintf("%04x")` -/

/-- The C string held in a buffer: the bytes before the first NUL. -/
def strlen (s : List Char) : Nat :=
  (s.takeWhile (fun c => c ≠ Char.ofNat 0)).length

def isspace (c : Char) : Bool :=
  c = ' ' ∨ (9 ≤ c.toNat ∧ c.toNat ≤ 13)

/-- The value of `unsigned long`'s maximum on the 32-bit targets of the application. -/
def ULONG_MAX : Nat := 2 ^ 32 - 1

/-- The digit classification of `strtoul`'s conversion loop (digits and letters). -/
def strtoul_digit (c : Char) : Option Nat :=
  if '0'.toNat ≤ c.toNat ∧ c.toNat ≤ '9'.toNat then some (c.toNat - '0'.toNat)
  else if 'A'.toNat ≤ c.toNat ∧ c.toNat ≤ 'Z'.toNat then some (c.toNat - 'A'.toNat + 10)
  else if 'a'.toNat ≤ c.toNat ∧ c.toNat ≤ 'z'.toNat then some (c.toNat - 'a'.toNat + 10)
  else none

/-- The conversion loop of `strtoul`: accumulates digits below `base`, stops at the first
other byte, and remembers an overflow past `ULONG_MAX`. Returns `(acc, overflowed)`. -/
def strtoul_acc (base : Nat) : List Char → Nat → Bool → Nat × Bool
  | [], acc, ovf => (acc, ovf)
  | c :: s, acc, ovf =>
    match strtoul_digit c with
    | none => (acc, ovf)
    | some d =>
      if base ≤ d then (acc, ovf)
      else if ovf ∨ ULONG_MAX / base < acc ∨ (acc = ULONG_MAX / base ∧ ULONG_MAX % base < d) then
        strtoul_acc base s acc true
      else strtoul_acc base s (acc * base + d) false

/-- Skips the optional sign of `strtoul`; the flag tells whether it was `-`. -/
def strtoul_sign (s : List Char) : Bool × List Char :=
  match s with
  | c :: t => if c = '-' then (true, t) else if c = '+' then (false, t) else (false, s)
  | [] => (false, s)

/-- Skips the optional `0x` / `0X` prefix that `strtoul` accepts in base 16. -/
def strtoul_hexmark (s : List Char) : List Char :=
  match s with
  | c :: x :: t => if c = '0' ∧ (x = 'x' ∨ x = 'X') then t else s
  | _ => s

/-- C `strtoul(nptr, NULL, 16)` with `errno` cleared before the call: returns the value
and the resulting `errno`. Leading white space, a sign and a `0x` prefix are accepted,
conversion stops at the first byte that is not a hex digit, no digits give `0`, a `-`
negates in `unsigned long`, and an overflow gives `ULONG_MAX` with `ERANGE`. The
terminating NUL of the C string ends the conversion as any other non-digit does. -/
def strtoul16 (nptr : List Char) : Nat × Int :=
  let s := nptr.dropWhile isspace
  let (neg, s) := strtoul_sign s
  let s := strtoul_hexmark s
  let (acc, ovf) := strtoul_acc 16 s 0 false
  if ovf then (ULONG_MAX, ERANGE)
  else if neg then ((ULONG_MAX + 1 - acc) % (ULONG_MAX + 1), 0)
  else (acc, 0)

/-- The digits `printf` produces for `%x`, least significant first. -/
def hex_digits_rev (fuel : Nat) (x : Nat) : List Char :=
  match fuel with
  | 0 => []
  | fuel + 1 =>
    let d := Char.ofNat (if x % 16 ≤ 9 then x % 16 + '0'.toNat else x % 16 - 10 + 'a'.toNat)
    if x < 16 then [d] else d :: hex_digits_rev fuel (x / 16)

/-- Format `%04x` of `printf`: lowercase hexadecimal, zero-padded to at least four digits. -/
def fmt_04x (x : Nat) : List Char :=
  let ds := (hex_digits_rev (x + 1) x).reverse
  List.replicate (4 - ds.length) '0' ++ ds

/-! ## Zephyr `bt_addr_from_str` -/

/-- Type `bt_addr_t`: the six address bytes, `val[0]` the least significant. -/
structure bt_addr_t where
  val : List Nat
  deriving DecidableEq, Repr

/-- Type `bt_addr_le_t`. -/
structure bt_addr_le_t where
  type : Nat
  a : bt_addr_t
  deriving DecidableEq, Repr

def BT_ADDR_LE_RANDOM : Nat := 1

/-- Constant `BT_ADDR_STR_LEN`: the size of the buffer of an address string, NUL included. -/
def BT_ADDR_STR_LEN : Nat := 18

/-- The loop of `bt_addr_from_str` over the bytes of `str`, `i` the index into `val` and
`j` the one-based position. Every third byte must be `:`, a `:` anywhere moves to the next
lower `val` index, any other byte is shifted into `val[i]` as a hex digit. A store to
`val[i]` with `i < 0` leaves the six bytes of the address. -/
def bt_addr_from_str_loop : List Char → Int → Nat → List Nat → Res (List Nat)
  | [], _, _, val => .ok val
  | c :: str, i, j, val =>
    if c = Char.ofNat 0 then .ok val
    else if j % 3 = 0 ∧ c ≠ ':' then .fail (-EINVAL)
    else if c = ':' then bt_addr_from_str_loop str (i - 1) (j + 1) val
    else if i < 0 ∨ 6 ≤ i then .undefined
    else
      match char2hex c with
      | none => .fail (-EINVAL)
      | some tmp =>
        bt_addr_from_str_loop str i (j + 1)
          (val.set i.toNat (((val.getD i.toNat 0 * 16) % 256) ||| tmp))

/-- Zephyr `bt_addr_from_str(str, addr)`; `addr` holds whatever the caller's storage
held before the call. -/
def bt_addr_from_str (str : List Char) (addr : bt_addr_t) : Res bt_addr_t :=
  if strlen str ≠ 17 then .fail (-EINVAL)
  else
    match bt_addr_from_str_loop str 5 1 addr.val with
    | .ok val => .ok ⟨val⟩
    | .fail e => .fail e
    | .undefined => .undefined

/-! ## `mqtt.c`: topic segments -/

/-- Type `struct mqtt_utf8`: `utf8` is the memory from the pointer onward, of which the first
`size` bytes are the string. -/
structure mqtt_utf8 where
  utf8 : List Char
  size : Nat
  deriving DecidableEq, Repr

/-- The `while (n)` loop of `get_path_segment`: advances past `n` slashes within the
`size` bytes of the path, `-ENOENT` when the path ends first. -/
def get_path_segment_skip : List Char → Nat → Nat → Res (List Char)
  | utf8, _, 0 => .ok utf8
  | _, 0, _ + 1 => .fail (-ENOENT)
  | [], _ + 1, _ + 1 => .undefined
  | c :: utf8, size + 1, n + 1 =>
    if c = '/' then get_path_segment_skip utf8 size n
    else get_path_segment_skip utf8 size (n + 1)

/-- The `for (out->size = 0; utf8[out->size] != '/'; out->size++)` loop of
`get_path_segment`: counts bytes up to the next `/`. The loop has no bound on the path's
size, it reads on through the memory that follows. -/
def get_path_segment_scan : List Char → Res Nat
  | [] => .undefined
  | c :: utf8 =>
    if c = '/' then .ok 0
    else
      match get_path_segment_scan utf8 with
      | .ok k => .ok (k + 1)
      | r => r

/-- Routine `get_path_segment(path, n, out)`: `.ok out` for the return value `0`. -/
def get_path_segment (path : mqtt_utf8) (n : Nat) : Res mqtt_utf8 :=
  match get_path_segment_skip path.utf8 path.size n with
  | .ok utf8 =>
    match get_path_segment_scan utf8 with
    | .ok size => .ok ⟨utf8, size⟩
    | .fail e => .fail e
    | .undefined => .undefined
  | .fail e => .fail e
  | .undefined => .undefined

/-! ## `bluetooth.c`: the connection table -/

/-- Type `struct bt_gatt_write_params`. `func` tells whether the completion callback is set
(the only callback ever stored is `write_func`), `data` whether the data pointer is set
(the only buffer ever stored is the owning slot's `gatt_write_buf`). -/
structure bt_gatt_write_params where
  func : Bool
  handle : Nat
  offset : Nat
  data : Bool
  length : Nat
  deriving DecidableEq, Repr

/-- Type `struct bt_gatt_discover_params`; `uuid` tells whether the filter points at the
slot's `uuid`, `func` whether the callback is `discover_func`. -/
structure bt_gatt_discover_params where
  uuid : Bool
  func : Bool
  start_handle : Nat
  end_handle : Nat
  type : Nat
  deriving DecidableEq, Repr

/-- Type `struct bt_gatt_subscribe_params`; `notify` tells whether the callback is
`notify_func`. -/
structure bt_gatt_subscribe_params where
  notify : Bool
  value_handle : Nat
  ccc_handle : Nat
  value : Nat
  flags : Nat
  deriving DecidableEq, Repr

/-- Type `struct conninfo`: one slot of the connection table. `write_params` has 5 entries,
`gatt_write_buf` 5 bytes and `sub_params` 10 entries. -/
structure conninfo where
  conn : Option Nat
  write_params : List bt_gatt_write_params
  gatt_write_buf : List Nat
  discover_params : bt_gatt_discover_params
  value_handle : Nat
  uuid : Nat
  sub_params : List bt_gatt_subscribe_params
  deriving DecidableEq, Repr

/-- Constant `ARRAY_SIZE(conninfo->write_params)`. -/
def WRITE_PARAMS_COUNT : Nat := 5

/-- Constant `sizeof(conninfo->gatt_write_buf)`. -/
def GATT_WRITE_BUF_SIZE : Nat := 5

/-- Constant `ARRAY_SIZE(conninfo->sub_params)`. -/
def SUB_PARAMS_COUNT : Nat := 10

/-- An all-zero `struct bt_gatt_write_params`, as left by `memset`. -/
def bt_gatt_write_params.zero : bt_gatt_write_params := ⟨false, 0, 0, false, 0⟩

/-- An all-zero `struct conninfo`, as left by `memset` in `conninfo_free`. -/
def conninfo.zero : conninfo :=
  { conn := none
    write_params := List.replicate WRITE_PARAMS_COUNT bt_gatt_write_params.zero
    gatt_write_buf := List.replicate GATT_WRITE_BUF_SIZE 0
    discover_params := ⟨false, false, 0, 0, 0⟩
    value_handle := 0
    uuid := 0
    sub_params := List.replicate SUB_PARAMS_COUNT ⟨false, 0, 0, 0, 0⟩ }

/-- The arrays of a slot have their declared sizes. -/
def conninfo.wf (ci : conninfo) : Prop :=
  ci.write_params.length = WRITE_PARAMS_COUNT ∧
  ci.gatt_write_buf.length = GATT_WRITE_BUF_SIZE ∧
  ci.sub_params.length = SUB_PARAMS_COUNT

instance (ci : conninfo) : Decidable ci.wf := by
  unfold conninfo.wf; infer_instance

/-- Routine `conninfo_find(conn)`: the index of the first slot of `conns` holding `conn`. -/
def conninfo_find (conns : List conninfo) (conn : Option Nat) : Option Nat :=
  conns.findIdx? (fun ci => ci.conn = conn)

/-- A call of `bt_gatt_write(conn, params)`: the connection, the parameters, and the bytes
`params->data` refers to at the time of the call. -/
structure GattWrite where
  conn : Nat
  handle : Nat
  offset : Nat
  length : Nat
  data : List Nat
  deriving DecidableEq, Repr

/-- The search loop of `main_set_bluetooth_value`: the first `paramid` below
`ARRAY_SIZE(write_params)` whose `func` is `NULL`. -/
def find_free_write_params (wp : List bt_gatt_write_params) : Option Nat :=
  (List.range WRITE_PARAMS_COUNT).find? (fun paramid =>
    match wp[paramid]? with
    | some p => p.func = false
    | none => false)

/-- Routine `memcpy(dst, src, len)` on a buffer: the first `len` bytes of `dst` are replaced. -/
def memcpy (dst src : List Nat) (len : Nat) : List Nat :=
  src.take len ++ dst.drop len

/-- Routine `write_func(conn, err, params)`, `params` being entry `paramid` of slot `slot`: the
entry is zeroed, whatever `err` is. -/
def write_func (conns : List conninfo) (slot paramid : Nat) (_err : Nat) : List conninfo :=
  match conns[slot]? with
  | some ci =>
    conns.set slot
      { ci with write_params := ci.write_params.set paramid bt_gatt_write_params.zero }
  | none => conns

/-- Routine `main_set_bluetooth_value(addr, handle, data, len)`. `lookup` is
`bt_conn_lookup_addr_le(BT_ID_DEFAULT, ·)` and `gatt_write_ret` the value `bt_gatt_write`
returns if it is called. The result is the return value, the connection table after the
call and the calls of `bt_gatt_write` made. -/
def main_set_bluetooth_value (lookup : bt_addr_le_t → Option Nat) (gatt_write_ret : Int)
    (conns : List conninfo) (addr : bt_addr_t) (handle : Nat) (data : List Nat) (len : Nat) :
    Int × List conninfo × List GattWrite :=
  let peer : bt_addr_le_t := { type := BT_ADDR_LE_RANDOM, a := addr }
  if len = 0 then (-EINVAL, conns, [])
  else if GATT_WRITE_BUF_SIZE < len then (-EINVAL, conns, [])
  else
    match lookup peer with
    | none => (-ENOENT, conns, [])
    | some conn =>
      match conninfo_find conns (some conn) with
      | none => (-ENOENT, conns, [])
      | some slot =>
        match conns[slot]? with
        | none => (-ENOENT, conns, [])
        | some ci =>
          match find_free_write_params ci.write_params with
          | none => (-EBUSY, conns, [])
          | some paramid =>
            let buf := memcpy ci.gatt_write_buf data len
            let wp : bt_gatt_write_params :=
              { func := true, handle := handle, offset := 0, data := true, length := len }
            let call : GattWrite :=
              { conn := conn, handle := handle, offset := 0, length := len,
                data := buf.take len }
            if gatt_write_ret ≠ 0 then
              (gatt_write_ret,
                conns.set slot { ci with
                  gatt_write_buf := buf
                  write_params := ci.write_params.set paramid { wp with func := false } },
                [call])
            else
              (0,
                conns.set slot { ci with
                  gatt_write_buf := buf
                  write_params := ci.write_params.set paramid wp },
                [call])

/-- The payload bytes an entry of a slot refers to: `length` bytes at its `data` pointer,
which is the slot's `gatt_write_buf` when set. -/
def write_params_payload (ci : conninfo) (paramid : Nat) : Option (List Nat) :=
  match ci.write_params[paramid]? with
  | some p => if p.data then some (ci.gatt_write_buf.take p.length) else none
  | none => none

/-! ## `mqtt.c`: inbound publishes -/

/-- Constant `APP_MQTT_BUFFER_SIZE`. -/
def APP_MQTT_BUFFER_SIZE : Nat := 128

/-- One call of `mqtt_read_publish_payload` as seen by `read_payload`. -/
inductive ReadStep where
  /-- It stored `bs` and returned `bs.length`. -/
  | bytes (bs : List Char)
  /-- It returned `-EAGAIN` and the `wait` that followed returned `poll`. -/
  | again (poll : Int)
  /-- It returned the negative value `e`. -/
  | error (e : Int)
  deriving DecidableEq, Repr

/-- Routine `read_payload(data, len)` against the transport's answers `script`: the bytes read
(`.fail` with the return value on an error) and the answers left. The transport
answers every call, so a script that ends while bytes are still awaited describes no
run. -/
def read_payload : List ReadStep → Nat → Res (List Char) × List ReadStep
  | script, 0 => (.ok [], script)
  | [], _ + 1 => (.undefined, [])
  | .bytes bs :: script, len + 1 =>
    if len + 1 < bs.length then (.fail (- EIO), script)
    else
      match read_payload script (len + 1 - bs.length) with
      | (.ok rest, script) => (.ok (bs ++ rest), script)
      | r => r
  | .again poll :: script, len + 1 =>
    if poll = 0 then (.fail (-ETIMEDOUT), script)
    else read_payload script (len + 1)
  | .error e :: script, _ + 1 => (.fail e, script)

/-- The inbound `struct mqtt_publish_param` as far as `handle_publish` reads it. -/
structure mqtt_publish_param where
  topic : mqtt_utf8
  qos : Nat
  payload_len : Nat
  message_id : Nat
  deriving DecidableEq, Repr

/-- An acknowledgment handed to the MQTT client. -/
inductive Ack where
  /-- The call `mqtt_publish_qos1_ack` with this message id. -/
  | puback (message_id : Nat)
  /-- The call `mqtt_publish_qos2_receive` with this message id. -/
  | pubrec (message_id : Nat)
  deriving DecidableEq, Repr

/-- The `ack:` label of `handle_publish`: the switch over the QoS class. -/
def handle_publish_ack (qos message_id : Nat) : List Ack :=
  if qos = 0 then []
  else if qos = 1 then [.puback message_id]
  else if qos = 2 then [.pubrec message_id]
  else []

/-- The oversized-payload loop of `handle_publish`: reads `len` bytes in chunks of at
most `sizeof(data)`; the first argument bounds the number of iterations, `len` of them
always suffice. Returns whether every read succeeded (`.ok true`) or one failed
(`.ok false`), the sizes of the reads requested, and the answers left. -/
def handle_publish_drain : Nat → Nat → List ReadStep → Res Bool × List Nat × List ReadStep
  | _, 0, script => (.ok true, [], script)
  | 0, _ + 1, script => (.undefined, [], script)
  | fuel + 1, len + 1, script =>
    let toread := min (len + 1) APP_MQTT_BUFFER_SIZE
    match read_payload script toread with
    | (.ok _, script) =>
      match handle_publish_drain fuel (len + 1 - toread) script with
      | (r, reads, script) => (r, toread :: reads, script)
    | (.fail _, script) => (.ok false, [toread], script)
    | (.undefined, script) => (.undefined, [toread], script)

/-- Lines 184-224 of `handle_publish`: the peer address and the handle taken from the
topic. `btaddr` is the content of the local variable before `bt_addr_from_str` fills
it. `.fail` stands for each `goto ack`. -/
def handle_publish_topic (topic : mqtt_utf8) (btaddr : bt_addr_t) : Res (bt_addr_t × Nat) :=
  match get_path_segment topic 1 with
  | .undefined => .undefined
  | .fail e => .fail e
  | .ok mac =>
    match get_path_segment topic 2 with
    | .undefined => .undefined
    | .fail e => .fail e
    | .ok handle =>
      if mac.size ≠ BT_ADDR_STR_LEN - 1 then .fail (-EINVAL)
      else
        let mac0 := mac.utf8.take mac.size
        if handle.size ≠ 5 - 1 then .fail (-EINVAL)
        else
          let handle0 := handle.utf8.take handle.size
          match bt_addr_from_str mac0 btaddr with
          | .undefined => .undefined
          | .fail e => .fail e
          | .ok addr =>
            let (handle_ul, errno) := strtoul16 handle0
            if handle_ul = 0 ∨ handle_ul = ULONG_MAX ∨ errno ≠ 0 then .fail (-EINVAL)
            else .ok (addr, handle_ul)

/-- What the rest of the system sees of one run of `handle_publish`. -/
structure PublishOutcome where
  /-- The connection table after the run. -/
  conns : List conninfo
  /-- The sizes requested from `read_payload`, in order. -/
  reads : List Nat
  /-- The call of `main_set_bluetooth_value`, if made: address, handle, bytes, result. -/
  dispatch : Option (bt_addr_t × Nat × List Nat × Int)
  /-- The calls of `bt_gatt_write`. -/
  writes : List GattWrite
  /-- The acknowledgments sent. -/
  acks : List Ack
  deriving DecidableEq, Repr

/-- Routine `handle_publish(result, param)`. `script` are the transport's answers to the payload
reads, `btaddr` the content of the local `btaddr` on entry, `lookup` and `gatt_write_ret`
as for `main_set_bluetooth_value`. `none` when the run leaves the memory described. -/
def handle_publish (lookup : bt_addr_le_t → Option Nat) (gatt_write_ret : Int)
    (script : List ReadStep) (btaddr : bt_addr_t) (conns : List conninfo)
    (param : mqtt_publish_param) : Option PublishOutcome :=
  let ack := handle_publish_ack param.qos param.message_id
  if APP_MQTT_BUFFER_SIZE < param.payload_len then
    match handle_publish_drain param.payload_len param.payload_len script with
    | (.ok true, reads, _) => some ⟨conns, reads, none, [], ack⟩
    | (.ok false, reads, _) => some ⟨conns, reads, none, [], []⟩
    | (_, _, _) => none
  else
    match read_payload script param.payload_len with
    | (.undefined, _) => none
    | (.fail _, _) => some ⟨conns, [param.payload_len], none, [], []⟩
    | (.ok data, _) =>
      match hex2bin data APP_MQTT_BUFFER_SIZE with
      | none => some ⟨conns, [param.payload_len], none, [], []⟩
      | some rawdata =>
        if rawdata.length = 0 then some ⟨conns, [param.payload_len], none, [], []⟩
        else
          match handle_publish_topic param.topic btaddr with
          | .undefined => none
          | .fail _ => some ⟨conns, [param.payload_len], none, [], ack⟩
          | .ok (addr, handle_ul) =>
            let handle := handle_ul % 2 ^ 16
            match main_set_bluetooth_value lookup gatt_write_ret conns addr handle rawdata
                rawdata.length with
            | (ret, conns, writes) =>
              some ⟨conns, [param.payload_len], some (addr, handle, rawdata, ret), writes, ack⟩

/-! ## `mqtt.c`: outbound publishes -/

/-- An outbound `struct mqtt_publish_param` handed to `mqtt_publish`. -/
structure mqtt_publish_out where
  topic : List Char
  qos : Nat
  payload : List Char
  message_id : Nat
  dup_flag : Nat
  retain_flag : Nat
  deriving DecidableEq, Repr

/-- The `snprintf` of `main_publish_characteristic_value`:
`"bluetooth/%s/%04x/state"` with `addr` and `handle`. -/
def characteristic_topic (addr : List Char) (handle : Nat) : List Char :=
  "bluetooth/".toList ++ addr ++ "/".toList ++ fmt_04x handle ++ "/state".toList

/-- Routine `main_publish_characteristic_value(addr, handle, data, data_len)` with
`data_len = data.length`. `connected` is `mqtt_data.connected`, `path_max` the size
`PATH_MAX` of `topic_buf`, `rand` the value of `sys_rand32_get` and `publish_ret` the
return value of `mqtt_publish`. Returns the return value and the message handed to
`mqtt_publish`, if any; `message_id` is a `uint16_t`, so it keeps the low 16 bits of
`rand`. -/
def main_publish_characteristic_value (connected : Bool) (path_max : Nat) (rand : Nat)
    (publish_ret : Int) (addr : List Char) (handle : Nat) (data : List Nat) :
    Int × Option mqtt_publish_out :=
  if ¬ connected then (-ENOTCONN, none)
  else
    let topic := characteristic_topic addr handle
    if path_max ≤ topic.length then (-ENOMEM, none)
    else
      match bin2hex data APP_MQTT_BUFFER_SIZE with
      | none => (-ENOMEM, none)
      | some hex =>
        if hex.length = 0 then (-ENOMEM, none)
        else
          (publish_ret,
            some { topic := topic, qos := 1, payload := hex, message_id := rand % 2 ^ 16,
                   dup_flag := 0, retain_flag := 1 })

/-! ## Reference notions used in the statements -/

/-- The value a hexadecimal digit denotes: its position among the digits
`0123456789abcdef`, or among `0123456789ABCDEF`. -/
def hexDigitValue (c : Char) : Option Nat :=
  let i := "0123456789abcdef".toList.indexOf c
  if i < 16 then some i
  else
    let j := "0123456789ABCDEF".toList.indexOf c
    if j < 16 then some j else none

/-- The number a string of hexadecimal digits denotes, most significant digit first,
continuing from `acc`. -/
def hexValueFrom (acc : Nat) : List Char → Option Nat
  | [] => some acc
  | c :: cs =>
    match hexDigitValue c with
    | none => none
    | some d => hexValueFrom (acc * 16 + d) cs

/-- The number a string of hexadecimal digits denotes; `none` if some character is not a
hexadecimal digit. -/
def hexValue (s : List Char) : Option Nat := hexValueFrom 0 s

/-- A control topic `<root>/<mac>/<hhhh>/set`. -/
def controlTopic (root mac hhhh : List Char) : List Char :=
  root ++ "/".toList ++ mac ++ "/".toList ++ hhhh ++ "/set".toList

/-- The lowercase hexadecimal digit of a value below 16. -/
def hexDigitChar (d : Nat) : Char :=
  "0123456789abcdef".toList.getD d '0'

/-- A 16-bit value written as exactly four zero-padded lowercase hexadecimal digits. -/
def hex4 (h : Nat) : List Char :=
  [hexDigitChar (h / 4096 % 16), hexDigitChar (h / 256 % 16), hexDigitChar (h / 16 % 16),
    hexDigitChar (h % 16)]

/-! ## `mqtt.c`: connection status and the event handler -/

/-- The `snprintf` of `main_publish_connection_status`: `"bluetooth/%s/connected"`. -/
def connection_topic (addr : List Char) : List Char :=
  "bluetooth/".toList ++ addr ++ "/connected".toList

/-- Routine `main_publish_connection_status(addr, connected)`. `session` is
`mqtt_data.connected`, `path_max` the size `PATH_MAX` of `topic_buf`, `rand` the value of
`sys_rand32_get` and `publish_ret` the return value of `mqtt_publish`. Returns the return
value and the message handed to `mqtt_publish`, if any; `message_id` is a `uint16_t`, so it
keeps the low 16 bits of `rand`. -/
def main_publish_connection_status (session : Bool) (path_max : Nat) (rand : Nat)
    (publish_ret : Int) (addr : List Char) (connected : Bool) :
    Int × Option mqtt_publish_out :=
  if ¬ session then (-ENOTCONN, none)
  else
    let topic := connection_topic addr
    if path_max ≤ topic.length then (-ENOMEM, none)
    else if path_max < 2 then (-ENOMEM, none)
    else
      (publish_ret,
        some { topic := topic, qos := 1, payload := ['0', if connected then '1' else '0'],
               message_id := rand % 2 ^ 16, dup_flag := 0, retain_flag := 1 })

/-- The `mqtt_data` fields the event handler changes. -/
structure mqtt_data_state where
  connected : Bool
  nfds : Nat
  deriving DecidableEq, Repr

/-- Type `enum mqtt_evt_type`, `other` standing for every value without a `case`. -/
inductive mqtt_evt_type where
  | MQTT_EVT_CONNACK
  | MQTT_EVT_DISCONNECT
  | MQTT_EVT_PUBLISH
  | MQTT_EVT_PUBACK
  | MQTT_EVT_PUBREC
  | MQTT_EVT_PUBREL
  | MQTT_EVT_PUBCOMP
  | MQTT_EVT_SUBACK
  | MQTT_EVT_UNSUBACK
  | MQTT_EVT_PINGRESP
  | other
  deriving DecidableEq, Repr

/-- Type `struct mqtt_evt`: `message_id` is the id of the `puback`, `pubrec`, `pubrel` or
`pubcomp` parameter, `publish` the parameter of a publish event. -/
structure mqtt_evt where
  type : mqtt_evt_type
  result : Int
  message_id : Nat
  publish : mqtt_publish_param
  deriving DecidableEq, Repr

/-- A packet the event handler hands to the MQTT client. -/
inductive MqttSent where
  /-- An acknowledgment sent by `handle_publish`. -/
  | ack (a : Ack)
  /-- The call `mqtt_publish_qos2_release` with this message id. -/
  | pubrel (message_id : Nat)
  /-- The call `mqtt_publish_qos2_complete` with this message id. -/
  | pubcomp (message_id : Nat)
  deriving DecidableEq, Repr

/-- Routine `mqtt_evt_handler(client, evt)`, the environment as for `handle_publish`: the
`mqtt_data` fields and the connection table after the event, the attribute writes and the
packets sent. `none` when `handle_publish` leaves the memory described. -/
def mqtt_evt_handler (lookup : bt_addr_le_t → Option Nat) (gatt_write_ret : Int)
    (script : List ReadStep) (btaddr : bt_addr_t) (md : mqtt_data_state)
    (conns : List conninfo) (evt : mqtt_evt) :
    Option (mqtt_data_state × List conninfo × List GattWrite × List MqttSent) :=
  match evt.type with
  | .MQTT_EVT_CONNACK =>
    if evt.result ≠ 0 then some (md, conns, [], [])
    else some ({ md with connected := true }, conns, [], [])
  | .MQTT_EVT_DISCONNECT => some ({ md with connected := false, nfds := 0 }, conns, [], [])
  | .MQTT_EVT_PUBLISH =>
    match handle_publish lookup gatt_write_ret script btaddr conns evt.publish with
    | none => none
    | some o => some (md, o.conns, o.writes, o.acks.map MqttSent.ack)
  | .MQTT_EVT_PUBREC =>
    if evt.result ≠ 0 then some (md, conns, [], [])
    else some (md, conns, [], [.pubrel evt.message_id])
  | .MQTT_EVT_PUBREL =>
    if evt.result ≠ 0 then some (md, conns, [], [])
    else some (md, conns, [], [.pubcomp evt.message_id])
  | _ => some (md, conns, [], [])

/-- The bytes a transport script hands over in all. -/
def delivered : List ReadStep → Nat
  | [] => 0
  | .bytes bs :: script => bs.length + delivered script
  | _ :: script => delivered script

/-- The chunk sizes of a payload of `len` bytes read through a 128-byte buffer: full
chunks, then the remainder if any. -/
def chunks (len : Nat) : List Nat :=
  List.replicate (len / 128) 128 ++ (if len % 128 = 0 then [] else [len % 128])

/-- Every transport read of the oversized-payload loop succeeds: starting with the answers
`script` and `len` bytes to go, each `read_payload` of the next chunk returns `0`, until
nothing is left to read, the answers left being `rest`. -/
inductive DrainReads : List ReadStep → Nat → List ReadStep → Prop where
  | done (script : List ReadStep) : DrainReads script 0 script
  | chunk (script script' rest : List ReadStep) (len : Nat) (data : List Char) :
      0 < len →
      read_payload script (min len APP_MQTT_BUFFER_SIZE) = (.ok data, script') →
      DrainReads script' (len - min len APP_MQTT_BUFFER_SIZE) rest →
      DrainReads script len rest

/-! ## `bluetooth.c`: scanning, connecting and discovery -/

def EALREADY : Int := 120

def BT_GATT_ITER_STOP : Nat := 0
def BT_GATT_ITER_CONTINUE : Nat := 1

/-- Constant `BT_GATT_DISCOVER_CHARACTERISTIC` of the discovery type enumeration, whose
first value `0` is `BT_GATT_DISCOVER_PRIMARY`. -/
def BT_GATT_DISCOVER_CHARACTERISTIC : Nat := 3
def BT_GATT_DISCOVER_DESCRIPTOR : Nat := 4

def BT_GATT_CHRC_NOTIFY : Nat := 0x10
def BT_GATT_CCC_NOTIFY : Nat := 0x0001
def BT_UUID_GATT_CHRC : Nat := 0x2803
def BT_UUID_GATT_CCC : Nat := 0x2902
def BT_ATT_FIRST_ATTTRIBUTE_HANDLE : Nat := 0x0001
def BT_ATT_LAST_ATTTRIBUTE_HANDLE : Nat := 0xffff

/-- Bit `BT_GATT_SUBSCRIBE_FLAG_VOLATILE` of the subscription flags. -/
def BT_GATT_SUBSCRIBE_FLAG_VOLATILE : Nat := 0

/-- Type `struct bt_gatt_attr` as the discovery callback receives it: the handle, the
16-bit UUID of the attribute type and, for a characteristic declaration, the fields of
the `struct bt_gatt_chrc` in `user_data`. -/
structure bt_gatt_attr where
  handle : Nat
  uuid : Nat
  properties : Nat
  value_handle : Nat
  chrc_uuid : Nat
  deriving DecidableEq, Repr

/-- A call into the Bluetooth host or the MQTT side made by a handler of `bluetooth.c`;
where the handler reads the return value, the call carries it. -/
inductive BtCall where
  /-- The call `bt_le_scan_start` made by `start_scan`. -/
  | scan_start
  /-- The call `bt_le_scan_stop`. -/
  | scan_stop
  /-- The call `bt_conn_le_create` for this peer. -/
  | conn_le_create (peer : bt_addr_le_t)
  /-- The call `bt_conn_unref`. -/
  | conn_unref (conn : Nat)
  /-- The call `bt_conn_set_security`. -/
  | conn_set_security (conn : Nat)
  /-- The call `main_publish_connection_status` for the peer of this connection. -/
  | publish_connection_status (conn : Nat) (connected : Bool)
  /-- The call `main_publish_characteristic_value` for the peer of this connection. -/
  | publish_characteristic_value (conn : Nat) (handle : Nat) (data : List Nat)
  /-- The call `bt_gatt_discover` with these parameters, and what it returned. -/
  | gatt_discover (conn : Nat) (params : bt_gatt_discover_params) (ret : Int)
  /-- The call `bt_gatt_subscribe` with these parameters, and what it returned. -/
  | gatt_subscribe (conn : Nat) (params : bt_gatt_subscribe_params) (ret : Int)
  deriving DecidableEq, Repr

/-- Routine `conninfo_new()`: the index of the first slot without a connection. -/
def conninfo_new (conns : List conninfo) : Option Nat :=
  conns.findIdx? (fun ci => ci.conn = none)

/-- Routine `conninfo_free(ci)`, `ci` being slot `slot`: the slot is zeroed. -/
def conninfo_free (conns : List conninfo) (slot : Nat) : List conninfo :=
  conns.set slot conninfo.zero

/-- Routine `start_scan()`: it calls `bt_le_scan_start` and only logs the result. -/
def start_scan : List BtCall := [.scan_start]

/-- Routine `device_found(addr, rssi, type, ad)`. `bonds` is the bond list walked by
`bt_foreach_bond` and `create` what `bt_conn_le_create` does if it is called: an error, or
the new connection object it stores in the slot. -/
def device_found (bonds : List bt_addr_le_t) (create : Except Int Nat)
    (conns : List conninfo) (addr : bt_addr_le_t) : List conninfo × List BtCall :=
  if ¬ bonds.any (fun b => b = addr) then (conns, [])
  else
    match conninfo_new conns with
    | none => (conns, [.scan_stop])
    | some slot =>
      match create with
      | .error _ => (conns, [.scan_stop, .conn_le_create addr] ++ start_scan)
      | .ok conn =>
        match conns[slot]? with
        | none => (conns, [.scan_stop, .conn_le_create addr])
        | some ci =>
          (conns.set slot { ci with conn := some conn }, [.scan_stop, .conn_le_create addr])

/-- Zephyr `bt_gatt_attr_value_handle(attr)`: for a characteristic declaration the value
handle it declares, or the handle after the declaration when that is `0`; `0` for any
other attribute. -/
def bt_gatt_attr_value_handle (attr : bt_gatt_attr) : Nat :=
  if attr.uuid = BT_UUID_GATT_CHRC then
    if attr.value_handle = 0 then (attr.handle + 1) % 2 ^ 16 else attr.value_handle
  else 0

/-- The search loop of `discover_func`: the first entry of `sub_params` whose `notify` is
`NULL`. -/
def first_free_sub_params (sp : List bt_gatt_subscribe_params) : Option Nat :=
  (List.range SUB_PARAMS_COUNT).find? (fun i =>
    match sp[i]? with
    | some p => p.notify = false
    | none => false)

/-- What one run of `discover_func` does: its return value, the slot after it, whether a
discovery request is outstanding after it, and the calls it made. -/
structure DiscoverResult where
  ret : Nat
  ci : conninfo
  outstanding : Bool
  calls : List BtCall
  deriving DecidableEq, Repr

/-- The `stop:` label of `discover_func`: the discovery parameters are zeroed and scanning
is restarted. -/
def discover_stop (ci : conninfo) (calls : List BtCall) : DiscoverResult :=
  { ret := BT_GATT_ITER_STOP
    ci := { ci with discover_params := ⟨false, false, 0, 0, 0⟩ }
    outstanding := false
    calls := calls ++ start_scan }

/-- Routine `discover_func(conn, attr, params)`, `params` being the `discover_params` of the
slot `ci`, called while a request is outstanding. `discover_ret` and `subscribe_ret` tell
what `bt_gatt_discover` and `bt_gatt_subscribe` return for the parameters they are given. -/
def discover_func (discover_ret : bt_gatt_discover_params → Int)
    (subscribe_ret : bt_gatt_subscribe_params → Int) (conn : Nat) (ci : conninfo)
    (attr : Option bt_gatt_attr) : DiscoverResult :=
  match attr with
  | none => discover_stop ci []
  | some attr =>
    if ci.discover_params.type = BT_GATT_DISCOVER_CHARACTERISTIC then
      if attr.properties &&& BT_GATT_CHRC_NOTIFY = 0 then
        { ret := BT_GATT_ITER_CONTINUE, ci := ci, outstanding := true, calls := [] }
      else
        let params : bt_gatt_discover_params :=
          { ci.discover_params with
            uuid := true
            start_handle := (attr.handle + 2) % 2 ^ 16
            type := BT_GATT_DISCOVER_DESCRIPTOR }
        let ci1 : conninfo :=
          { ci with
            uuid := BT_UUID_GATT_CCC
            discover_params := params
            value_handle := bt_gatt_attr_value_handle attr }
        if discover_ret params ≠ 0 then
          discover_stop ci1 [.gatt_discover conn params (discover_ret params)]
        else
          { ret := BT_GATT_ITER_STOP, ci := ci1, outstanding := true,
            calls := [.gatt_discover conn params 0] }
    else if ci.discover_params.type = BT_GATT_DISCOVER_DESCRIPTOR then
      match first_free_sub_params ci.sub_params with
      | none => discover_stop ci []
      | some i =>
        let old := ci.sub_params.getD i ⟨false, 0, 0, 0, 0⟩
        let sub : bt_gatt_subscribe_params :=
          { notify := true
            value_handle := ci.value_handle
            ccc_handle := attr.handle
            value := BT_GATT_CCC_NOTIFY
            flags := old.flags ||| 2 ^ BT_GATT_SUBSCRIBE_FLAG_VOLATILE }
        let err := subscribe_ret sub
        let kept : bt_gatt_subscribe_params :=
          if err ≠ 0 ∧ err ≠ -EALREADY then { sub with notify := false } else sub
        let params : bt_gatt_discover_params :=
          { ci.discover_params with
            uuid := false
            start_handle := (attr.handle + 1) % 2 ^ 16
            type := BT_GATT_DISCOVER_CHARACTERISTIC }
        let ci1 : conninfo :=
          { ci with sub_params := ci.sub_params.set i kept, discover_params := params }
        if discover_ret params ≠ 0 then
          discover_stop ci1
            [.gatt_subscribe conn sub err, .gatt_discover conn params (discover_ret params)]
        else
          { ret := BT_GATT_ITER_STOP, ci := ci1, outstanding := true,
            calls := [.gatt_subscribe conn sub err, .gatt_discover conn params 0] }
    else discover_stop ci []

/-- Routine `notify_func(conn, params, data, length)`, `params` being entry `i` of the slot's
`sub_params`: without data the entry is released, with data the value is published. -/
def notify_func (conn : Nat) (ci : conninfo) (i : Nat) (data : Option (List Nat)) :
    Nat × conninfo × List BtCall :=
  match ci.sub_params[i]? with
  | none => (BT_GATT_ITER_STOP, ci, [])
  | some p =>
    match data with
    | none =>
      (BT_GATT_ITER_STOP,
        { ci with sub_params := ci.sub_params.set i { p with notify := false } }, [])
    | some bytes =>
      (BT_GATT_ITER_CONTINUE, ci, [.publish_characteristic_value conn p.value_handle bytes])

/-- The discovery parameters `connected` sets up: every characteristic over the whole
handle range. -/
def initial_discover_params : bt_gatt_discover_params :=
  { uuid := false, func := true, start_handle := BT_ATT_FIRST_ATTTRIBUTE_HANDLE,
    end_handle := BT_ATT_LAST_ATTTRIBUTE_HANDLE, type := BT_GATT_DISCOVER_CHARACTERISTIC }

/-- The end of `connected`: the slot's discovery parameters are set up and the first
request is issued; if `bt_gatt_discover` fails, scanning is restarted (and the parameters
stay as set). Returns the slot, whether a request is outstanding, and the calls. -/
def connected_discover (discover_ret : bt_gatt_discover_params → Int) (conn : Nat)
    (ci : conninfo) : conninfo × Bool × List BtCall :=
  let err := discover_ret initial_discover_params
  ({ ci with discover_params := initial_discover_params }, decide (err = 0),
    [.gatt_discover conn initial_discover_params err] ++
      (if err ≠ 0 then start_scan else []))

/-- Routine `connected(conn, conn_err)`; `discover_ret` as for `discover_func`. -/
def connected (discover_ret : bt_gatt_discover_params → Int) (conns : List conninfo)
    (conn : Nat) (conn_err : Nat) : List conninfo × List BtCall :=
  match conninfo_find conns (some conn) with
  | none => (conns, [])
  | some slot =>
    if conn_err ≠ 0 then (conninfo_free conns slot, [.conn_unref conn] ++ start_scan)
    else
      match conns[slot]? with
      | none => (conns, [])
      | some ci =>
        (conns.set slot (connected_discover discover_ret conn ci).1,
          [.publish_connection_status conn true, .conn_set_security conn] ++
            (connected_discover discover_ret conn ci).2.2)

/-- Routine `disconnected(conn, reason)`. -/
def disconnected (conns : List conninfo) (conn : Nat) (_reason : Nat) :
    List conninfo × List BtCall :=
  match conninfo_find conns (some conn) with
  | none => (conns, [])
  | some slot =>
    (conninfo_free conns slot,
      [.publish_connection_status conn false, .conn_unref conn] ++ start_scan)

/-! ## The Bluetooth host and the peer, as far as `bluetooth.c` depends on them -/

/-- The flags of the Zephyr host that `bt_le_scan_start`, `bt_le_scan_stop` and
`bt_conn_le_create` test: `scanning` is `BT_DEV_EXPLICIT_SCAN`, `initiating` is
`BT_DEV_INITIATING` together with the connection object being set up, whose result the
`connected` callback has not reported yet. -/
structure Host where
  scanning : Bool
  initiating : Option Nat
  deriving DecidableEq, Repr

/-- Zephyr `bt_le_scan_start`: `-EALREADY` while scanning is on; otherwise scanning is on
afterwards if the controller accepts (`ok`). -/
def Host.scan_start (h : Host) (ok : Bool) : Host :=
  if h.scanning then h else if ok then { h with scanning := true } else h

/-- Zephyr `bt_le_scan_stop`: the scanning flag is cleared. -/
def Host.scan_stop (h : Host) : Host := { h with scanning := false }

/-- Zephyr `bt_conn_le_create`: refused while scanning is on and while another connection
is being initiated; otherwise it fails or hands out the connection object `env` names,
which is then the one being initiated. -/
def Host.conn_le_create (h : Host) (env : Except Int Nat) : Except Int Nat × Host :=
  if h.scanning then (.error (-EINVAL), h)
  else if h.initiating.isSome then (.error (-EALREADY), h)
  else
    match env with
    | .error e => (.error e, h)
    | .ok conn => (.ok conn, { h with initiating := some conn })

/-- The host after the `start_scan()` calls among `calls`. -/
def Host.after_calls (h : Host) (ok : Bool) (calls : List BtCall) : Host :=
  if calls.contains BtCall.scan_start then h.scan_start ok else h

/-- The connection table of the application, the flags of the host, and the connection
objects `bt_conn_le_create` has handed out whose result the `connected` callback has not
reported yet. -/
structure World where
  conns : List conninfo
  host : Host
  unreported : List Nat
  deriving DecidableEq, Repr

/-- What the host reports to the application. Each event carries what the host calls made
while it is handled return: `ok` for `bt_le_scan_start`, `create` for `bt_conn_le_create`
when the host does not refuse it, `discover_ret` and `subscribe_ret` for
`bt_gatt_discover` and `bt_gatt_subscribe`. -/
inductive Event where
  /-- A scan result for `addr`: `device_found`. -/
  | advertiser_found (addr : bt_addr_le_t) (create : Except Int Nat) (ok : Bool)
  /-- The result of the connection being initiated: `connected` with `conn_err`. -/
  | connect_result (conn_err : Nat) (discover_ret : Int) (ok : Bool)
  /-- The end of an established connection: `disconnected`. -/
  | disconnect (conn : Nat) (reason : Nat) (ok : Bool)
  /-- A discovery result for the request of slot `slot`: `discover_func`. -/
  | discovery_result (slot : Nat) (attr : Option bt_gatt_attr) (discover_ret : Int)
      (subscribe_ret : Int) (ok : Bool)
  deriving Repr

/-- The connection object held by slot `i`, if any. -/
def connOf (conns : List conninfo) (i : Nat) : Option Nat :=
  (conns[i]?).bind (fun ci => ci.conn)

/-- Whether `create` names a connection object that a slot of the table still holds. -/
def hands_out_held (conns : List conninfo) : Except Int Nat → Bool
  | .ok conn => conns.any (fun ci => ci.conn = some conn)
  | .error _ => false

/-- One event handled, `none` when the host cannot report this event in this state: it
hands out no connection object the application still holds, it reports the result of the
connection being initiated only, and the end of a connection only once the connection is
established. The host follows the calls the handler makes: for `device_found`, the calls
made up to `bt_conn_le_create` do not depend on what that call returns, so they are read
off `device_found` run with any result; the host stops scanning if `bt_le_scan_stop` is
among them, and answers `bt_conn_le_create`, if it is among them, in the state it then
is in. -/
def step (bonds : List bt_addr_le_t) (w : World) : Event → Option World
  | .advertiser_found addr create ok =>
    if hands_out_held w.conns create then none
    else
      let before := (device_found bonds (.error 0) w.conns addr).2
      let h1 := if before.contains BtCall.scan_stop then w.host.scan_stop else w.host
      let dial := before.contains (BtCall.conn_le_create addr)
      let created := if dial then h1.conn_le_create create else (.error 0, h1)
      let r := device_found bonds created.1 w.conns addr
      some ⟨r.1, created.2.after_calls ok r.2,
        match created.1 with
        | .ok conn => conn :: w.unreported
        | .error _ => w.unreported⟩
  | .connect_result conn_err discover_ret ok =>
    match w.host.initiating with
    | none => none
    | some conn =>
      let r := connected (fun _ => discover_ret) w.conns conn conn_err
      some ⟨r.1, ({ w.host with initiating := none } : Host).after_calls ok r.2,
        w.unreported.filter (fun c => c ≠ conn)⟩
  | .disconnect conn reason ok =>
    if w.host.initiating = some conn then none
    else
      let r := disconnected w.conns conn reason
      some ⟨r.1, w.host.after_calls ok r.2, w.unreported⟩
  | .discovery_result slot attr discover_ret subscribe_ret ok =>
    match w.conns[slot]? with
    | none => none
    | some ci =>
      match ci.conn with
      | none => none
      | some conn =>
        let r := discover_func (fun _ => discover_ret) (fun _ => subscribe_ret) conn ci attr
        some ⟨w.conns.set slot r.ci, w.host.after_calls ok r.calls, w.unreported⟩

/-- A sequence of events handled one after the other. -/
def run (bonds : List bt_addr_le_t) : World → List Event → Option World
  | w, [] => some w
  | w, e :: es =>
    match step bonds w e with
    | none => none
    | some w' => run bonds w' es

/-- The state at start-up: `n` zeroed slots, no connection being initiated. -/
def World.init (n : Nat) (scanning : Bool) : World :=
  ⟨List.replicate n conninfo.zero, ⟨scanning, none⟩, []⟩

/-- The slots bound to a connection. -/
def bound_slots (conns : List conninfo) : List conninfo :=
  conns.filter (fun ci => ci.conn.isSome)

/-- The slots holding a connection object whose connect result has not been reported. -/
def pending_slots (w : World) : List Nat :=
  (List.range w.conns.length).filter (fun i =>
    match connOf w.conns i with
    | some conn => decide (conn ∈ w.unreported)
    | none => false)

/-- The host's answer to the request outstanding for the slot `ci` over the peer's
attribute table `table`: the attributes of the requested kind within the handle range, in
table order. A request whose start handle is `0` or above its end handle is answered with
no attribute. -/
def discover_answer (table : List bt_gatt_attr) (ci : conninfo) : List bt_gatt_attr :=
  let p := ci.discover_params
  if p.start_handle = 0 ∨ p.end_handle < p.start_handle then []
  else
    table.filter (fun a =>
      decide (p.start_handle ≤ a.handle ∧ a.handle ≤ p.end_handle) &&
      (if p.type = BT_GATT_DISCOVER_CHARACTERISTIC then
        decide (a.uuid = BT_UUID_GATT_CHRC) && (!p.uuid || decide (a.chrc_uuid = ci.uuid))
      else if p.type = BT_GATT_DISCOVER_DESCRIPTOR then
        if p.uuid then decide (a.uuid = ci.uuid)
        else
          !(decide (a.uuid ∈ [0x2800, 0x2801, 0x2802, 0x2803]) ||
            table.any (fun d =>
              decide (d.uuid = BT_UUID_GATT_CHRC ∧ bt_gatt_attr_value_handle d = a.handle)))
      else false))

/-- The host walking the attributes of an answer: `discover_func` is called for each until
it returns `BT_GATT_ITER_STOP`, and with no attribute once the answer is exhausted.
Returns the slot, whether a request is outstanding, and the calls made. -/
def discover_iter (discover_ret : bt_gatt_discover_params → Int)
    (subscribe_ret : bt_gatt_subscribe_params → Int) (conn : Nat) :
    List bt_gatt_attr → conninfo → conninfo × Bool × List BtCall
  | [], ci =>
    let r := discover_func discover_ret subscribe_ret conn ci none
    (r.ci, r.outstanding, r.calls)
  | attr :: rest, ci =>
    let r := discover_func discover_ret subscribe_ret conn ci (some attr)
    if r.ret = BT_GATT_ITER_CONTINUE then
      let t := discover_iter discover_ret subscribe_ret conn rest r.ci
      (t.1, t.2.1, r.calls ++ t.2.2)
    else (r.ci, r.outstanding, r.calls)

/-- The discovery of one peer from the state `(ci, outstanding)` on: while a request is
outstanding, the host answers it from `table`. The first argument bounds the number of
requests answered. Returns the slot, whether a request is still outstanding, and the
calls made. -/
def discovery_rounds (discover_ret : bt_gatt_discover_params → Int)
    (subscribe_ret : bt_gatt_subscribe_params → Int) (conn : Nat)
    (table : List bt_gatt_attr) : Nat → conninfo → Bool → conninfo × Bool × List BtCall
  | 0, ci, outstanding => (ci, outstanding, [])
  | fuel + 1, ci, outstanding =>
    if outstanding then
      let t := discover_iter discover_ret subscribe_ret conn (discover_answer table ci) ci
      let u := discovery_rounds discover_ret subscribe_ret conn table fuel t.1 t.2.1
      (u.1, u.2.1, t.2.2 ++ u.2.2)
    else (ci, false, [])

/-- The discovery of one peer from link-up on: the first request issued by `connected`,
then the rounds. -/
def discovery_link_up (discover_ret : bt_gatt_discover_params → Int)
    (subscribe_ret : bt_gatt_subscribe_params → Int) (conn : Nat)
    (table : List bt_gatt_attr) (fuel : Nat) (ci : conninfo) :
    conninfo × Bool × List BtCall :=
  let c := connected_discover discover_ret conn ci
  let u := discovery_rounds discover_ret subscribe_ret conn table fuel c.1 c.2.1
  (u.1, u.2.1, c.2.2 ++ u.2.2)

/-- The discovery requests among the calls made. -/
def discover_requests (calls : List BtCall) : List bt_gatt_discover_params :=
  calls.filterMap (fun
    | .gatt_discover _ p _ => some p
    | _ => none)

/-- The active entries of a subscription pool: value handle and descriptor handle. -/
def active_subscriptions (ci : conninfo) : List (Nat × Nat) :=
  (ci.sub_params.filter (fun p => p.notify)).map (fun p => (p.value_handle, p.ccc_handle))

/-- A characteristic declaration with the notify property. -/
def notifiable (a : bt_gatt_attr) : Bool :=
  decide (a.uuid = BT_UUID_GATT_CHRC) && decide (a.properties &&& BT_GATT_CHRC_NOTIFY ≠ 0)

/-- The attributes of the table at or above the start handle of the slot's request: what
the discovery still has before it. -/
def remaining (table : List bt_gatt_attr) (ci : conninfo) : Nat :=
  if ci.discover_params.start_handle = 0 then 0
  else (table.filter (fun a => decide (ci.discover_params.start_handle ≤ a.handle))).length

/-- The discovery has ended: no request is outstanding, the discovery parameters are
zeroed and scanning has been restarted. -/
def DiscoveryDone (t : conninfo × Bool × List BtCall) : Prop :=
  t.2.1 = false ∧ t.1.discover_params = ⟨false, false, 0, 0, 0⟩ ∧ BtCall.scan_start ∈ t.2.2

/-- No connection object is held by two slots. -/
def UniqueConns (conns : List conninfo) : Prop :=
  ∀ i j c, connOf conns i = some c → connOf conns j = some c → i = j

/-- The connection objects not yet reported are exactly the one the host is
initiating. -/
def PendingIsInitiating (w : World) : Prop :=
  w.unreported = w.host.initiating.toList

/-- The value handles of the active entries of a subscription pool. -/
def active_value_handles (ci : conninfo) : List Nat :=
  (active_subscriptions ci).map Prod.fst

/-- No two active subscription entries of the slot have the same value handle. -/
def NoDupActive (ci : conninfo) : Prop :=
  (active_value_handles ci).Nodup

/-- The characteristic declarations of the table carry pairwise distinct value handles. -/
def DistinctValueHandles (table : List bt_gatt_attr) : Prop :=
  ∀ d1 ∈ table, ∀ d2 ∈ table, d1.uuid = BT_UUID_GATT_CHRC → d2.uuid = BT_UUID_GATT_CHRC →
    bt_gatt_attr_value_handle d1 = bt_gatt_attr_value_handle d2 → d1.handle = d2.handle

/-- The descriptor request `discover_func` issues on a notifiable declaration `a`. -/
def desc_request (ci : conninfo) (a : bt_gatt_attr) : bt_gatt_discover_params :=
  { ci.discover_params with
    uuid := true
    start_handle := (a.handle + 2) % 2 ^ 16
    type := BT_GATT_DISCOVER_DESCRIPTOR }

/-- The slot as `discover_func` leaves it on a notifiable declaration `a`, before the
request is issued. -/
def desc_slot (ci : conninfo) (a : bt_gatt_attr) : conninfo :=
  { ci with
    uuid := BT_UUID_GATT_CCC
    discover_params := desc_request ci a
    value_handle := bt_gatt_attr_value_handle a }

/-- The characteristic request `discover_func` issues after the descriptor `a`. -/
def char_request (ci : conninfo) (a : bt_gatt_attr) : bt_gatt_discover_params :=
  { ci.discover_params with
    uuid := false
    start_handle := (a.handle + 1) % 2 ^ 16
    type := BT_GATT_DISCOVER_CHARACTERISTIC }

/-- The subscription entry `discover_func` fills at index `i` on the descriptor `a`. -/
def new_subscription (ci : conninfo) (i : Nat) (a : bt_gatt_attr) :
    bt_gatt_subscribe_params :=
  { notify := true
    value_handle := ci.value_handle
    ccc_handle := a.handle
    value := BT_GATT_CCC_NOTIFY
    flags := (ci.sub_params.getD i ⟨false, 0, 0, 0, 0⟩).flags |||
      2 ^ BT_GATT_SUBSCRIBE_FLAG_VOLATILE }

/-- The entry as `discover_func` leaves it once `bt_gatt_subscribe` returned `err`. -/
def kept_subscription (err : Int) (sub : bt_gatt_subscribe_params) :
    bt_gatt_subscribe_params :=
  if err ≠ 0 ∧ err ≠ -EALREADY then { sub with notify := false } else sub

/-- The slot as `discover_func` leaves it on the descriptor `a` with entry `i` free, before
the request is issued. -/
def char_slot (subscribe_ret : bt_gatt_subscribe_params → Int) (ci : conninfo) (i : Nat)
    (a : bt_gatt_attr) : conninfo :=
  { ci with
    sub_params := ci.sub_params.set i
      (kept_subscription (subscribe_ret (new_subscription ci i a)) (new_subscription ci i a))
    discover_params := char_request ci a }

/-- Every value handle in `vs` is declared by a characteristic declaration of the table
below the handle `h`. -/
def DeclaredBelow (table : List bt_gatt_attr) (vs : List Nat) (h : Nat) : Prop :=
  ∀ v ∈ vs, ∃ d ∈ table, d.uuid = BT_UUID_GATT_CHRC ∧ bt_gatt_attr_value_handle d = v ∧
    d.handle < h

/-- The state of a slot during the discovery of a table: the active value handles are
distinct, and unless the start handle is `0` they are declared below the start handle (in
the characteristic phase) or below the declaration being served, itself below the start
handle (in the descriptor phase). -/
def DiscoveryInv (table : List bt_gatt_attr) (ci : conninfo) : Prop :=
  NoDupActive ci ∧
  (ci.discover_params.start_handle = 0 ∨
    (ci.discover_params.type = BT_GATT_DISCOVER_CHARACTERISTIC ∧
      DeclaredBelow table (active_value_handles ci) ci.discover_params.start_handle) ∨
    (ci.discover_params.type = BT_GATT_DISCOVER_DESCRIPTOR ∧
      ∃ d0 ∈ table, d0.uuid = BT_UUID_GATT_CHRC ∧
        bt_gatt_attr_value_handle d0 = ci.value_handle ∧
        d0.handle < ci.discover_params.start_handle ∧
        DeclaredBelow table (active_value_handles ci) d0.handle))

/-- The control descriptor of the declaration `x`: the first client characteristic
configuration descriptor of the table at least two handles after the declaration. -/
def control_descriptor (table : List bt_gatt_attr) (x : bt_gatt_attr) : Option bt_gatt_attr :=
  table.find? (fun c => decide (c.uuid = BT_UUID_GATT_CCC) && decide (x.handle + 2 ≤ c.handle))

/-- The subscription expected for the notifiable declaration `x`: its value handle and the
handle of its control descriptor. -/
def expected_subscription (table : List bt_gatt_attr) (x : bt_gatt_attr) : Nat × Nat :=
  (bt_gatt_attr_value_handle x, ((control_descriptor table x).map (fun c => c.handle)).getD 0)

/-- A peer table as the scenarios take it: attributes in increasing handle order, handles
in `1 .. 0xFFFF`, and every notifiable declaration with a client characteristic
configuration descriptor at least two handles after it and before the next declaration. -/
def WellFormedPeer (table : List bt_gatt_attr) : Prop :=
  table.Pairwise (fun a b => a.handle < b.handle) ∧
  (∀ a ∈ table, 1 ≤ a.handle ∧ a.handle ≤ 0xFFFF) ∧
  (∀ x ∈ table, notifiable x = true →
    ∃ c ∈ table, c.uuid = BT_UUID_GATT_CCC ∧ x.handle + 2 ≤ c.handle ∧
      ∀ y ∈ table, y.uuid = BT_UUID_GATT_CHRC → x.handle < y.handle → c.handle < y.handle)

/-- The notify bit of the properties of a declaration is set. -/
def notify_bit (a : bt_gatt_attr) : Bool :=
  decide (a.properties &&& BT_GATT_CHRC_NOTIFY ≠ 0)

/-- The notifiable declarations of the table at or above the start handle `s`, none for the
start handle `0`. -/
def notifiable_from (table : List bt_gatt_attr) (s : Nat) : List bt_gatt_attr :=
  if s = 0 then [] else table.filter (fun a => decide (s ≤ a.handle) && notifiable a)

/-- An example peer with a notifiable characteristic declaration at the last handle
`0xFFFF` and a client characteristic configuration descriptor at handle `4`. -/
def wrap_table : List bt_gatt_attr :=
  [⟨4, 0x2902, 0, 0, 0⟩, ⟨0xFFFF, 0x2803, 0x10, 0, 0x2a19⟩]

/-- The slot of connection `7` while the characteristic request from handle `5` is
outstanding in the discovery of `wrap_table`. -/
def wrap_char_state : conninfo :=
  { conninfo.zero with
    conn := some 7
    discover_params := ⟨false, true, 5, 0xffff, BT_GATT_DISCOVER_CHARACTERISTIC⟩
    uuid := BT_UUID_GATT_CCC
    sub_params := conninfo.zero.sub_params.set 0 ⟨false, 0, 4, 1, 1⟩ }

/-- The slot of connection `7` while the descriptor request from handle `1` is outstanding
in the discovery of `wrap_table`. -/
def wrap_desc_state : conninfo :=
  { wrap_char_state with
    discover_params := ⟨true, true, 1, 0xffff, BT_GATT_DISCOVER_DESCRIPTOR⟩ }

/-- A subscription pairs the value handle of a notifiable declaration of the table with
the handle of the first client characteristic configuration descriptor of the table at
least two handles after that declaration. -/
def PairedFirst (table : List bt_gatt_attr) (pair : Nat × Nat) : Prop :=
  ∃ x ∈ table, notifiable x = true ∧ pair.1 = bt_gatt_attr_value_handle x ∧
    ∃ cd, control_descriptor table x = some cd ∧ pair.2 = cd.handle

/-- The declaration `x` has a descriptor of its own: a client characteristic configuration
descriptor at least two handles after it and before the next declaration. -/
def OwnDescriptor (table : List bt_gatt_attr) (x : bt_gatt_attr) : Prop :=
  ∃ c ∈ table, c.uuid = BT_UUID_GATT_CCC ∧ x.handle + 2 ≤ c.handle ∧
    ∀ y ∈ table, y.uuid = BT_UUID_GATT_CHRC → x.handle < y.handle → c.handle < y.handle

/-- The state of a slot during discovery, as far as the pairing goes: every active
subscription is paired as `PairedFirst` says, and unless the start handle is `0` the range
ends at `0xFFFF` and a descriptor request is the one issued for a notifiable declaration
whose value handle the slot remembers. -/
def PairingInv (table : List bt_gatt_attr) (ci : conninfo) : Prop :=
  (∀ pair ∈ active_subscriptions ci, PairedFirst table pair) ∧
  (ci.discover_params.start_handle = 0 ∨
    (ci.discover_params.end_handle = 0xFFFF ∧
      (ci.discover_params.type = BT_GATT_DISCOVER_DESCRIPTOR →
        ∃ x ∈ table, notifiable x = true ∧ ci.value_handle = bt_gatt_attr_value_handle x ∧
          ci.discover_params.start_handle = x.handle + 2 ∧
          ci.discover_params.uuid = true ∧ ci.uuid = BT_UUID_GATT_CCC)))

/-! ## `apps/dehumidifier/src/main.c`: the actuators of the dehumidifier

The globals `ionizer_active`, `fanmode` and `compressor_active`, the levels last written to
the four output pins and the notifications handed to the Bluetooth service make up the
state. The waterbox input is an environment input: `waterbox k` is the level the `k`-th
call of `gpio_pin_get` on the waterbox pin returns. A failing GPIO call ends in `k_oops`,
whose handler `k_sys_fatal_error_handler` reboots the system, so the routines are embedded
for GPIO calls that succeed. `main_waterbox_get` always returns `0`, so the `if (ret)`
branches after it are never taken. The three setters call each other; the first argument
of each bounds the depth of these calls, three levels being the deepest the code reaches. -/

/-- Zephyr errno `ENOTSUP`. -/
def ENOTSUP : Int := 134

/-- Enumerator `FANMODE_OFF` of `enum fanmode`. -/
def FANMODE_OFF : Nat := 0

/-- Enumerator `FANMODE_HALF` of `enum fanmode`. -/
def FANMODE_HALF : Nat := 1

/-- Enumerator `FANMODE_FULL` of `enum fanmode`. -/
def FANMODE_FULL : Nat := 2

/-- A call of one of the `bt_dehumid_*_notify` routines; their return values are only
logged. -/
inductive DehumidNotify where
  | ionizer (val : Bool)
  | fan (mode : Nat)
  | compressor (val : Bool)
  | waterbox (val : Bool)
  deriving DecidableEq, Repr

/-- The state of the dehumidifier: the three globals of `main.c`, the levels last written
to the output pins, the number of waterbox readings taken and the notifications sent. -/
structure Dehumidifier where
  ionizer_active : Bool
  fanmode : Nat
  compressor_active : Bool
  ionizer_pin : Bool
  fan_half_pin : Bool
  fan_full_pin : Bool
  compressor_pin : Bool
  readings : Nat
  notified : List DehumidNotify
  deriving DecidableEq, Repr

/-- The state after `main` has configured the pins: everything off. -/
def Dehumidifier.init : Dehumidifier :=
  { ionizer_active := false, fanmode := FANMODE_OFF, compressor_active := false,
    ionizer_pin := false, fan_half_pin := false, fan_full_pin := false,
    compressor_pin := false, readings := 0, notified := [] }

/-- Routine `main_waterbox_get(pval)`: the next reading of the waterbox pin; the return
value is always `0`. -/
def main_waterbox_get (waterbox : Nat → Bool) (s : Dehumidifier) : Bool × Dehumidifier :=
  (waterbox s.readings, { s with readings := s.readings + 1 })

mutual
/-- Routine `main_ionizer_set(val)`: the return value and the state after the call. -/
def main_ionizer_set (waterbox : Nat → Bool) :
    Nat → Bool → Dehumidifier → Option (Int × Dehumidifier)
  | 0, _, _ => none
  | depth + 1, val, s =>
    let (waterbox_active, s) := main_waterbox_get waterbox s
    if val = true ∧ waterbox_active = true then some (-ENOTSUP, s)
    else
      let fan :=
        if val = true ∧ s.fanmode = FANMODE_OFF then main_fan_set waterbox depth FANMODE_HALF s
        else some (0, s)
      match fan with
      | none => none
      | some (ret, s) =>
        if ret ≠ 0 then some (ret, s)
        else
          some (0, { s with
            ionizer_pin := val
            ionizer_active := val
            notified := s.notified ++ [.ionizer val] })
/-- Routine `main_fan_set(mode)`: the return value and the state after the call. -/
def main_fan_set (waterbox : Nat → Bool) :
    Nat → Nat → Dehumidifier → Option (Int × Dehumidifier)
  | 0, _, _ => none
  | depth + 1, mode, s =>
    let (waterbox_active, s) := main_waterbox_get waterbox s
    if mode ≠ FANMODE_OFF ∧ waterbox_active = true then some (-ENOTSUP, s)
    else
      match main_compressor_set waterbox depth false s with
      | none => none
      | some (_, s) =>
        match main_ionizer_set waterbox depth false s with
        | none => none
        | some (_, s) =>
          let pins : Option (Bool × Bool) :=
            if mode = FANMODE_OFF then some (false, false)
            else if mode = FANMODE_HALF then some (true, false)
            else if mode = FANMODE_FULL then some (false, true)
            else none
          match pins with
          | none => some (-ENOTSUP, s)
          | some (half, full) =>
            some (0, { s with
              fan_half_pin := half
              fan_full_pin := full
              notified := s.notified ++ (if s.fanmode ≠ mode then [.fan mode] else [])
              fanmode := mode })
/-- Routine `main_compressor_set(val)`: the return value and the state after the call. -/
def main_compressor_set (waterbox : Nat → Bool) :
    Nat → Bool → Dehumidifier → Option (Int × Dehumidifier)
  | 0, _, _ => none
  | depth + 1, val, s =>
    let (waterbox_active, s) := main_waterbox_get waterbox s
    if val = true ∧ waterbox_active = true then some (-ENOTSUP, s)
    else
      let fan :=
        if val = true ∧ s.fanmode ≠ FANMODE_FULL then main_fan_set waterbox depth FANMODE_FULL s
        else some (0, s)
      match fan with
      | none => none
      | some (ret, s) =>
        if ret ≠ 0 then some (ret, s)
        else
          some (0, { s with
            compressor_pin := val
            notified :=
              s.notified ++ (if val ≠ s.compressor_active then [.compressor val] else [])
            compressor_active := val })
end

/-- Routine `handle_waterbox_changed(work)`: the state after the call. -/
def handle_waterbox_changed (waterbox : Nat → Bool) (depth : Nat) (s : Dehumidifier) :
    Option Dehumidifier :=
  let (val, s) := main_waterbox_get waterbox s
  let off : Option Dehumidifier :=
    if val = true then
      match main_compressor_set waterbox depth false s with
      | none => none
      | some (_, s) =>
        match main_ionizer_set waterbox depth false s with
        | none => none
        | some (_, s) =>
          match main_fan_set waterbox depth FANMODE_OFF s with
          | none => none
          | some (_, s) => some s
    else some s
  match off with
  | none => none
  | some s => some { s with notified := s.notified ++ [.waterbox val] }

/-- An operation on the dehumidifier: a call of one of the three setters with its argument
(from the Bluetooth service) or the handling of a waterbox change. -/
inductive DehumidOp where
  | ionizer_set (val : Bool)
  | fan_set (mode : Nat)
  | compressor_set (val : Bool)
  | waterbox_changed
  deriving DecidableEq, Repr

/-- One operation, run to its return. -/
def dehumid_step (waterbox : Nat → Bool) (depth : Nat) (s : Dehumidifier) :
    DehumidOp → Option Dehumidifier
  | .ionizer_set val => (main_ionizer_set waterbox depth val s).map (fun r => r.2)
  | .fan_set mode => (main_fan_set waterbox depth mode s).map (fun r => r.2)
  | .compressor_set val => (main_compressor_set waterbox depth val s).map (fun r => r.2)
  | .waterbox_changed => handle_waterbox_changed waterbox depth s

/-- A sequence of operations, one after the other. -/
def dehumid_run (waterbox : Nat → Bool) (depth : Nat) :
    List DehumidOp → Dehumidifier → Option Dehumidifier
  | [], s => some s
  | op :: ops, s =>
    match dehumid_step waterbox depth s op with
    | none => none
    | some s => dehumid_run waterbox depth ops s

/-- The safety interlocks: the compressor runs only with the fan at full speed, the
ionizer only with the fan running. -/
def Interlocks (s : Dehumidifier) : Prop :=
  (s.compressor_active = true → s.fanmode = FANMODE_FULL) ∧
  (s.ionizer_active = true → s.fanmode ≠ FANMODE_OFF)

/-! # Theorems -/

/-! ## Lemmas on the library routines -/

theorem char2hex_ascii : ∀ n < 128, char2hex (Char.ofNat n) = hexDigitValue (Char.ofNat n) := by
  decide

theorem hexDigit_lower_ascii : ∀ x ∈ "0123456789abcdef".toList, x.toNat < 128 := by decide

theorem hexDigit_upper_ascii : ∀ x ∈ "0123456789ABCDEF".toList, x.toNat < 128 := by decide

theorem char2hex_eq_hexDigitValue (c : Char) : char2hex c = hexDigitValue c := by
  by_cases h : c.toNat < 128
  · have := char2hex_ascii c.toNat h
    rwa [Char.ofNat_toNat] at this
  · have h1 : c ∉ "0123456789abcdef".toList := fun hm => h (hexDigit_lower_ascii c hm)
    have h2 : c ∉ "0123456789ABCDEF".toList := fun hm => h (hexDigit_upper_ascii c hm)
    have e1 : "0123456789abcdef".toList.indexOf c = 16 := by
      rw [List.indexOf_eq_length.2 h1]; rfl
    have e2 : "0123456789ABCDEF".toList.indexOf c = 16 := by
      rw [List.indexOf_eq_length.2 h2]; rfl
    have hc : char2hex c = none := by
      unfold char2hex
      have a0 : '0'.toNat = 48 := rfl
      have a9 : '9'.toNat = 57 := rfl
      have aa : 'a'.toNat = 97 := rfl
      have af : 'f'.toNat = 102 := rfl
      have aA : 'A'.toNat = 65 := rfl
      have aF : 'F'.toNat = 70 := rfl
      rw [a0, a9, aa, af, aA, aF]
      split_ifs <;> first | rfl | omega
    rw [hc]
    unfold hexDigitValue
    simp only [e1, e2]
    rfl

theorem char2hex_lt (c : Char) (d : Nat) (h : char2hex c = some d) : d < 16 := by
  unfold char2hex at h
  have a0 : '0'.toNat = 48 := rfl
  have a9 : '9'.toNat = 57 := rfl
  have aa : 'a'.toNat = 97 := rfl
  have af : 'f'.toNat = 102 := rfl
  have aA : 'A'.toNat = 65 := rfl
  have aF : 'F'.toNat = 70 := rfl
  rw [a0, a9, aa, af, aA, aF] at h
  split_ifs at h <;> simp at h <;> omega

theorem char2hex_toNat (c : Char) (d : Nat) (h : char2hex c = some d) :
    (48 ≤ c.toNat ∧ c.toNat ≤ 57) ∨ (97 ≤ c.toNat ∧ c.toNat ≤ 102) ∨
      (65 ≤ c.toNat ∧ c.toNat ≤ 70) := by
  unfold char2hex at h
  have a0 : '0'.toNat = 48 := rfl
  have a9 : '9'.toNat = 57 := rfl
  have aa : 'a'.toNat = 97 := rfl
  have af : 'f'.toNat = 102 := rfl
  have aA : 'A'.toNat = 65 := rfl
  have aF : 'F'.toNat = 70 := rfl
  rw [a0, a9, aa, af, aA, aF] at h
  split_ifs at h <;> omega

theorem toNat_ne_of_ne_code (c : Char) (k : Char) (h : c.toNat ≠ k.toNat) : c ≠ k := by
  intro e; exact h (by rw [e])

theorem strtoul_digit_of_char2hex (c : Char) (d : Nat) (h : char2hex c = some d) :
    strtoul_digit c = some d := by
  unfold char2hex at h
  unfold strtoul_digit
  have a0 : '0'.toNat = 48 := rfl
  have a9 : '9'.toNat = 57 := rfl
  have aa : 'a'.toNat = 97 := rfl
  have af : 'f'.toNat = 102 := rfl
  have az : 'z'.toNat = 122 := rfl
  have aA : 'A'.toNat = 65 := rfl
  have aF : 'F'.toNat = 70 := rfl
  have aZ : 'Z'.toNat = 90 := rfl
  rw [a0, a9, aa, af, aA, aF] at h
  rw [a0, a9, aa, az, aA, aZ]
  split_ifs at h with h1 h2 h3
  · rw [if_pos h1]; exact h
  · rw [if_neg h1, if_neg (by omega), if_pos (by omega)]; exact h
  · rw [if_neg h1, if_pos (by omega)]; exact h

theorem isspace_of_char2hex (c : Char) (d : Nat) (h : char2hex c = some d) :
    isspace c = false := by
  have hc := char2hex_toNat c d h
  have hs : c ≠ ' ' := toNat_ne_of_ne_code c ' ' (by
    have : ' '.toNat = 32 := rfl
    omega)
  unfold isspace
  simp only [hs, false_or, decide_eq_false_iff_not, not_and, not_le]
  omega

theorem strtoul_sign_of_char2hex (c : Char) (d : Nat) (s : List Char)
    (h : char2hex c = some d) : strtoul_sign (c :: s) = (false, c :: s) := by
  have hc := char2hex_toNat c d h
  have h1 : c ≠ '-' := toNat_ne_of_ne_code c '-' (by
    have : '-'.toNat = 45 := rfl
    omega)
  have h2 : c ≠ '+' := toNat_ne_of_ne_code c '+' (by
    have : '+'.toNat = 43 := rfl
    omega)
  simp [strtoul_sign, h1, h2]

theorem strtoul_hexmark_of_char2hex (c x : Char) (d : Nat) (s : List Char)
    (h : char2hex x = some d) : strtoul_hexmark (c :: x :: s) = c :: x :: s := by
  have hc := char2hex_toNat x d h
  have h1 : x ≠ 'x' := toNat_ne_of_ne_code x 'x' (by
    have : 'x'.toNat = 120 := rfl
    omega)
  have h2 : x ≠ 'X' := toNat_ne_of_ne_code x 'X' (by
    have : 'X'.toNat = 88 := rfl
    omega)
  simp [strtoul_hexmark, h1, h2]

theorem strtoul_acc_step (c : Char) (d : Nat) (s : List Char) (acc : Nat)
    (h : char2hex c = some d) (hacc : acc < 2 ^ 28) :
    strtoul_acc 16 (c :: s) acc false = strtoul_acc 16 s (acc * 16 + d) false := by
  have hd := char2hex_lt c d h
  have hu : ULONG_MAX / 16 = 2 ^ 28 - 1 := by decide
  have hm : ULONG_MAX % 16 = 15 := by decide
  rw [strtoul_acc, strtoul_digit_of_char2hex c d h]
  simp only [hu, hm]
  rw [if_neg (by omega), if_neg]
  simp only [Bool.false_eq_true, false_or, not_or, not_lt, not_and]
  exact ⟨by omega, fun e => by omega⟩

/-- The value `strtoul(s, NULL, 16)` returns on four hexadecimal digits is the number they
denote, with `errno` left `0`. -/
theorem strtoul16_four_digits (s : List Char) (h : Nat) (hlen : s.length = 4)
    (hval : hexValue s = some h) : strtoul16 s = (h, 0) := by
  match s, hlen with
  | [c0, c1, c2, c3], _ =>
    simp only [hexValue, hexValueFrom, ← char2hex_eq_hexDigitValue] at hval
    cases e0 : char2hex c0 with
    | none => simp [e0] at hval
    | some d0 =>
    cases e1 : char2hex c1 with
    | none => simp [e0, e1] at hval
    | some d1 =>
    cases e2 : char2hex c2 with
    | none => simp [e0, e1, e2] at hval
    | some d2 =>
    cases e3 : char2hex c3 with
    | none => simp [e0, e1, e2, e3] at hval
    | some d3 =>
    simp only [e0, e1, e2, e3, Option.some.injEq] at hval
    have b0 := char2hex_lt _ _ e0
    have b1 := char2hex_lt _ _ e1
    have b2 := char2hex_lt _ _ e2
    have b3 := char2hex_lt _ _ e3
    have hdrop : List.dropWhile isspace [c0, c1, c2, c3] = [c0, c1, c2, c3] := by
      rw [List.dropWhile_cons_of_neg]
      simp [isspace_of_char2hex c0 d0 e0]
    unfold strtoul16
    simp only [hdrop, strtoul_sign_of_char2hex c0 d0 _ e0,
      strtoul_hexmark_of_char2hex c0 c1 d1 _ e1]
    rw [strtoul_acc_step c0 d0 _ 0 e0 (by omega),
      strtoul_acc_step c1 d1 _ _ e1 (by omega),
      strtoul_acc_step c2 d2 _ _ e2 (by omega),
      strtoul_acc_step c3 d3 _ _ e3 (by omega)]
    simp only [strtoul_acc]
    simp only [Bool.false_eq_true, if_false, Prod.mk.injEq, and_true]
    omega

theorem hexValue_four_lt (s : List Char) (h : Nat) (hlen : s.length = 4)
    (hval : hexValue s = some h) : h < 2 ^ 16 := by
  match s, hlen with
  | [c0, c1, c2, c3], _ =>
    simp only [hexValue, hexValueFrom, ← char2hex_eq_hexDigitValue] at hval
    cases e0 : char2hex c0 with
    | none => simp [e0] at hval
    | some d0 =>
    cases e1 : char2hex c1 with
    | none => simp [e0, e1] at hval
    | some d1 =>
    cases e2 : char2hex c2 with
    | none => simp [e0, e1, e2] at hval
    | some d2 =>
    cases e3 : char2hex c3 with
    | none => simp [e0, e1, e2, e3] at hval
    | some d3 =>
    simp only [e0, e1, e2, e3, Option.some.injEq] at hval
    have b0 := char2hex_lt _ _ e0
    have b1 := char2hex_lt _ _ e1
    have b2 := char2hex_lt _ _ e2
    have b3 := char2hex_lt _ _ e3
    omega

/-! ## Lemmas on `get_path_segment` -/

theorem get_path_segment_skip_segment (seg rest : List Char) (k n : Nat)
    (hseg : '/' ∉ seg) :
    get_path_segment_skip (seg ++ '/' :: rest) (seg.length + 1 + k) (n + 1) =
      get_path_segment_skip rest k n := by
  induction seg with
  | nil =>
    have e : ([] : List Char).length + 1 + k = k + 1 := by simp; omega
    rw [e, List.nil_append, get_path_segment_skip, if_pos rfl]
  | cons c seg ih =>
    have hc : c ≠ '/' := fun e => hseg (by rw [e]; exact List.mem_cons_self _ _)
    have hs : '/' ∉ seg := fun hm => hseg (List.mem_cons_of_mem _ hm)
    have e : (c :: seg).length + 1 + k = (seg.length + 1 + k) + 1 := by
      simp only [List.length_cons]; omega
    rw [e, List.cons_append, get_path_segment_skip, if_neg hc, ih hs]

theorem get_path_segment_scan_segment (seg rest : List Char) (hseg : '/' ∉ seg) :
    get_path_segment_scan (seg ++ '/' :: rest) = .ok seg.length := by
  induction seg with
  | nil => rw [List.nil_append, get_path_segment_scan, if_pos rfl]; rfl
  | cons c seg ih =>
    have hc : c ≠ '/' := fun e => hseg (by rw [e]; exact List.mem_cons_self _ _)
    have hs : '/' ∉ seg := fun hm => hseg (List.mem_cons_of_mem _ hm)
    rw [List.cons_append, get_path_segment_scan, if_neg hc, ih hs]
    rfl

/-- Segment 1 of `root/seg1/tail`: it starts right after the first slash and has the
length of `seg1`. -/
theorem get_path_segment_one (root seg1 tail : List Char) (k : Nat)
    (hroot : '/' ∉ root) (h1 : '/' ∉ seg1) :
    get_path_segment ⟨root ++ '/' :: (seg1 ++ '/' :: tail), root.length + 1 + k⟩ 1 =
      .ok ⟨seg1 ++ '/' :: tail, seg1.length⟩ := by
  unfold get_path_segment
  simp only
  rw [get_path_segment_skip_segment root _ k 0 hroot]
  simp only [get_path_segment_skip]
  rw [get_path_segment_scan_segment seg1 tail h1]

/-- Segment 2 of `root/seg1/seg2/tail`. -/
theorem get_path_segment_two (root seg1 seg2 tail : List Char) (k : Nat)
    (hroot : '/' ∉ root) (h1 : '/' ∉ seg1) (h2 : '/' ∉ seg2) :
    get_path_segment
        ⟨root ++ '/' :: (seg1 ++ '/' :: (seg2 ++ '/' :: tail)),
          root.length + 1 + (seg1.length + 1 + k)⟩ 2 =
      .ok ⟨seg2 ++ '/' :: tail, seg2.length⟩ := by
  unfold get_path_segment
  simp only
  rw [get_path_segment_skip_segment root _ _ 1 hroot,
    get_path_segment_skip_segment seg1 _ k 0 h1]
  simp only [get_path_segment_skip]
  rw [get_path_segment_scan_segment seg2 tail h2]

/-! ## Lemmas on `bt_addr_from_str` -/

theorem char2hex_ne_slash (c : Char) (d : Nat) (h : char2hex c = some d) : c ≠ '/' := by
  have hc := char2hex_toNat c d h
  exact toNat_ne_of_ne_code c '/' (by
    have : '/'.toNat = 47 := rfl
    omega)

theorem bt_addr_from_str_loop_no_slash (str : List Char) :
    ∀ (i : Int) (j : Nat) (val v : List Nat),
      (∀ c ∈ str, c ≠ Char.ofNat 0) → bt_addr_from_str_loop str i j val = .ok v →
      '/' ∉ str := by
  induction str with
  | nil => intro _ _ _ _ _ _; exact List.not_mem_nil _
  | cons c str ih =>
    intro i j val v hnul hok
    have hc0 : c ≠ Char.ofNat 0 := hnul c (List.mem_cons_self _ _)
    have hrest : ∀ x ∈ str, x ≠ Char.ofNat 0 := fun x hx => hnul x (List.mem_cons_of_mem _ hx)
    rw [bt_addr_from_str_loop, if_neg hc0] at hok
    split_ifs at hok with h1 h2 h3
    · intro hm
      rcases List.mem_cons.1 hm with e | hm'
      · rw [← e] at h2; exact absurd h2 (by decide)
      · exact ih _ _ _ _ hrest hok hm'
    · cases e : char2hex c with
      | none => rw [e] at hok; simp at hok
      | some d =>
        rw [e] at hok
        intro hm
        rcases List.mem_cons.1 hm with e' | hm'
        · exact char2hex_ne_slash c d e e'.symm
        · exact ih _ _ _ _ hrest hok hm'

theorem strlen_eq_length (s : List Char) (h : strlen s = s.length) :
    ∀ c ∈ s, c ≠ Char.ofNat 0 := by
  unfold strlen at h
  have e : s.takeWhile (fun c => c ≠ Char.ofNat 0) = s :=
    (List.takeWhile_sublist _).eq_of_length h
  intro c hc
  have := List.takeWhile_eq_self_iff.1 e c hc
  simpa using this

/-- A 17-character string accepted by `bt_addr_from_str` contains no slash. -/
theorem bt_addr_from_str_no_slash (mac : List Char) (btaddr addr : bt_addr_t)
    (hlen : mac.length = 17) (h : bt_addr_from_str mac btaddr = .ok addr) : '/' ∉ mac := by
  unfold bt_addr_from_str at h
  split_ifs at h with hs
  have hs' : strlen mac = mac.length := by rw [hlen]; exact not_not.1 hs
  cases e : bt_addr_from_str_loop mac 5 1 btaddr.val with
  | ok v => exact bt_addr_from_str_loop_no_slash mac 5 1 _ v (strlen_eq_length mac hs') e
  | fail e' => rw [e] at h; simp at h
  | undefined => rw [e] at h; simp at h

theorem hexValue_no_slash (s : List Char) :
    ∀ (acc h : Nat), hexValueFrom acc s = some h → '/' ∉ s := by
  induction s with
  | nil => intro _ _ _; exact List.not_mem_nil _
  | cons c s ih =>
    intro acc h hv
    rw [hexValueFrom, ← char2hex_eq_hexDigitValue] at hv
    cases e : char2hex c with
    | none => rw [e] at hv; simp at hv
    | some d =>
      rw [e] at hv
      intro hm
      rcases List.mem_cons.1 hm with e' | hm'
      · exact char2hex_ne_slash c d e e'.symm
      · exact ih _ _ hv hm'

/-- The topic decoding of `handle_publish` on `root/mac/hhhh/tail`, whatever the last
segment `tail` is and whatever follows the topic in memory: with an accepted 17-character
address and four hex digits denoting `h`, it yields that address and `h` unless `h = 0`,
which is rejected. -/
theorem handle_publish_topic_segments (root mac hhhh tail : List Char) (k : Nat)
    (btaddr addr : bt_addr_t) (h : Nat)
    (hroot : '/' ∉ root) (hmac : mac.length = 17)
    (haddr : bt_addr_from_str mac btaddr = .ok addr)
    (hlen : hhhh.length = 4) (hval : hexValue hhhh = some h) :
    handle_publish_topic
        ⟨root ++ '/' :: (mac ++ '/' :: (hhhh ++ '/' :: tail)),
          root.length + 1 + (mac.length + 1 + k)⟩ btaddr =
      if h = 0 then .fail (-EINVAL) else .ok (addr, h) := by
  have hm := bt_addr_from_str_no_slash mac btaddr addr hmac haddr
  have hh := hexValue_no_slash hhhh 0 h hval
  have hlt := hexValue_four_lt hhhh h hlen hval
  unfold handle_publish_topic
  have e1 := get_path_segment_one root mac (hhhh ++ '/' :: tail) (mac.length + 1 + k) hroot hm
  rw [e1, get_path_segment_two root mac hhhh tail k hroot hm hh]
  simp only [hmac, hlen, BT_ADDR_STR_LEN]
  have t1 : List.take 17 (mac ++ '/' :: (hhhh ++ '/' :: tail)) = mac := by
    rw [← hmac]; exact List.take_left' rfl
  have t2 : List.take 4 (hhhh ++ '/' :: tail) = hhhh := by
    rw [← hlen]; exact List.take_left' rfl
  simp only [t1, t2, haddr, strtoul16_four_digits hhhh h hlen hval]
  have hu : ULONG_MAX = 4294967295 := by decide
  simp only [hu]
  rw [if_neg (by simp), if_neg (by simp)]
  by_cases hz : h = 0
  · rw [if_pos (Or.inl hz), if_pos hz]
  · rw [if_neg hz, if_neg]
    intro hcon
    rcases hcon with h1 | h1 | h1
    · exact hz h1
    · omega
    · exact h1 rfl

/-- On a control topic followed by any bytes `rest`, see `handle_publish_topic_segments`. -/
theorem handle_publish_topic_control (root mac hhhh rest : List Char)
    (btaddr addr : bt_addr_t) (h : Nat)
    (hroot : '/' ∉ root) (hmac : mac.length = 17)
    (haddr : bt_addr_from_str mac btaddr = .ok addr)
    (hlen : hhhh.length = 4) (hval : hexValue hhhh = some h) :
    handle_publish_topic
        ⟨controlTopic root mac hhhh ++ rest, (controlTopic root mac hhhh).length⟩ btaddr =
      if h = 0 then .fail (-EINVAL) else .ok (addr, h) := by
  have et : controlTopic root mac hhhh ++ rest =
      root ++ '/' :: (mac ++ '/' :: (hhhh ++ '/' :: ("set".toList ++ rest))) := by
    simp [controlTopic, List.append_assoc]
  have el : (controlTopic root mac hhhh).length = root.length + 1 + (mac.length + 1 + 8) := by
    simp [controlTopic, hlen]; omega
  rw [et, el]
  exact handle_publish_topic_segments root mac hhhh _ 8 btaddr addr h hroot hmac haddr
    hlen hval

/-! ## The control topic -/

/-- C1: for every control topic `<root>/<mac>/<hhhh>/set`, with `<mac>` a 17-character
string accepted by `bt_addr_from_str` and `<hhhh>` four hex digits denoting a handle `h`
with `0 < h < 0xFFFF`, `get_path_segment` with `n = 1` and `n = 2` delimits exactly `<mac>`
and `<hhhh>`, and the decoding of `handle_publish` yields the parsed address and `h`,
whatever bytes follow the topic in memory. -/
theorem control_topic_decodes (root mac hhhh rest : List Char) (btaddr addr : bt_addr_t)
    (h : Nat) (hroot : '/' ∉ root) (hmac : mac.length = 17)
    (haddr : bt_addr_from_str mac btaddr = .ok addr)
    (hlen : hhhh.length = 4) (hval : hexValue hhhh = some h)
    (h0 : 0 < h) (_hmax : h < 0xFFFF) :
    (∃ m1 m2,
      get_path_segment
          ⟨controlTopic root mac hhhh ++ rest, (controlTopic root mac hhhh).length⟩ 1 =
        .ok ⟨m1, 17⟩ ∧ m1.take 17 = mac ∧
      get_path_segment
          ⟨controlTopic root mac hhhh ++ rest, (controlTopic root mac hhhh).length⟩ 2 =
        .ok ⟨m2, 4⟩ ∧ m2.take 4 = hhhh) ∧
    handle_publish_topic
        ⟨controlTopic root mac hhhh ++ rest, (controlTopic root mac hhhh).length⟩ btaddr =
      .ok (addr, h) := by
  have hm := bt_addr_from_str_no_slash mac btaddr addr hmac haddr
  have hh := hexValue_no_slash hhhh 0 h hval
  have et : controlTopic root mac hhhh ++ rest =
      root ++ '/' :: (mac ++ '/' :: (hhhh ++ '/' :: ("set".toList ++ rest))) := by
    simp [controlTopic, List.append_assoc]
  have el : (controlTopic root mac hhhh).length = root.length + 1 + (mac.length + 1 + 8) := by
    simp [controlTopic, hlen]; omega
  rw [et, el]
  refine ⟨⟨mac ++ '/' :: (hhhh ++ '/' :: ("set".toList ++ rest)),
    hhhh ++ '/' :: ("set".toList ++ rest), ?_, ?_, ?_, ?_⟩, ?_⟩
  · rw [get_path_segment_one root mac _ _ hroot hm, hmac]
  · rw [← hmac]; exact List.take_left' rfl
  · rw [get_path_segment_two root mac hhhh _ 8 hroot hm hh, hlen]
  · rw [← hlen]; exact List.take_left' rfl
  · rw [handle_publish_topic_segments root mac hhhh _ 8 btaddr addr h hroot hmac haddr
      hlen hval, if_neg (by omega)]

/-- C1, the example of the specification: `bridge/AA:BB:CC:DD:EE:FF/0012/set` yields the
address `AA:BB:CC:DD:EE:FF` (stored least significant byte first) and the handle
`0x0012`. -/
theorem control_topic_decodes_witness :
    handle_publish_topic
        ⟨"bridge/AA:BB:CC:DD:EE:FF/0012/set".toList, 33⟩ ⟨[0, 0, 0, 0, 0, 0]⟩ =
      .ok (⟨[0xFF, 0xEE, 0xDD, 0xCC, 0xBB, 0xAA]⟩, 0x0012) :=
  (control_topic_decodes "bridge".toList "AA:BB:CC:DD:EE:FF".toList "0012".toList []
    ⟨[0, 0, 0, 0, 0, 0]⟩ ⟨[0xFF, 0xEE, 0xDD, 0xCC, 0xBB, 0xAA]⟩ 0x0012
    (by decide) (by decide) (by decide) (by decide) (by decide) (by decide) (by decide)).2

/-! ## The control payload -/

theorem hex2bin_loop_pairs (n : Nat) :
    ∀ payload : List Char, payload.length = 2 * n →
      (∀ c ∈ payload, (hexDigitValue c).isSome) →
      ∃ bytes, hex2bin_loop payload = some bytes ∧ bytes.length = n ∧
        ∀ i < n, ∃ x y, (payload[2 * i]?).bind hexDigitValue = some x ∧
          (payload[2 * i + 1]?).bind hexDigitValue = some y ∧
          bytes[i]? = some (16 * x + y) := by
  induction n with
  | zero =>
    intro payload hlen _
    have : payload = [] := List.length_eq_zero.1 (by omega)
    subst this
    exact ⟨[], rfl, rfl, fun i hi => absurd hi (by omega)⟩
  | succ n ih =>
    intro payload hlen hhex
    match payload, hlen, hhex with
    | a :: b :: rest, hlen, hhex =>
      have hlen' : rest.length = 2 * n := by simp only [List.length_cons] at hlen; omega
      have ha : (hexDigitValue a).isSome := hhex a (by simp)
      have hb : (hexDigitValue b).isSome := hhex b (by simp)
      obtain ⟨x, hx⟩ := Option.isSome_iff_exists.1 ha
      obtain ⟨y, hy⟩ := Option.isSome_iff_exists.1 hb
      obtain ⟨bytes, hb1, hb2, hb3⟩ := ih rest hlen' (fun c hc => hhex c (by simp [hc]))
      have bx := char2hex_lt a x (by rw [char2hex_eq_hexDigitValue]; exact hx)
      have bY := char2hex_lt b y (by rw [char2hex_eq_hexDigitValue]; exact hy)
      refine ⟨(16 * x + y) :: bytes, ?_, by simp [hb2], ?_⟩
      · rw [hex2bin_loop, char2hex_eq_hexDigitValue, char2hex_eq_hexDigitValue, hx, hy]
        simp only [hb1]
        have : (x * 16 + y) % 256 = 16 * x + y := by omega
        rw [this]
      · intro i hi
        cases i with
        | zero => exact ⟨x, y, by simpa using hx, by simpa using hy, by simp⟩
        | succ i =>
          obtain ⟨x', y', h1, h2, h3⟩ := hb3 i (by omega)
          refine ⟨x', y', ?_, ?_, ?_⟩
          · have e : 2 * (i + 1) = 2 * i + 1 + 1 := by omega
            rw [e]; simpa using h1
          · have e : 2 * (i + 1) + 1 = 2 * i + 1 + 1 + 1 := by omega
            rw [e]; simpa using h2
          · simpa using h3

/-- C2: a control payload of `2n` hexadecimal digits, `1 ≤ n ≤ 64`, is decoded by the
`hex2bin` call of `handle_publish` into exactly `n` bytes, byte `i` being
`16 * x + y` for the values `x`, `y` that digits `2i` and `2i + 1` denote. -/
theorem payload_hex_decodes (payload : List Char) (n : Nat) (_hn1 : 1 ≤ n) (hn : n ≤ 64)
    (hlen : payload.length = 2 * n) (hhex : ∀ c ∈ payload, (hexDigitValue c).isSome) :
    ∃ bytes, hex2bin payload APP_MQTT_BUFFER_SIZE = some bytes ∧ bytes.length = n ∧
      ∀ i < n, ∃ x y, (payload[2 * i]?).bind hexDigitValue = some x ∧
        (payload[2 * i + 1]?).bind hexDigitValue = some y ∧
        bytes[i]? = some (16 * x + y) := by
  obtain ⟨bytes, h1, h2, h3⟩ := hex2bin_loop_pairs n payload hlen hhex
  refine ⟨bytes, ?_, h2, h3⟩
  unfold hex2bin
  have hb : APP_MQTT_BUFFER_SIZE = 128 := rfl
  rw [if_neg (by rw [hlen, hb]; omega), if_neg (by rw [hlen]; omega), h1]

/-- C2, the example of the specification: the payload `0102` decodes to the bytes
`[0x01, 0x02]`. -/
theorem payload_hex_decodes_witness :
    hex2bin "0102".toList APP_MQTT_BUFFER_SIZE = some [0x01, 0x02] ∧
    ∃ bytes, hex2bin "0102".toList APP_MQTT_BUFFER_SIZE = some bytes ∧ bytes.length = 2 ∧
      ∀ i < 2, ∃ x y, ("0102".toList[2 * i]?).bind hexDigitValue = some x ∧
        ("0102".toList[2 * i + 1]?).bind hexDigitValue = some y ∧
        bytes[i]? = some (16 * x + y) :=
  ⟨by decide,
    payload_hex_decodes "0102".toList 2 (by decide) (by decide) (by decide) (by decide)⟩

theorem hex2bin_loop_none :
    ∀ l : List Char, l.length % 2 = 0 → (∃ c ∈ l, char2hex c = none) →
      hex2bin_loop l = none
  | [], _, ⟨_, hc, _⟩ => absurd hc (List.not_mem_nil _)
  | [_], h, _ => by simp at h
  | a :: b :: rest, h, ⟨c, hc, hn⟩ => by
    rw [hex2bin_loop]
    cases ea : char2hex a with
    | none => rfl
    | some x =>
      cases eb : char2hex b with
      | none => rfl
      | some y =>
        have hr : hex2bin_loop rest = none := by
          apply hex2bin_loop_none rest
          · simp only [List.length_cons] at h; omega
          · rcases List.mem_cons.1 hc with e | hc'
            · rw [e, ea] at hn; cases hn
            · rcases List.mem_cons.1 hc' with e | hc''
              · rw [e, eb] at hn; cases hn
              · exact ⟨c, hc'', hn⟩
        simp only [hr]

/-- Routine `hex2bin` fails on every input that contains a byte that is not a hex digit. -/
theorem hex2bin_non_hex (payload : List Char) (buflen : Nat)
    (h : ∃ c ∈ payload, hexDigitValue c = none) : hex2bin payload buflen = none := by
  obtain ⟨c, hc, hn⟩ := h
  rw [← char2hex_eq_hexDigitValue] at hn
  unfold hex2bin
  split_ifs with h1 h2
  · rfl
  · match payload, hc, h2 with
    | a :: rest, hc, h2 =>
      simp only
      cases ea : char2hex a with
      | none => rfl
      | some x =>
        have hr : hex2bin_loop rest = none := by
          apply hex2bin_loop_none rest
          · simp only [List.length_cons] at h2; omega
          · rcases List.mem_cons.1 hc with e | hc'
            · rw [e, ea] at hn; cases hn
            · exact ⟨c, hc', hn⟩
        simp only [hr]
  · exact hex2bin_loop_none payload (by omega) ⟨c, hc, hn⟩

/-- Routine `hex2bin` accepts an odd number of hex digits: the first digit becomes a byte of its
own, the others are paired. -/
theorem hex2bin_odd (payload : List Char) (buflen : Nat)
    (hodd : payload.length % 2 = 1) (hbuf : payload.length / 2 + 1 ≤ buflen)
    (hhex : ∀ c ∈ payload, (hexDigitValue c).isSome) :
    ∃ x bytes, (payload.head?).bind hexDigitValue = some x ∧
      hex2bin payload buflen = some (x :: bytes) ∧ bytes.length = payload.length / 2 := by
  match payload, hodd, hbuf, hhex with
  | a :: rest, hodd, hbuf, hhex =>
    obtain ⟨x, hx⟩ := Option.isSome_iff_exists.1 (hhex a (by simp))
    have hl : rest.length = 2 * ((a :: rest).length / 2) := by
      simp only [List.length_cons] at hodd ⊢; omega
    obtain ⟨bytes, h1, h2, _⟩ :=
      hex2bin_loop_pairs _ rest hl (fun c hc => hhex c (by simp [hc]))
    refine ⟨x, bytes, by simpa using hx, ?_, h2⟩
    unfold hex2bin
    rw [if_neg (by omega), if_pos (by omega)]
    simp only [char2hex_eq_hexDigitValue, hx, h1]

/-- C3 (as amended): a control payload that contains a character that is not a
hexadecimal digit makes `handle_publish` return after the failed `hex2bin`, with no call
of `main_set_bluetooth_value`, no attribute write, no change of the connection table (and
no acknowledgment). An odd-length payload of hexadecimal digits is not rejected: its
first digit is decoded as a byte of its own and the run goes on with
`payload.length / 2 + 1` bytes. -/
theorem non_hex_payload_rejected (lookup : bt_addr_le_t → Option Nat) (gatt_write_ret : Int)
    (script script' : List ReadStep) (btaddr : bt_addr_t) (conns : List conninfo)
    (param : mqtt_publish_param) (payload : List Char)
    (hsize : param.payload_len ≤ APP_MQTT_BUFFER_SIZE)
    (hread : read_payload script param.payload_len = (.ok payload, script')) :
    ((∃ c ∈ payload, hexDigitValue c = none) →
      handle_publish lookup gatt_write_ret script btaddr conns param =
        some ⟨conns, [param.payload_len], none, [], []⟩) ∧
    ((∀ c ∈ payload, (hexDigitValue c).isSome) → payload.length % 2 = 1 →
      payload.length ≤ APP_MQTT_BUFFER_SIZE →
      ∃ x bytes, (payload.head?).bind hexDigitValue = some x ∧
        hex2bin payload APP_MQTT_BUFFER_SIZE = some (x :: bytes) ∧
        bytes.length = payload.length / 2) := by
  constructor
  · intro hbad
    unfold handle_publish
    simp only
    rw [if_neg (by omega), hread]
    simp only [hex2bin_non_hex payload _ hbad]
  · intro hhex hodd hlen
    have hb : APP_MQTT_BUFFER_SIZE = 128 := rfl
    exact hex2bin_odd payload _ hodd (by rw [hb] at hlen ⊢; omega) hhex

/-- C3 (as amended) at the payload `01g0` sent to a connected peer. -/
theorem non_hex_payload_rejected_witness :
    handle_publish (fun _ => some 7) 0 [.bytes "01g0".toList] ⟨[0, 0, 0, 0, 0, 0]⟩
        [{ conninfo.zero with conn := some 7 }]
        ⟨⟨"bridge/AA:BB:CC:DD:EE:FF/0012/set".toList, 33⟩, 2, 4, 1⟩ =
      some ⟨[{ conninfo.zero with conn := some 7 }], [4], none, [], []⟩ :=
  (non_hex_payload_rejected (fun _ => some 7) 0 [.bytes "01g0".toList] []
    ⟨[0, 0, 0, 0, 0, 0]⟩ [{ conninfo.zero with conn := some 7 }]
    ⟨⟨"bridge/AA:BB:CC:DD:EE:FF/0012/set".toList, 33⟩, 2, 4, 1⟩ "01g0".toList
    (by decide) (by decide)).1 ⟨'g', by decide, by decide⟩

/-- C3, counterexample: the odd-length payload `010` is not rejected. `hex2bin` decodes it
to the two bytes `[0x00, 0x10]`, and `handle_publish` forwards them to the connected peer
as an attribute write. -/
theorem odd_payload_written :
    hex2bin "010".toList APP_MQTT_BUFFER_SIZE = some [0x00, 0x10] ∧
    (handle_publish (fun _ => some 7) 0 [.bytes "010".toList] ⟨[0, 0, 0, 0, 0, 0]⟩
        [{ conninfo.zero with conn := some 7 }]
        ⟨⟨"bridge/AA:BB:CC:DD:EE:FF/0012/set".toList, 33⟩, 2, 3, 1⟩).map
      (fun o => (o.dispatch, o.writes, o.acks)) =
      some (some (⟨[0xFF, 0xEE, 0xDD, 0xCC, 0xBB, 0xAA]⟩, 0x0012, [0x00, 0x10], 0),
        [⟨7, 0x0012, 0, 2, [0x00, 0x10]⟩], [.pubrec 1]) := by
  constructor
  · decide
  · rfl

/-! ## `handle_publish` after the payload has been read and decoded -/

/-- A run of `handle_publish` whose payload fits the buffer, is read without error and
decodes to at least one byte is determined by the topic decoding and the dispatch. -/
theorem handle_publish_decoded (lookup : bt_addr_le_t → Option Nat) (gatt_write_ret : Int)
    (script script' : List ReadStep) (btaddr : bt_addr_t) (conns : List conninfo)
    (param : mqtt_publish_param) (payload : List Char) (raw : List Nat)
    (hsize : param.payload_len ≤ APP_MQTT_BUFFER_SIZE)
    (hread : read_payload script param.payload_len = (.ok payload, script'))
    (hhex : hex2bin payload APP_MQTT_BUFFER_SIZE = some raw) (hraw : raw ≠ []) :
    handle_publish lookup gatt_write_ret script btaddr conns param =
      match handle_publish_topic param.topic btaddr with
      | .undefined => none
      | .fail _ =>
        some ⟨conns, [param.payload_len], none, [],
          handle_publish_ack param.qos param.message_id⟩
      | .ok (addr, handle_ul) =>
        some ⟨(main_set_bluetooth_value lookup gatt_write_ret conns addr (handle_ul % 2 ^ 16)
            raw raw.length).2.1, [param.payload_len],
          some (addr, handle_ul % 2 ^ 16, raw,
            (main_set_bluetooth_value lookup gatt_write_ret conns addr (handle_ul % 2 ^ 16)
              raw raw.length).1),
          (main_set_bluetooth_value lookup gatt_write_ret conns addr (handle_ul % 2 ^ 16)
            raw raw.length).2.2,
          handle_publish_ack param.qos param.message_id⟩ := by
  have hl : raw.length ≠ 0 := fun e => hraw (List.length_eq_zero.1 e)
  unfold handle_publish
  simp only
  rw [if_neg (by omega), hread]
  simp only [hhex, if_neg hl]

/-- C4 (as amended): on a control topic with an accepted address, a handle segment that
denotes `0` (the segment `0000`) is rejected: `main_set_bluetooth_value` is not called, no
attribute write is issued and the connection table is unchanged, the message still being
acknowledged. A handle segment that denotes `0xFFFF` is not rejected: the value the code
compares with is `ULONG_MAX`, which `strtoul` returns on overflow, so `ffff` is decoded
as the handle `0xFFFF` and forwarded to `main_set_bluetooth_value`. -/
theorem zero_handle_rejected (lookup : bt_addr_le_t → Option Nat) (gatt_write_ret : Int)
    (script script' : List ReadStep) (btaddr addr : bt_addr_t) (conns : List conninfo)
    (qos len id : Nat) (root mac hhhh rest payload : List Char) (raw : List Nat)
    (hroot : '/' ∉ root) (hmac : mac.length = 17)
    (haddr : bt_addr_from_str mac btaddr = .ok addr) (hlen : hhhh.length = 4)
    (hsize : len ≤ APP_MQTT_BUFFER_SIZE)
    (hread : read_payload script len = (.ok payload, script'))
    (hhex : hex2bin payload APP_MQTT_BUFFER_SIZE = some raw) (hraw : raw ≠ []) :
    (hexValue hhhh = some 0 →
      handle_publish_topic
          ⟨controlTopic root mac hhhh ++ rest, (controlTopic root mac hhhh).length⟩ btaddr =
        .fail (-EINVAL) ∧
      handle_publish lookup gatt_write_ret script btaddr conns
          ⟨⟨controlTopic root mac hhhh ++ rest, (controlTopic root mac hhhh).length⟩,
            qos, len, id⟩ =
        some ⟨conns, [len], none, [], handle_publish_ack qos id⟩) ∧
    (hexValue hhhh = some 0xFFFF →
      handle_publish_topic
          ⟨controlTopic root mac hhhh ++ rest, (controlTopic root mac hhhh).length⟩ btaddr =
        .ok (addr, 0xFFFF) ∧
      (handle_publish lookup gatt_write_ret script btaddr conns
          ⟨⟨controlTopic root mac hhhh ++ rest, (controlTopic root mac hhhh).length⟩,
            qos, len, id⟩).map (fun o => o.dispatch) =
        some (some (addr, 0xFFFF, raw,
          (main_set_bluetooth_value lookup gatt_write_ret conns addr 0xFFFF raw
            raw.length).1))) := by
  constructor
  · intro hval
    have ht := handle_publish_topic_control root mac hhhh rest btaddr addr 0 hroot hmac haddr
      hlen hval
    rw [if_pos rfl] at ht
    refine ⟨ht, ?_⟩
    rw [handle_publish_decoded lookup gatt_write_ret script script' btaddr conns _ payload raw
      hsize hread hhex hraw]
    simp only [ht]
  · intro hval
    have ht := handle_publish_topic_control root mac hhhh rest btaddr addr 0xFFFF hroot hmac
      haddr hlen hval
    rw [if_neg (by decide)] at ht
    refine ⟨ht, ?_⟩
    rw [handle_publish_decoded lookup gatt_write_ret script script' btaddr conns _ payload raw
      hsize hread hhex hraw]
    simp only [ht]
    rfl

/-- C4 (as amended) at the topic `bridge/AA:BB:CC:DD:EE:FF/0000/set` with payload `01`,
sent with QoS 1 to a connected peer: no write, and a PUBACK. -/
theorem zero_handle_rejected_witness :
    handle_publish (fun _ => some 7) 0 [.bytes "01".toList] ⟨[0, 0, 0, 0, 0, 0]⟩
        [{ conninfo.zero with conn := some 7 }]
        ⟨⟨controlTopic "bridge".toList "AA:BB:CC:DD:EE:FF".toList "0000".toList ++ [],
          (controlTopic "bridge".toList "AA:BB:CC:DD:EE:FF".toList "0000".toList).length⟩,
          1, 2, 9⟩ =
      some ⟨[{ conninfo.zero with conn := some 7 }], [2], none, [], [.puback 9]⟩ :=
  ((zero_handle_rejected (fun _ => some 7) 0 [.bytes "01".toList] [] ⟨[0, 0, 0, 0, 0, 0]⟩
    ⟨[0xFF, 0xEE, 0xDD, 0xCC, 0xBB, 0xAA]⟩ [{ conninfo.zero with conn := some 7 }] 1 2 9
    "bridge".toList "AA:BB:CC:DD:EE:FF".toList "0000".toList [] "01".toList [1]
    (by decide) (by decide) (by decide) (by decide) (by decide) (by decide) (by decide)
    (by decide)).1 (by decide)).2

/-- C4, counterexample: the handle segment `ffff` is not rejected. The topic
`bridge/AA:BB:CC:DD:EE:FF/ffff/set` decodes to the handle `0xFFFF`, and `handle_publish`
issues the attribute write to the connected peer. -/
theorem max_handle_written :
    handle_publish_topic ⟨"bridge/AA:BB:CC:DD:EE:FF/ffff/set".toList, 33⟩
        ⟨[0, 0, 0, 0, 0, 0]⟩ =
      .ok (⟨[0xFF, 0xEE, 0xDD, 0xCC, 0xBB, 0xAA]⟩, 0xFFFF) ∧
    (handle_publish (fun _ => some 7) 0 [.bytes "01".toList] ⟨[0, 0, 0, 0, 0, 0]⟩
        [{ conninfo.zero with conn := some 7 }]
        ⟨⟨"bridge/AA:BB:CC:DD:EE:FF/ffff/set".toList, 33⟩, 1, 2, 9⟩).map
      (fun o => (o.writes, o.acks)) =
      some ([⟨7, 0xFFFF, 0, 1, [0x01]⟩], [.puback 9]) := by
  constructor
  · decide
  · rfl

/-! ## The state topic -/

theorem printf_digit_eq : ∀ d < 16,
    Char.ofNat (if d ≤ 9 then d + '0'.toNat else d - 10 + 'a'.toNat) = hexDigitChar d := by
  decide

theorem hex_digits_rev_succ (fuel x : Nat) :
    hex_digits_rev (fuel + 1) x =
      if x < 16 then [hexDigitChar (x % 16)]
      else hexDigitChar (x % 16) :: hex_digits_rev fuel (x / 16) := by
  rw [hex_digits_rev]
  simp only [printf_digit_eq (x % 16) (Nat.mod_lt _ (by decide))]

theorem hex_digits_rev_step (fuel x : Nat) (hx : x < fuel) :
    hex_digits_rev fuel x =
      if x < 16 then [hexDigitChar (x % 16)]
      else hexDigitChar (x % 16) :: hex_digits_rev (fuel - 1) (x / 16) := by
  obtain ⟨f, rfl⟩ : ∃ f, fuel = f + 1 := ⟨fuel - 1, by omega⟩
  rw [hex_digits_rev_succ]
  rfl

/-- Format `%04x` of a 16-bit value is its four zero-padded lowercase hexadecimal digits. -/
theorem fmt_04x_eq_hex4 (h : Nat) (hh : h < 2 ^ 16) : fmt_04x h = hex4 h := by
  have z : hexDigitChar 0 = '0' := rfl
  unfold fmt_04x hex4
  rw [hex_digits_rev_step (h + 1) h (by omega)]
  by_cases c1 : h < 16
  · rw [if_pos c1]
    have e1 : h / 4096 % 16 = 0 := by omega
    have e2 : h / 256 % 16 = 0 := by omega
    have e3 : h / 16 % 16 = 0 := by omega
    simp [e1, e2, e3, z]
  · rw [if_neg c1, hex_digits_rev_step _ (h / 16) (by omega)]
    by_cases c2 : h < 256
    · have e1 : h / 4096 % 16 = 0 := by omega
      have e2 : h / 256 % 16 = 0 := by omega
      rw [if_pos (by omega)]
      simp [e1, e2, z]
    · rw [if_neg (by omega), hex_digits_rev_step _ (h / 16 / 16) (by omega)]
      by_cases c3 : h < 4096
      · have e1 : h / 4096 % 16 = 0 := by omega
        have e2 : h / 256 % 16 = h / 16 / 16 % 16 := by omega
        rw [if_pos (by omega)]
        simp [e1, e2, z]
      · have e1 : h / 4096 % 16 = h / 16 / 16 / 16 % 16 := by omega
        have e2 : h / 256 % 16 = h / 16 / 16 % 16 := by omega
        rw [if_neg (by omega), hex_digits_rev_step _ (h / 16 / 16 / 16) (by omega),
          if_pos (by omega)]
        simp [e1, e2]

theorem bin2hex_loop_length (data : List Nat) :
    ∃ hex, bin2hex_loop data = some hex ∧ hex.length = 2 * data.length := by
  induction data with
  | nil => exact ⟨[], rfl, rfl⟩
  | cons b data ih =>
    obtain ⟨hex, h1, h2⟩ := ih
    have k1 : ∀ d < 16, (hex2char d).isSome := by decide
    obtain ⟨c1, hc1⟩ := Option.isSome_iff_exists.1 (k1 (b / 16 % 16) (Nat.mod_lt _ (by decide)))
    obtain ⟨c2, hc2⟩ := Option.isSome_iff_exists.1 (k1 (b % 16) (Nat.mod_lt _ (by decide)))
    refine ⟨c1 :: c2 :: hex, ?_, by simp [h2]; omega⟩
    rw [bin2hex_loop, hc1, hc2]
    simp only [h1]

/-- C6 (as amended): for every address string `addr` and 16-bit handle `h`, the state topic
`main_publish_characteristic_value` builds is exactly
`"bluetooth/" ++ addr ++ "/" ++ hex4(h) ++ "/state"`; when the session is connected, the
topic fits `topic_buf` and the value has between 1 and 63 bytes, the message published
carries that topic. -/
theorem state_topic_built (path_max rand : Nat) (publish_ret : Int) (addr : List Char)
    (h : Nat) (data : List Nat) (hh : h < 2 ^ 16) :
    characteristic_topic addr h =
      "bluetooth/".toList ++ addr ++ "/".toList ++ hex4 h ++ "/state".toList ∧
    (addr.length + 21 < path_max → data ≠ [] → data.length ≤ 63 →
      ∃ msg, main_publish_characteristic_value true path_max rand publish_ret addr h data =
          (publish_ret, some msg) ∧
        msg.topic = "bluetooth/".toList ++ addr ++ "/".toList ++ hex4 h ++ "/state".toList) := by
  have ht : characteristic_topic addr h =
      "bluetooth/".toList ++ addr ++ "/".toList ++ hex4 h ++ "/state".toList := by
    unfold characteristic_topic
    rw [fmt_04x_eq_hex4 h hh]
  refine ⟨ht, ?_⟩
  intro hfit hdata hlen
  obtain ⟨hex, hx1, hx2⟩ := bin2hex_loop_length data
  have hd : data.length ≠ 0 := fun e => hdata (List.length_eq_zero.1 e)
  have hb : APP_MQTT_BUFFER_SIZE = 128 := rfl
  have hl : (characteristic_topic addr h).length = addr.length + 21 := by
    rw [ht]; simp [hex4]
  refine ⟨⟨characteristic_topic addr h, 1, hex, rand % 2 ^ 16, 0, 1⟩, ?_, ht⟩
  unfold main_publish_characteristic_value
  simp only [not_true_eq_false, if_false]
  rw [if_neg (by rw [hl]; omega)]
  unfold bin2hex
  rw [if_neg (by rw [hb]; omega), hx1]
  simp only
  rw [if_neg (by rw [hx2]; omega)]

/-- C6 (as amended) at the address `AA:BB:CC:DD:EE:FF` and the handle `0x0012`: the topic
is `bluetooth/AA:BB:CC:DD:EE:FF/0012/state`. -/
theorem state_topic_built_witness :
    characteristic_topic "AA:BB:CC:DD:EE:FF".toList 0x0012 =
      "bluetooth/AA:BB:CC:DD:EE:FF/0012/state".toList :=
  (state_topic_built 256 0 0 "AA:BB:CC:DD:EE:FF".toList 0x0012 [1] (by decide)).1

/-- C6, counterexample: the state topic built for `AA:BB:CC:DD:EE:FF` and `0x0012` is not
`bridge/AA:BB:CC:DD:EE:FF/0012/state`; its root is `bluetooth`. -/
theorem state_topic_root_not_bridge :
    (main_publish_characteristic_value true 256 0 0 "AA:BB:CC:DD:EE:FF".toList 0x0012
        [1]).2.map (fun m => m.topic) =
      some "bluetooth/AA:BB:CC:DD:EE:FF/0012/state".toList ∧
    characteristic_topic "AA:BB:CC:DD:EE:FF".toList 0x0012 ≠
      "bridge/".toList ++ "AA:BB:CC:DD:EE:FF".toList ++ "/".toList ++ hex4 0x0012 ++
        "/state".toList := by
  constructor
  · rfl
  · decide

theorem hexDigitValue_hexDigitChar : ∀ d < 16, hexDigitValue (hexDigitChar d) = some d := by
  decide

theorem hexValue_hex4 (h : Nat) (hh : h < 2 ^ 16) : hexValue (hex4 h) = some h := by
  unfold hexValue hex4
  simp only [hexValueFrom,
    hexDigitValue_hexDigitChar (h / 4096 % 16) (Nat.mod_lt _ (by decide)),
    hexDigitValue_hexDigitChar (h / 256 % 16) (Nat.mod_lt _ (by decide)),
    hexDigitValue_hexDigitChar (h / 16 % 16) (Nat.mod_lt _ (by decide)),
    hexDigitValue_hexDigitChar (h % 16) (Nat.mod_lt _ (by decide))]
  congr 1
  omega

theorem characteristic_topic_hex4 (addr : List Char) (h : Nat) (hh : h < 2 ^ 16) :
    characteristic_topic addr h =
      "bluetooth/".toList ++ addr ++ "/".toList ++ hex4 h ++ "/state".toList := by
  unfold characteristic_topic
  rw [fmt_04x_eq_hex4 h hh]

/-- C5 (as amended): applied to the state topic built for `(addr, h)`, the topic decoding of
`handle_publish` does succeed whenever `addr` is a 17-character address accepted by
`bt_addr_from_str` and `h` is a non-zero 16-bit handle: it yields exactly that address and
`h`, and `handle_publish` forwards the decoded payload to `main_set_bluetooth_value`. The
last topic segment is never inspected; only `h = 0` makes the decoding fail. -/
theorem state_topic_decodes (lookup : bt_addr_le_t → Option Nat) (gatt_write_ret : Int)
    (script script' : List ReadStep) (btaddr a : bt_addr_t) (conns : List conninfo)
    (qos len id : Nat) (addr rest payload : List Char) (raw : List Nat) (h : Nat)
    (hh : h < 2 ^ 16) (hmac : addr.length = 17)
    (haddr : bt_addr_from_str addr btaddr = .ok a) :
    handle_publish_topic
        ⟨characteristic_topic addr h ++ rest, (characteristic_topic addr h).length⟩ btaddr =
      (if h = 0 then .fail (-EINVAL) else .ok (a, h)) ∧
    (h ≠ 0 → len ≤ APP_MQTT_BUFFER_SIZE →
      read_payload script len = (.ok payload, script') →
      hex2bin payload APP_MQTT_BUFFER_SIZE = some raw → raw ≠ [] →
      (handle_publish lookup gatt_write_ret script btaddr conns
          ⟨⟨characteristic_topic addr h ++ rest, (characteristic_topic addr h).length⟩,
            qos, len, id⟩).map (fun o => o.dispatch) =
        some (some (a, h, raw,
          (main_set_bluetooth_value lookup gatt_write_ret conns a h raw raw.length).1))) := by
  have hv := hexValue_hex4 h hh
  have hl4 : (hex4 h).length = 4 := rfl
  have et : characteristic_topic addr h ++ rest =
      "bluetooth".toList ++ '/' :: (addr ++ '/' :: (hex4 h ++ '/' :: ("state".toList ++ rest))) := by
    rw [characteristic_topic_hex4 addr h hh]
    simp [List.append_assoc]
  have el : (characteristic_topic addr h).length =
      "bluetooth".toList.length + 1 + (addr.length + 1 + 10) := by
    rw [characteristic_topic_hex4 addr h hh]
    simp [hex4]
    omega
  have ht : handle_publish_topic
      ⟨characteristic_topic addr h ++ rest, (characteristic_topic addr h).length⟩ btaddr =
      (if h = 0 then .fail (-EINVAL) else .ok (a, h)) := by
    rw [et, el]
    exact handle_publish_topic_segments "bluetooth".toList addr (hex4 h) _ 10 btaddr a h
      (by decide) hmac haddr hl4 hv
  refine ⟨ht, ?_⟩
  intro h0 hsize hread hhex hraw
  rw [handle_publish_decoded lookup gatt_write_ret script script' btaddr conns _ payload raw
    hsize hread hhex hraw]
  simp only [ht, if_neg h0]
  have hm : h % 2 ^ 16 = h := Nat.mod_eq_of_lt hh
  simp only [hm]
  rfl

/-- C5 (as amended) at the state topic of `AA:BB:CC:DD:EE:FF` and handle `0x0012`. -/
theorem state_topic_decodes_witness :
    handle_publish_topic
        ⟨characteristic_topic "AA:BB:CC:DD:EE:FF".toList 0x0012 ++ [],
          (characteristic_topic "AA:BB:CC:DD:EE:FF".toList 0x0012).length⟩
        ⟨[0, 0, 0, 0, 0, 0]⟩ =
      (if 0x0012 = 0 then .fail (-EINVAL)
        else .ok (⟨[0xFF, 0xEE, 0xDD, 0xCC, 0xBB, 0xAA]⟩, 0x0012)) :=
  (state_topic_decodes (fun _ => some 7) 0 [] [] ⟨[0, 0, 0, 0, 0, 0]⟩
    ⟨[0xFF, 0xEE, 0xDD, 0xCC, 0xBB, 0xAA]⟩ [] 0 0 0 "AA:BB:CC:DD:EE:FF".toList [] [] []
    0x0012 (by decide) (by decide) (by decide)).1

/-- C5, counterexample: the state topic `main_publish_characteristic_value` builds for
`AA:BB:CC:DD:EE:FF` and handle `0x0012` is decoded by `handle_publish` to that address and
handle, and the payload `01` is written to the connected peer. -/
theorem state_topic_accepted :
    (main_publish_characteristic_value true 256 0 0 "AA:BB:CC:DD:EE:FF".toList 0x0012
        [1]).2.map (fun m => m.topic) =
      some "bluetooth/AA:BB:CC:DD:EE:FF/0012/state".toList ∧
    handle_publish_topic ⟨"bluetooth/AA:BB:CC:DD:EE:FF/0012/state".toList, 38⟩
        ⟨[0, 0, 0, 0, 0, 0]⟩ =
      .ok (⟨[0xFF, 0xEE, 0xDD, 0xCC, 0xBB, 0xAA]⟩, 0x0012) ∧
    (handle_publish (fun _ => some 7) 0 [.bytes "01".toList] ⟨[0, 0, 0, 0, 0, 0]⟩
        [{ conninfo.zero with conn := some 7 }]
        ⟨⟨"bluetooth/AA:BB:CC:DD:EE:FF/0012/state".toList, 38⟩, 1, 2, 9⟩).map
      (fun o => o.writes) = some [⟨7, 0x0012, 0, 1, [0x01]⟩] := by
  refine ⟨rfl, ?_, rfl⟩
  decide

/-! ## The write dispatcher -/

theorem find?_range_some (P : Nat → Bool) (n j : Nat)
    (h : (List.range n).find? P = some j) : j < n ∧ P j = true ∧ ∀ i < j, P i = false := by
  induction n with
  | zero => simp at h
  | succ n ih =>
    rw [List.range_succ, List.find?_append] at h
    cases e : (List.range n).find? P with
    | some k =>
      rw [e] at h
      simp only [Option.or_some, Option.some.injEq] at h
      subst h
      obtain ⟨h1, h2, h3⟩ := ih e
      exact ⟨by omega, h2, h3⟩
    | none =>
      rw [e] at h
      simp only [Option.none_or, List.find?_singleton] at h
      split_ifs at h with hp
      simp only [Option.some.injEq] at h
      subst h
      refine ⟨by omega, hp, ?_⟩
      intro i hi
      have := List.find?_eq_none.1 e i (List.mem_range.2 hi)
      simpa using this

theorem find?_range_none (P : Nat → Bool) (n : Nat) (h : ∀ i < n, P i = false) :
    (List.range n).find? P = none := by
  apply List.find?_eq_none.2
  intro x hx
  rw [h x (List.mem_range.1 hx)]
  simp

theorem find?_range_first (P : Nat → Bool) (n j : Nat) (hj : j < n) (hp : P j = true)
    (hlt : ∀ i < j, P i = false) : (List.range n).find? P = some j := by
  cases e : (List.range n).find? P with
  | none =>
    have := List.find?_eq_none.1 e j (List.mem_range.2 hj)
    exact absurd hp this
  | some k =>
    obtain ⟨_, h2, h3⟩ := find?_range_some P n k e
    have h4 : ¬ k < j := fun hk => by rw [hlt k hk] at h2; cases h2
    have h5 : ¬ j < k := fun hk => by rw [h3 j hk] at hp; cases hp
    have : k = j := by omega
    rw [this]

/-- The search loop finds no entry when every entry of the pool is in flight. -/
theorem find_free_write_params_full (wp : List bt_gatt_write_params)
    (hfull : ∀ p ∈ wp, p.func = true) : find_free_write_params wp = none := by
  unfold find_free_write_params
  apply find?_range_none
  intro i _
  cases e : wp[i]? with
  | none => rfl
  | some p =>
    have hp := hfull p (List.mem_iff_getElem?.2 ⟨i, e⟩)
    simp [hp]

/-- What the search loop returns is below the pool size, is free, and is the first free
entry. -/
theorem find_free_write_params_some (wp : List bt_gatt_write_params) (j : Nat)
    (h : find_free_write_params wp = some j) :
    j < WRITE_PARAMS_COUNT ∧ (∃ p, wp[j]? = some p ∧ p.func = false) ∧
      ∀ i < j, ∀ q, wp[i]? = some q → q.func = true := by
  unfold find_free_write_params at h
  obtain ⟨h1, h2, h3⟩ := find?_range_some _ _ _ h
  refine ⟨h1, ?_, ?_⟩
  · cases e : wp[j]? with
    | none => rw [e] at h2; cases h2
    | some p =>
      rw [e] at h2
      exact ⟨p, rfl, by simpa using h2⟩
  · intro i hi q hq
    have := h3 i hi
    rw [hq] at this
    simpa using this

/-- C7: a dispatch with `len` greater than the 5 bytes of `gatt_write_buf` fails with
`-EINVAL` before the peer is even looked up: `bt_gatt_write` is not called and the whole
connection table (every slot's write entries and write buffer) is unchanged, whether or
not the peer is connected. -/
theorem oversized_write_rejected (lookup : bt_addr_le_t → Option Nat) (gatt_write_ret : Int)
    (conns : List conninfo) (addr : bt_addr_t) (handle : Nat) (data : List Nat) (len : Nat)
    (hlen : 5 < len) :
    main_set_bluetooth_value lookup gatt_write_ret conns addr handle data len =
      (-EINVAL, conns, []) := by
  unfold main_set_bluetooth_value
  have hg : GATT_WRITE_BUF_SIZE = 5 := rfl
  simp only [hg]
  rw [if_neg (by omega), if_pos hlen]

/-- C7 at a 6-byte payload for a connected peer with a free pool. -/
theorem oversized_write_rejected_witness :
    main_set_bluetooth_value (fun _ => some 7) 0 [{ conninfo.zero with conn := some 7 }]
        ⟨[1, 2, 3, 4, 5, 6]⟩ 0x12 [1, 2, 3, 4, 5, 6] 6 =
      (-EINVAL, [{ conninfo.zero with conn := some 7 }], []) :=
  oversized_write_rejected (fun _ => some 7) 0 [{ conninfo.zero with conn := some 7 }]
    ⟨[1, 2, 3, 4, 5, 6]⟩ 0x12 [1, 2, 3, 4, 5, 6] 6 (by decide)

/-- C8: for a control message with a payload of 1 to 5 bytes addressed to a connected peer
whose slot has every write entry in flight, `main_set_bluetooth_value` returns `-EBUSY`
without calling `bt_gatt_write` and without changing the connection table, and
`handle_publish` still sends the acknowledgment of the message's QoS class (nothing for
QoS 0, PUBACK for QoS 1, PUBREC for QoS 2). -/
theorem busy_when_no_free_entry (lookup : bt_addr_le_t → Option Nat) (gatt_write_ret : Int)
    (script script' : List ReadStep) (btaddr addr : bt_addr_t) (conns : List conninfo)
    (param : mqtt_publish_param) (payload : List Char) (raw : List Nat) (handle_ul : Nat)
    (conn slot : Nat) (ci : conninfo)
    (hsize : param.payload_len ≤ APP_MQTT_BUFFER_SIZE)
    (hread : read_payload script param.payload_len = (.ok payload, script'))
    (hhex : hex2bin payload APP_MQTT_BUFFER_SIZE = some raw)
    (hraw : raw ≠ []) (hraw5 : raw.length ≤ 5)
    (htopic : handle_publish_topic param.topic btaddr = .ok (addr, handle_ul))
    (hconn : lookup ⟨BT_ADDR_LE_RANDOM, addr⟩ = some conn)
    (hslot : conninfo_find conns (some conn) = some slot)
    (hci : conns[slot]? = some ci)
    (hfull : ∀ p ∈ ci.write_params, p.func = true) :
    main_set_bluetooth_value lookup gatt_write_ret conns addr (handle_ul % 2 ^ 16) raw
        raw.length = (-EBUSY, conns, []) ∧
    handle_publish lookup gatt_write_ret script btaddr conns param =
      some ⟨conns, [param.payload_len], some (addr, handle_ul % 2 ^ 16, raw, -EBUSY), [],
        handle_publish_ack param.qos param.message_id⟩ ∧
    handle_publish_ack 0 param.message_id = [] ∧
    handle_publish_ack 1 param.message_id = [.puback param.message_id] ∧
    handle_publish_ack 2 param.message_id = [.pubrec param.message_id] := by
  have hl : raw.length ≠ 0 := fun e => hraw (List.length_eq_zero.1 e)
  have hg : GATT_WRITE_BUF_SIZE = 5 := rfl
  have hd : main_set_bluetooth_value lookup gatt_write_ret conns addr (handle_ul % 2 ^ 16) raw
      raw.length = (-EBUSY, conns, []) := by
    unfold main_set_bluetooth_value
    simp only [hg]
    rw [if_neg hl, if_neg (by omega)]
    simp only [hconn, hslot, hci, find_free_write_params_full ci.write_params hfull]
  refine ⟨hd, ?_, rfl, rfl, rfl⟩
  rw [handle_publish_decoded lookup gatt_write_ret script script' btaddr conns param payload
    raw hsize hread hhex hraw]
  simp only [htopic, hd]

/-- C8 at the message `bridge/AA:BB:CC:DD:EE:FF/0012/set` with payload `01`, QoS 2, for a
connected peer whose five write entries are all in flight: `-EBUSY`, and a PUBREC. -/
theorem busy_when_no_free_entry_witness :
    handle_publish (fun _ => some 7) 0 [.bytes "01".toList] ⟨[0, 0, 0, 0, 0, 0]⟩
        [{ conninfo.zero with
            conn := some 7, write_params := List.replicate 5 ⟨true, 0x12, 0, true, 1⟩ }]
        ⟨⟨"bridge/AA:BB:CC:DD:EE:FF/0012/set".toList, 33⟩, 2, 2, 9⟩ =
      some ⟨[{ conninfo.zero with
            conn := some 7, write_params := List.replicate 5 ⟨true, 0x12, 0, true, 1⟩ }],
        [2], some (⟨[0xFF, 0xEE, 0xDD, 0xCC, 0xBB, 0xAA]⟩, 0x12, [1], -EBUSY), [],
        [.pubrec 9]⟩ :=
  (busy_when_no_free_entry (fun _ => some 7) 0 [.bytes "01".toList] [] ⟨[0, 0, 0, 0, 0, 0]⟩
    ⟨[0xFF, 0xEE, 0xDD, 0xCC, 0xBB, 0xAA]⟩
    [{ conninfo.zero with
        conn := some 7, write_params := List.replicate 5 ⟨true, 0x12, 0, true, 1⟩ }]
    ⟨⟨"bridge/AA:BB:CC:DD:EE:FF/0012/set".toList, 33⟩, 2, 2, 9⟩ "01".toList [1] 0x12 7 0
    { conninfo.zero with
        conn := some 7, write_params := List.replicate 5 ⟨true, 0x12, 0, true, 1⟩ }
    (by decide) (by decide) (by decide) (by decide) (by decide) (by decide) rfl (by decide)
    rfl (by decide)).2.1

theorem getElem?_set_self_of_some {α : Type} (l : List α) (i : Nat) (a b : α)
    (h : l[i]? = some b) : (l.set i a)[i]? = some a := by
  have hi : i < l.length := by
    obtain ⟨hi, _⟩ := List.getElem?_eq_some.1 h
    exact hi
  rw [List.getElem?_set, if_pos rfl, if_pos hi]

/-- An entry that is in flight before a dispatch is the same entry after it: the dispatch
only ever writes to the entry its search loop found free. -/
theorem main_set_bluetooth_value_keeps_in_flight (lookup : bt_addr_le_t → Option Nat)
    (gatt_write_ret : Int) (conns : List conninfo) (addr : bt_addr_t) (handle : Nat)
    (data : List Nat) (len s q : Nat) (p : bt_gatt_write_params)
    (hp : (conns[s]?).bind (fun c => c.write_params[q]?) = some p) (hf : p.func = true) :
    ((main_set_bluetooth_value lookup gatt_write_ret conns addr handle data len).2.1[s]?).bind
      (fun c => c.write_params[q]?) = some p := by
  unfold main_set_bluetooth_value
  simp only
  by_cases h1 : len = 0
  · rw [if_pos h1]; exact hp
  by_cases h2 : GATT_WRITE_BUF_SIZE < len
  · rw [if_neg h1, if_pos h2]; exact hp
  · rw [if_neg h1, if_neg h2]
    cases e1 : lookup ⟨BT_ADDR_LE_RANDOM, addr⟩ with
    | none => exact hp
    | some conn =>
      simp only
      cases e2 : conninfo_find conns (some conn) with
      | none => exact hp
      | some slot =>
        simp only
        cases e3 : conns[slot]? with
        | none => exact hp
        | some ci =>
          simp only
          cases e4 : find_free_write_params ci.write_params with
          | none => exact hp
          | some paramid =>
            obtain ⟨_, ⟨p0, hp0, hp0f⟩, _⟩ := find_free_write_params_some _ _ e4
            have key : ∀ w : bt_gatt_write_params,
                ((conns.set slot { ci with
                    gatt_write_buf := memcpy ci.gatt_write_buf data len
                    write_params := ci.write_params.set paramid w })[s]?).bind
                  (fun c => c.write_params[q]?) = some p := by
              intro w
              by_cases hs : slot = s
              · subst hs
                rw [getElem?_set_self_of_some conns slot _ ci e3]
                rw [e3] at hp
                simp only [Option.some_bind] at hp ⊢
                by_cases hq : paramid = q
                · subst hq
                  rw [hp0] at hp
                  cases hp
                  rw [hf] at hp0f
                  cases hp0f
                · rw [List.getElem?_set_ne hq]
                  exact hp
              · rw [List.getElem?_set_ne hs]
                exact hp
            simp only
            by_cases hr : gatt_write_ret ≠ 0
            · rw [if_pos hr]; exact key _
            · rw [if_neg hr]; exact key _

/-- C9, the failing run: with one connected peer and an empty pool, the dispatch of the
two bytes `[1, 2]` to handle `0x12` succeeds on entry 0, whose payload is `[1, 2]`; before
it completes, the dispatch of the byte `[9]` to handle `0x13` succeeds on entry 1. Entry 0
is still in flight, but the bytes it refers to are now `[9, 2]`: all five entries point
at the slot's single `gatt_write_buf`. -/
theorem second_dispatch_overwrites_first_payload :
    let conns0 : List conninfo := [{ conninfo.zero with conn := some 7 }]
    let r1 := main_set_bluetooth_value (fun _ => some 7) 0 conns0 ⟨[1, 2, 3, 4, 5, 6]⟩
      0x12 [1, 2] 2
    let r2 := main_set_bluetooth_value (fun _ => some 7) 0 r1.2.1 ⟨[1, 2, 3, 4, 5, 6]⟩
      0x13 [9] 1
    r1.1 = 0 ∧ r1.2.2 = [⟨7, 0x12, 0, 2, [1, 2]⟩] ∧
    (r1.2.1[0]?).bind (fun ci => write_params_payload ci 0) = some [1, 2] ∧
    r2.1 = 0 ∧ r2.2.2 = [⟨7, 0x13, 0, 1, [9]⟩] ∧
    (r2.2.1[0]?).bind (fun ci => ci.write_params[0]?) = some ⟨true, 0x12, 0, true, 2⟩ ∧
    (r2.2.1[0]?).bind (fun ci => ci.write_params[1]?) = some ⟨true, 0x13, 0, true, 1⟩ ∧
    (r2.2.1[0]?).bind (fun ci => write_params_payload ci 0) = some [9, 2] := by
  refine ⟨rfl, rfl, rfl, rfl, rfl, rfl, rfl, rfl⟩

/-! ## Acknowledgments -/

/-- C11: for an inbound control publish that is read, decoded and forwarded to
`main_set_bluetooth_value`, the acknowledgments `handle_publish` sends are those of the QoS
class and message id alone (none for QoS 0, PUBACK with the id for QoS 1, PUBREC with the
id for QoS 2), whatever the peer lookup, the connection table and `bt_gatt_write` make the
forwarded write return; and a PUBREL event received without error is answered by a PUBCOMP
with the same id. -/
theorem ack_independent_of_write (script script' : List ReadStep) (btaddr addr : bt_addr_t)
    (param : mqtt_publish_param) (payload : List Char) (raw : List Nat) (handle_ul : Nat)
    (hsize : param.payload_len ≤ APP_MQTT_BUFFER_SIZE)
    (hread : read_payload script param.payload_len = (.ok payload, script'))
    (hhex : hex2bin payload APP_MQTT_BUFFER_SIZE = some raw) (hraw : raw ≠ [])
    (htopic : handle_publish_topic param.topic btaddr = .ok (addr, handle_ul)) :
    (∀ (lookup : bt_addr_le_t → Option Nat) (gatt_write_ret : Int) (conns : List conninfo),
      ∃ o, handle_publish lookup gatt_write_ret script btaddr conns param = some o ∧
        o.dispatch = some (addr, handle_ul % 2 ^ 16, raw,
          (main_set_bluetooth_value lookup gatt_write_ret conns addr (handle_ul % 2 ^ 16) raw
            raw.length).1) ∧
        o.acks = handle_publish_ack param.qos param.message_id) ∧
    (param.qos = 0 → handle_publish_ack param.qos param.message_id = []) ∧
    (param.qos = 1 →
      handle_publish_ack param.qos param.message_id = [.puback param.message_id]) ∧
    (param.qos = 2 →
      handle_publish_ack param.qos param.message_id = [.pubrec param.message_id]) ∧
    (∀ (lookup : bt_addr_le_t → Option Nat) (gatt_write_ret : Int) (s : List ReadStep)
        (b : bt_addr_t) (md : mqtt_data_state) (conns : List conninfo) (id : Nat)
        (p : mqtt_publish_param),
      mqtt_evt_handler lookup gatt_write_ret s b md conns ⟨.MQTT_EVT_PUBREL, 0, id, p⟩ =
        some (md, conns, [], [.pubcomp id])) := by
  refine ⟨?_, ?_, ?_, ?_, ?_⟩
  · intro lookup gatt_write_ret conns
    rw [handle_publish_decoded lookup gatt_write_ret script script' btaddr conns param payload
      raw hsize hread hhex hraw]
    simp only [htopic]
    exact ⟨_, rfl, rfl, rfl⟩
  · intro h; rw [h]; rfl
  · intro h; rw [h]; rfl
  · intro h; rw [h]; rfl
  · intro lookup gatt_write_ret s b md conns id p
    rfl

/-- C11 at the message `bridge/AA:BB:CC:DD:EE:FF/0012/set` with payload `01`, QoS 2 and
message id 9: a PUBREC with id 9 both when the write is issued and when the peer is not
connected. -/
theorem ack_independent_of_write_witness :
    (handle_publish (fun _ => some 7) 0 [.bytes "01".toList] ⟨[0, 0, 0, 0, 0, 0]⟩
        [{ conninfo.zero with conn := some 7 }]
        ⟨⟨"bridge/AA:BB:CC:DD:EE:FF/0012/set".toList, 33⟩, 2, 2, 9⟩).map
      (fun o => (o.dispatch.map (fun d => d.2.2.2), o.acks)) = some (some 0, [.pubrec 9]) ∧
    (handle_publish (fun _ => none) 0 [.bytes "01".toList] ⟨[0, 0, 0, 0, 0, 0]⟩
        [{ conninfo.zero with conn := some 7 }]
        ⟨⟨"bridge/AA:BB:CC:DD:EE:FF/0012/set".toList, 33⟩, 2, 2, 9⟩).map
      (fun o => (o.dispatch.map (fun d => d.2.2.2), o.acks)) =
      some (some (-ENOENT), [.pubrec 9]) ∧
    handle_publish_ack 2 9 = [.pubrec 9] := by
  have h := ack_independent_of_write [.bytes "01".toList] [] ⟨[0, 0, 0, 0, 0, 0]⟩
    ⟨[0xFF, 0xEE, 0xDD, 0xCC, 0xBB, 0xAA]⟩
    ⟨⟨"bridge/AA:BB:CC:DD:EE:FF/0012/set".toList, 33⟩, 2, 2, 9⟩ "01".toList [1] 0x12
    (by decide) (by decide) (by decide) (by decide) (by decide)
  exact ⟨rfl, rfl, h.2.2.2.1 rfl⟩

/-! ## Oversized payloads -/

theorem read_payload_delivered (script : List ReadStep) :
    ∀ (len : Nat) (data : List Char) (script' : List ReadStep),
      read_payload script len = (.ok data, script') →
      data.length = len ∧ delivered script = len + delivered script' := by
  induction script with
  | nil =>
    intro len data script' h
    cases len with
    | zero =>
      simp only [read_payload, Prod.mk.injEq, Res.ok.injEq] at h
      obtain ⟨h1, h2⟩ := h
      subst h1; subst h2
      exact ⟨rfl, by simp⟩
    | succ n => simp [read_payload] at h
  | cons step script ih =>
    intro len data script' h
    cases len with
    | zero =>
      simp only [read_payload, Prod.mk.injEq, Res.ok.injEq] at h
      obtain ⟨h1, h2⟩ := h
      subst h1; subst h2
      exact ⟨rfl, by simp⟩
    | succ n =>
      cases step with
      | bytes bs =>
        rw [read_payload] at h
        by_cases hb : n + 1 < bs.length
        · rw [if_pos hb] at h
          simp at h
        · rw [if_neg hb] at h
          cases e : read_payload script (n + 1 - bs.length) with
          | mk r s2 =>
            rw [e] at h
            cases r with
            | ok rest =>
              simp only [Prod.mk.injEq, Res.ok.injEq] at h
              obtain ⟨h1, h2⟩ := h
              subst h1; subst h2
              obtain ⟨i1, i2⟩ := ih _ _ _ e
              refine ⟨?_, ?_⟩
              · rw [List.length_append, i1]; omega
              · rw [delivered, i2]; omega
            | fail x => simp at h
            | undefined => simp at h
      | again poll =>
        rw [read_payload] at h
        by_cases hp : poll = 0
        · rw [if_pos hp] at h
          simp at h
        · rw [if_neg hp] at h
          obtain ⟨i1, i2⟩ := ih _ _ _ h
          exact ⟨i1, by simpa [delivered] using i2⟩
      | error x =>
        simp [read_payload] at h

theorem chunks_zero : chunks 0 = [] := rfl

theorem chunks_pos (len : Nat) (h : 0 < len) :
    chunks len = min len 128 :: chunks (len - min len 128) := by
  unfold chunks
  by_cases hl : len < 128
  · have e1 : len / 128 = 0 := by omega
    have e2 : len % 128 = len := by omega
    have e3 : min len 128 = len := by omega
    rw [e1, e2, e3, if_neg (by omega)]
    simp
  · have e1 : len / 128 = (len - 128) / 128 + 1 := by omega
    have e2 : len % 128 = (len - 128) % 128 := by omega
    have e3 : min len 128 = 128 := by omega
    rw [e1, e2, e3, List.replicate_succ, List.cons_append]

theorem chunks_sum (fuel : Nat) : ∀ len, len ≤ fuel →
    (chunks len).sum = len ∧ ∀ c ∈ chunks len, 0 < c ∧ c ≤ 128 := by
  induction fuel with
  | zero =>
    intro len h
    have : len = 0 := by omega
    subst this
    exact ⟨rfl, fun c hc => absurd hc (List.not_mem_nil _)⟩
  | succ fuel ih =>
    intro len h
    by_cases h0 : len = 0
    · subst h0
      exact ⟨rfl, fun c hc => absurd hc (List.not_mem_nil _)⟩
    · obtain ⟨i1, i2⟩ := ih (len - min len 128) (by omega)
      rw [chunks_pos len (by omega)]
      refine ⟨by rw [List.sum_cons, i1]; omega, ?_⟩
      intro c hc
      rcases List.mem_cons.1 hc with e | hc'
      · omega
      · exact i2 c hc'

/-- With every read succeeding, the oversized-payload loop runs to the end whenever its
iteration bound is at least `len`, requesting the chunks of `len` and consuming exactly
`len` bytes of the transport's answers. -/
theorem handle_publish_drain_reads (script rest : List ReadStep) (len : Nat)
    (h : DrainReads script len rest) :
    (∀ fuel, len ≤ fuel → handle_publish_drain fuel len script = (.ok true, chunks len, rest)) ∧
      delivered script = len + delivered rest := by
  induction h with
  | done s =>
    refine ⟨?_, by simp⟩
    intro fuel _
    cases fuel <;> rfl
  | chunk s s' r len data hpos hread _ ih =>
    obtain ⟨ih1, ih2⟩ := ih
    have hb : APP_MQTT_BUFFER_SIZE = 128 := rfl
    rw [hb] at hread ih1 ih2
    obtain ⟨_, d2⟩ := read_payload_delivered s _ _ _ hread
    refine ⟨?_, by omega⟩
    intro fuel hf
    obtain ⟨f, rfl⟩ : ∃ f, fuel = f + 1 := ⟨fuel - 1, by omega⟩
    obtain ⟨n, rfl⟩ : ∃ n, len = n + 1 := ⟨len - 1, by omega⟩
    rw [handle_publish_drain]
    simp only [hb, hread]
    rw [ih1 f (by omega), chunks_pos (n + 1) (by omega)]

/-- C12: for an inbound publish whose payload length `L` exceeds the 128-byte buffer and
whose transport reads all succeed, `handle_publish` requests the payload in the chunks
`128, …, 128, L mod 128` (each at most 128 bytes, `L` bytes in all), takes exactly `L`
bytes from the transport, calls neither `main_set_bluetooth_value` nor `bt_gatt_write`,
leaves the connection table unchanged and acknowledges per the QoS class. -/
theorem oversized_payload_drained (lookup : bt_addr_le_t → Option Nat) (gatt_write_ret : Int)
    (script rest : List ReadStep) (btaddr : bt_addr_t) (conns : List conninfo)
    (param : mqtt_publish_param) (hbig : APP_MQTT_BUFFER_SIZE < param.payload_len)
    (hreads : DrainReads script param.payload_len rest) :
    handle_publish lookup gatt_write_ret script btaddr conns param =
      some ⟨conns, chunks param.payload_len, none, [],
        handle_publish_ack param.qos param.message_id⟩ ∧
    (chunks param.payload_len).sum = param.payload_len ∧
    (∀ c ∈ chunks param.payload_len, 0 < c ∧ c ≤ 128) ∧
    delivered script = param.payload_len + delivered rest := by
  obtain ⟨h1, h2⟩ := handle_publish_drain_reads script rest _ hreads
  obtain ⟨h3, h4⟩ := chunks_sum param.payload_len param.payload_len (Nat.le_refl _)
  refine ⟨?_, h3, h4, h2⟩
  unfold handle_publish
  simp only
  rw [if_pos hbig, h1 _ (Nat.le_refl _)]

/-- C12 at a 200-byte payload the transport hands over in pieces of 100, 28 and 72 bytes,
with one `-EAGAIN` in between: reads of 128 and 72 bytes, no write, a PUBACK. -/
theorem oversized_payload_drained_witness :
    handle_publish (fun _ => some 7) 0
        [.bytes (List.replicate 100 'a'), .again 1, .bytes (List.replicate 28 'a'),
          .bytes (List.replicate 72 'a')] ⟨[0, 0, 0, 0, 0, 0]⟩
        [{ conninfo.zero with conn := some 7 }]
        ⟨⟨"bridge/AA:BB:CC:DD:EE:FF/0012/set".toList, 33⟩, 1, 200, 9⟩ =
      some ⟨[{ conninfo.zero with conn := some 7 }], [128, 72], none, [], [.puback 9]⟩ :=
  (oversized_payload_drained (fun _ => some 7) 0
    [.bytes (List.replicate 100 'a'), .again 1, .bytes (List.replicate 28 'a'),
      .bytes (List.replicate 72 'a')] [] ⟨[0, 0, 0, 0, 0, 0]⟩
    [{ conninfo.zero with conn := some 7 }]
    ⟨⟨"bridge/AA:BB:CC:DD:EE:FF/0012/set".toList, 33⟩, 1, 200, 9⟩ (by decide)
    (DrainReads.chunk _ [.bytes (List.replicate 72 'a')] _ 200
      (List.replicate 128 'a') (by decide) rfl
      (DrainReads.chunk _ [] _ 72 (List.replicate 72 'a') (by decide) rfl
        (DrainReads.done [])))).1

/-! ## The connection status -/

/-- C19: with the bus session connected (and the topic fitting `topic_buf`),
`main_publish_connection_status(addr, connected)` hands `mqtt_publish` a retained message
with QoS 1 whose payload is exactly the two characters `01` when `connected` is true and
`00` when it is false, the message id being the low 16 bits of the random value; with the
session not connected it publishes nothing and returns `-ENOTCONN`. -/
theorem connection_status_published (path_max rand : Nat) (publish_ret : Int)
    (addr : List Char) (connected : Bool) (hfit : addr.length + 20 < path_max) :
    main_publish_connection_status true path_max rand publish_ret addr connected =
      (publish_ret,
        some { topic := "bluetooth/".toList ++ addr ++ "/connected".toList, qos := 1,
               payload := if connected then "01".toList else "00".toList,
               message_id := rand % 2 ^ 16, dup_flag := 0, retain_flag := 1 }) ∧
    main_publish_connection_status false path_max rand publish_ret addr connected =
      (-ENOTCONN, none) := by
  constructor
  · have hl : (connection_topic addr).length = addr.length + 20 := by
      simp [connection_topic]
    unfold main_publish_connection_status
    simp only [not_true_eq_false, if_false]
    rw [if_neg (by rw [hl]; omega), if_neg (by omega)]
    cases connected <;> rfl
  · rfl

/-- C19 at the address `AA:BB:CC:DD:EE:FF` and the random value `0x12345678`, both values
of `connected`: the message id is `0x5678`. -/
theorem connection_status_published_witness :
    (main_publish_connection_status true 256 0x12345678 0 "AA:BB:CC:DD:EE:FF".toList
        true).2.map
      (fun m => (m.topic, m.payload, m.qos, m.retain_flag, m.message_id)) =
      some ("bluetooth/AA:BB:CC:DD:EE:FF/connected".toList, "01".toList, 1, 1, 0x5678) ∧
    (main_publish_connection_status true 256 0x12345678 0 "AA:BB:CC:DD:EE:FF".toList
        false).2.map
      (fun m => (m.topic, m.payload, m.qos, m.retain_flag, m.message_id)) =
      some ("bluetooth/AA:BB:CC:DD:EE:FF/connected".toList, "00".toList, 1, 1, 0x5678) := by
  have h1 := (connection_status_published 256 0x12345678 0 "AA:BB:CC:DD:EE:FF".toList true
    (by decide)).1
  have h2 := (connection_status_published 256 0x12345678 0 "AA:BB:CC:DD:EE:FF".toList false
    (by decide)).1
  rw [h1, h2]
  exact ⟨rfl, rfl⟩

/-! ## The connection pool -/

theorem conninfo_new_some (conns : List conninfo) (i : Nat) :
    conninfo_new conns = some i ↔
      (∃ ci, conns[i]? = some ci ∧ ci.conn = none) ∧
        ∀ j < i, ∀ cj, conns[j]? = some cj → cj.conn ≠ none := by
  unfold conninfo_new
  rw [List.findIdx?_eq_some_iff_getElem]
  constructor
  · rintro ⟨hi, hp, hlt⟩
    refine ⟨⟨conns[i], List.getElem?_eq_getElem hi, by simpa using hp⟩, ?_⟩
    intro j hj cj hcj
    obtain ⟨hj', e⟩ := List.getElem?_eq_some.1 hcj
    have := hlt j hj
    rw [e] at this
    simpa using this
  · rintro ⟨⟨ci, hci, hnone⟩, hlt⟩
    obtain ⟨hi, e⟩ := List.getElem?_eq_some.1 hci
    refine ⟨hi, by rw [e]; simpa using hnone, ?_⟩
    intro j hj
    have := hlt j hj conns[j] (List.getElem?_eq_getElem (by omega))
    simpa using this

theorem conninfo_new_none (conns : List conninfo) :
    conninfo_new conns = none ↔ ∀ ci ∈ conns, ci.conn ≠ none := by
  unfold conninfo_new
  rw [List.findIdx?_eq_none_iff]
  constructor
  · intro h ci hci
    simpa using h ci hci
  · intro h ci hci
    simpa using h ci hci

/-- C14: `conninfo_new` returns the lowest-index slot that holds no connection (it only
reads the table); it finds none if and only if every slot holds a connection, and then
`device_found`, for a bonded advertiser, stops scanning and returns with the table
unchanged and without calling `bt_conn_le_create`. -/
theorem conninfo_new_lowest_free (bonds : List bt_addr_le_t) (create : Except Int Nat)
    (conns : List conninfo) (addr : bt_addr_le_t) :
    (∀ i, conninfo_new conns = some i ↔
      (∃ ci, conns[i]? = some ci ∧ ci.conn = none) ∧
        ∀ j < i, ∀ cj, conns[j]? = some cj → cj.conn ≠ none) ∧
    (conninfo_new conns = none ↔ ∀ ci ∈ conns, ci.conn ≠ none) ∧
    (conninfo_new conns = none →
      (device_found bonds create conns addr).1 = conns ∧
      BtCall.conn_le_create addr ∉ (device_found bonds create conns addr).2 ∧
      (addr ∈ bonds → (device_found bonds create conns addr).2 = [.scan_stop])) := by
  refine ⟨conninfo_new_some conns, conninfo_new_none conns, ?_⟩
  intro hnone
  unfold device_found
  by_cases hb : ¬ bonds.any (fun b => decide (b = addr)) = true
  · rw [if_pos hb]
    refine ⟨rfl, by simp, ?_⟩
    intro hmem
    exact absurd (List.any_eq_true.2 ⟨addr, hmem, by simp⟩) hb
  · rw [if_neg hb]
    simp only [hnone]
    exact ⟨trivial, by simp, fun _ => trivial⟩

/-- C14 at a table of two bound slots, and at a table whose slot 1 is the first free one. -/
theorem conninfo_new_lowest_free_witness :
    device_found [⟨1, ⟨[1, 2, 3, 4, 5, 6]⟩⟩] (.ok 9)
        [{ conninfo.zero with conn := some 7 }, { conninfo.zero with conn := some 8 }]
        ⟨1, ⟨[1, 2, 3, 4, 5, 6]⟩⟩ =
      ([{ conninfo.zero with conn := some 7 }, { conninfo.zero with conn := some 8 }],
        [.scan_stop]) ∧
    conninfo_new [{ conninfo.zero with conn := some 7 }, conninfo.zero, conninfo.zero] =
      some 1 := by
  have h := conninfo_new_lowest_free [⟨1, ⟨[1, 2, 3, 4, 5, 6]⟩⟩] (.ok 9)
    [{ conninfo.zero with conn := some 7 }, { conninfo.zero with conn := some 8 }]
    ⟨1, ⟨[1, 2, 3, 4, 5, 6]⟩⟩
  exact ⟨Prod.ext (h.2.2 rfl).1 ((h.2.2 rfl).2.2 (by decide)), rfl⟩

/-! ## Invariants of the connection table -/

theorem connOf_set (conns : List conninfo) (s i : Nat) (x : conninfo) :
    connOf (conns.set s x) i =
      if s = i then (if s < conns.length then x.conn else none) else connOf conns i := by
  unfold connOf
  rw [List.getElem?_set]
  by_cases h : s = i
  · rw [if_pos h, if_pos h]
    by_cases hl : s < conns.length
    · rw [if_pos hl, if_pos hl]; rfl
    · rw [if_neg hl, if_neg hl]; rfl
  · rw [if_neg h, if_neg h]

theorem connOf_lt (conns : List conninfo) (i c : Nat) (h : connOf conns i = some c) :
    i < conns.length := by
  unfold connOf at h
  cases e : conns[i]? with
  | none => rw [e] at h; cases h
  | some ci => exact (List.getElem?_eq_some.1 e).1

theorem uniqueConns_set_none (conns : List conninfo) (s : Nat) (x : conninfo)
    (hx : x.conn = none) (hu : UniqueConns conns) : UniqueConns (conns.set s x) := by
  intro i j c hi hj
  rw [connOf_set] at hi hj
  by_cases h1 : s = i
  · rw [if_pos h1, hx] at hi
    split_ifs at hi
  · by_cases h2 : s = j
    · rw [if_pos h2, hx] at hj
      split_ifs at hj
    · rw [if_neg h1] at hi
      rw [if_neg h2] at hj
      exact hu i j c hi hj

theorem uniqueConns_set_same (conns : List conninfo) (s : Nat) (x ci : conninfo)
    (hci : conns[s]? = some ci) (hx : x.conn = ci.conn) (hu : UniqueConns conns) :
    UniqueConns (conns.set s x) := by
  have hs : s < conns.length := (List.getElem?_eq_some.1 hci).1
  have key : ∀ i, connOf (conns.set s x) i = connOf conns i := by
    intro i
    rw [connOf_set]
    by_cases h : s = i
    · rw [if_pos h, if_pos hs, ← h, hx]
      unfold connOf
      rw [hci]; rfl
    · rw [if_neg h]
  intro i j c hi hj
  rw [key] at hi hj
  exact hu i j c hi hj

theorem uniqueConns_set_fresh (conns : List conninfo) (s c : Nat) (x : conninfo)
    (hx : x.conn = some c) (hfresh : ∀ i, connOf conns i ≠ some c) (hu : UniqueConns conns) :
    UniqueConns (conns.set s x) := by
  intro i j d hi hj
  rw [connOf_set] at hi hj
  by_cases h1 : s = i
  · by_cases h2 : s = j
    · rw [← h1, ← h2]
    · rw [if_pos h1] at hi
      rw [if_neg h2] at hj
      split_ifs at hi
      rw [hx] at hi
      cases hi
      exact absurd hj (hfresh j)
  · by_cases h2 : s = j
    · rw [if_neg h1] at hi
      rw [if_pos h2] at hj
      split_ifs at hj
      rw [hx] at hj
      cases hj
      exact absurd hi (hfresh i)
    · rw [if_neg h1] at hi
      rw [if_neg h2] at hj
      exact hu i j d hi hj

theorem discover_func_conn (discover_ret : bt_gatt_discover_params → Int)
    (subscribe_ret : bt_gatt_subscribe_params → Int) (conn : Nat) (ci : conninfo)
    (attr : Option bt_gatt_attr) :
    (discover_func discover_ret subscribe_ret conn ci attr).ci.conn = ci.conn := by
  unfold discover_func
  cases attr with
  | none => rfl
  | some a =>
    simp only
    by_cases h1 : ci.discover_params.type = BT_GATT_DISCOVER_CHARACTERISTIC
    · rw [if_pos h1]
      by_cases h2 : a.properties &&& BT_GATT_CHRC_NOTIFY = 0
      · rw [if_pos h2]
      · rw [if_neg h2]
        split_ifs <;> rfl
    · rw [if_neg h1]
      by_cases h3 : ci.discover_params.type = BT_GATT_DISCOVER_DESCRIPTOR
      · rw [if_pos h3]
        cases first_free_sub_params ci.sub_params with
        | none => rfl
        | some i =>
          simp only
          split_ifs <;> rfl
      · rw [if_neg h3]
        rfl

theorem conninfo_find_some (conns : List conninfo) (conn : Option Nat) (slot : Nat)
    (h : conninfo_find conns conn = some slot) :
    ∃ ci, conns[slot]? = some ci ∧ ci.conn = conn := by
  unfold conninfo_find at h
  obtain ⟨hs, hp, _⟩ := List.findIdx?_eq_some_iff_getElem.1 h
  exact ⟨conns[slot], List.getElem?_eq_getElem hs, by simpa using hp⟩

theorem device_found_inv (bonds : List bt_addr_le_t) (create : Except Int Nat)
    (conns : List conninfo) (addr : bt_addr_le_t)
    (hfresh : ∀ c, create = .ok c → ∀ i, connOf conns i ≠ some c) (hu : UniqueConns conns) :
    UniqueConns (device_found bonds create conns addr).1 ∧
      (device_found bonds create conns addr).1.length = conns.length := by
  unfold device_found
  by_cases hb : ¬ bonds.any (fun b => decide (b = addr)) = true
  · rw [if_pos hb]
    exact ⟨hu, rfl⟩
  · rw [if_neg hb]
    cases conninfo_new conns with
    | none => exact ⟨hu, rfl⟩
    | some slot =>
      cases create with
      | error e => exact ⟨hu, rfl⟩
      | ok c =>
        simp only
        cases conns[slot]? with
        | none => exact ⟨hu, rfl⟩
        | some ci =>
          exact ⟨uniqueConns_set_fresh conns slot c
              { ci with conn := some c } rfl (hfresh c rfl) hu,
            List.length_set _ _ _⟩

theorem connected_inv (discover_ret : bt_gatt_discover_params → Int) (conns : List conninfo)
    (conn conn_err : Nat) (hu : UniqueConns conns) :
    UniqueConns (connected discover_ret conns conn conn_err).1 ∧
      (connected discover_ret conns conn conn_err).1.length = conns.length := by
  unfold connected
  cases conninfo_find conns (some conn) with
  | none => exact ⟨hu, rfl⟩
  | some slot =>
    simp only
    split_ifs
    · exact ⟨uniqueConns_set_none conns slot _ rfl hu, List.length_set _ _ _⟩
    · cases e : conns[slot]? with
      | none => exact ⟨hu, rfl⟩
      | some ci =>
        exact ⟨uniqueConns_set_same conns slot _ ci e rfl hu, List.length_set _ _ _⟩

theorem disconnected_inv (conns : List conninfo) (conn reason : Nat)
    (hu : UniqueConns conns) :
    UniqueConns (disconnected conns conn reason).1 ∧
      (disconnected conns conn reason).1.length = conns.length := by
  unfold disconnected
  cases conninfo_find conns (some conn) with
  | none => exact ⟨hu, rfl⟩
  | some slot => exact ⟨uniqueConns_set_none conns slot _ rfl hu, List.length_set _ _ _⟩

theorem connOf_ne_of_any_false (conns : List conninfo) (c : Nat)
    (h : conns.any (fun ci => decide (ci.conn = some c)) = false) :
    ∀ i, connOf conns i ≠ some c := by
  intro i hi
  unfold connOf at hi
  cases e : conns[i]? with
  | none => rw [e] at hi; cases hi
  | some ci =>
    rw [e] at hi
    have hm : ci ∈ conns := List.mem_iff_getElem?.2 ⟨i, e⟩
    have : conns.any (fun ci => decide (ci.conn = some c)) = true :=
      List.any_eq_true.2 ⟨ci, hm, by simpa using hi⟩
    rw [h] at this
    cases this

theorem conn_le_create_result (h : Host) (create : Except Int Nat) :
    (h.conn_le_create create).1 = create ∨ ∃ e, (h.conn_le_create create).1 = .error e := by
  unfold Host.conn_le_create
  split_ifs
  · exact Or.inr ⟨_, rfl⟩
  · exact Or.inr ⟨_, rfl⟩
  · cases create with
    | error e => exact Or.inl rfl
    | ok c => exact Or.inl rfl

/-- Every event keeps the connection objects of the slots distinct and the table's
size. -/
theorem step_inv (bonds : List bt_addr_le_t) (w w' : World) (e : Event)
    (hu : UniqueConns w.conns) (hs : step bonds w e = some w') :
    UniqueConns w'.conns ∧ w'.conns.length = w.conns.length := by
  cases e with
  | advertiser_found addr create ok =>
    simp only [step] at hs
    by_cases hf : hands_out_held w.conns create = true
    · rw [if_pos hf] at hs; cases hs
    · rw [if_neg hf] at hs
      simp only [Option.some.injEq] at hs
      rw [← hs]
      simp only
      apply device_found_inv _ _ _ _ ?_ hu
      intro c hcc i
      have hcreate : create = .ok c := by
        by_cases hd : ((device_found bonds (Except.error 0) w.conns addr).2.contains
            (BtCall.conn_le_create addr)) = true
        · rw [if_pos hd] at hcc
          rcases conn_le_create_result _ create with h1 | ⟨e, h1⟩
          · rw [h1] at hcc; exact hcc
          · rw [h1] at hcc; cases hcc
        · rw [if_neg hd] at hcc
          cases hcc
      rw [hcreate] at hf
      exact connOf_ne_of_any_false w.conns c (by simpa [hands_out_held] using hf) i
  | connect_result conn_err discover_ret ok =>
    simp only [step] at hs
    cases hi : w.host.initiating with
    | none => rw [hi] at hs; cases hs
    | some conn =>
      rw [hi] at hs
      simp only [Option.some.injEq] at hs
      rw [← hs]
      exact connected_inv _ _ _ _ hu
  | disconnect conn reason ok =>
    simp only [step] at hs
    split_ifs at hs
    simp only [Option.some.injEq] at hs
    rw [← hs]
    exact disconnected_inv _ _ _ hu
  | discovery_result slot attr discover_ret subscribe_ret ok =>
    simp only [step] at hs
    cases hc : w.conns[slot]? with
    | none => rw [hc] at hs; cases hs
    | some ci =>
      rw [hc] at hs
      cases hcc : ci.conn with
      | none => simp only [hcc] at hs; cases hs
      | some conn =>
        simp only [hcc, Option.some.injEq] at hs
        rw [← hs]
        exact ⟨uniqueConns_set_same w.conns slot _ ci hc (discover_func_conn _ _ _ _ _) hu,
          List.length_set _ _ _⟩

theorem run_inv (bonds : List bt_addr_le_t) (events : List Event) :
    ∀ (w w' : World), UniqueConns w.conns → run bonds w events = some w' →
      UniqueConns w'.conns ∧ w'.conns.length = w.conns.length := by
  induction events with
  | nil =>
    intro w w' hu hr
    simp only [run, Option.some.injEq] at hr
    rw [← hr]
    exact ⟨hu, rfl⟩
  | cons e es ih =>
    intro w w' hu hr
    rw [run] at hr
    cases hs : step bonds w e with
    | none => rw [hs] at hr; cases hr
    | some w1 =>
      rw [hs] at hr
      obtain ⟨h1, h2⟩ := step_inv bonds w w1 e hu hs
      obtain ⟨h3, h4⟩ := ih w1 w' h1 hr
      exact ⟨h3, by rw [h4, h2]⟩

theorem uniqueConns_init (n : Nat) (scanning : Bool) :
    UniqueConns (World.init n scanning).conns := by
  intro i j c hi _
  unfold connOf World.init at hi
  simp only at hi
  cases e : (List.replicate n conninfo.zero)[i]? with
  | none => rw [e] at hi; cases hi
  | some ci =>
    rw [e] at hi
    have hm : ci ∈ List.replicate n conninfo.zero := List.mem_iff_getElem?.2 ⟨i, e⟩
    have := (List.mem_replicate.1 hm).2
    rw [this] at hi
    cases hi

theorem conninfo_zero_free :
    conninfo.zero.conn = none ∧ (∀ p ∈ conninfo.zero.sub_params, p.notify = false) ∧
      (∀ p ∈ conninfo.zero.write_params, p.func = false) ∧
      conninfo.zero.discover_params = ⟨false, false, 0, 0, 0⟩ ∧ conninfo.zero.wf := by
  decide

theorem length_le_one_of_all_eq {α : Type} (l : List α) (hn : l.Nodup)
    (h : ∀ a ∈ l, ∀ b ∈ l, a = b) : l.length ≤ 1 := by
  match l, hn, h with
  | [], _, _ => simp
  | [_], _, _ => simp
  | a :: b :: t, hn, h =>
    have hab : a = b := h a (by simp) b (by simp)
    rw [hab] at hn
    simp at hn

theorem after_calls_initiating (h : Host) (ok : Bool) (calls : List BtCall) :
    (h.after_calls ok calls).initiating = h.initiating := by
  unfold Host.after_calls Host.scan_start
  split_ifs <;> rfl

theorem conn_le_create_pending (h : Host) (create : Except Int Nat) (l : List Nat)
    (hp : l = h.initiating.toList) :
    (match (h.conn_le_create create).1 with
      | .ok conn => conn :: l
      | .error _ => l) = (h.conn_le_create create).2.initiating.toList := by
  unfold Host.conn_le_create
  by_cases h1 : h.scanning = true
  · rw [if_pos h1]; exact hp
  · rw [if_neg h1]
    by_cases h2 : h.initiating.isSome = true
    · rw [if_pos h2]; exact hp
    · rw [if_neg h2]
      cases create with
      | error e => exact hp
      | ok c =>
        have : h.initiating = none := by
          cases e : h.initiating with
          | none => rfl
          | some x => rw [e] at h2; simp at h2
        simp only [hp, this]
        rfl

/-- Every event keeps the unreported connection objects equal to the one being
initiated: a new one is handed out only when the host initiates none. -/
theorem step_pending (bonds : List bt_addr_le_t) (w w' : World) (e : Event)
    (hp : PendingIsInitiating w) (hs : step bonds w e = some w') :
    PendingIsInitiating w' := by
  unfold PendingIsInitiating at hp ⊢
  cases e with
  | advertiser_found addr create ok =>
    simp only [step] at hs
    by_cases hf : hands_out_held w.conns create = true
    · rw [if_pos hf] at hs; cases hs
    · rw [if_neg hf] at hs
      simp only [Option.some.injEq] at hs
      rw [← hs]
      simp only [after_calls_initiating]
      by_cases hd : ((device_found bonds (Except.error 0) w.conns addr).2.contains
          (BtCall.conn_le_create addr)) = true
      · simp only [if_pos hd]
        apply conn_le_create_pending
        split_ifs
        · exact hp
        · exact hp
      · simp only [if_neg hd]
        split_ifs
        · exact hp
        · exact hp
  | connect_result conn_err discover_ret ok =>
    simp only [step] at hs
    cases hi : w.host.initiating with
    | none => rw [hi] at hs; cases hs
    | some conn =>
      rw [hi] at hs
      simp only [Option.some.injEq] at hs
      rw [← hs]
      simp only [after_calls_initiating]
      rw [hp, hi]
      simp
  | disconnect conn reason ok =>
    simp only [step] at hs
    split_ifs at hs
    simp only [Option.some.injEq] at hs
    rw [← hs]
    simp only [after_calls_initiating]
    exact hp
  | discovery_result slot attr discover_ret subscribe_ret ok =>
    simp only [step] at hs
    cases hc : w.conns[slot]? with
    | none => rw [hc] at hs; cases hs
    | some ci =>
      rw [hc] at hs
      cases hcc : ci.conn with
      | none => simp only [hcc] at hs; cases hs
      | some conn =>
        simp only [hcc, Option.some.injEq] at hs
        rw [← hs]
        simp only [after_calls_initiating]
        exact hp

theorem run_pending (bonds : List bt_addr_le_t) (events : List Event) :
    ∀ (w w' : World), PendingIsInitiating w → run bonds w events = some w' →
      PendingIsInitiating w' := by
  induction events with
  | nil =>
    intro w w' hp hr
    simp only [run, Option.some.injEq] at hr
    rw [← hr]
    exact hp
  | cons e es ih =>
    intro w w' hp hr
    rw [run] at hr
    cases hs : step bonds w e with
    | none => rw [hs] at hr; cases hr
    | some w1 =>
      rw [hs] at hr
      exact ih w1 w' (step_pending bonds w w1 e hp hs) hr

theorem discover_stop_done (ci : conninfo) (calls : List BtCall) :
    DiscoveryDone ((discover_stop ci calls).ci, (discover_stop ci calls).outstanding,
      (discover_stop ci calls).calls) := by
  refine ⟨rfl, rfl, ?_⟩
  simp [discover_stop, start_scan]

/-- What one call of `discover_func` with an attribute can do: continue with nothing
changed; end the discovery, after at most one request; or issue exactly one request, past
the attribute it was called with. -/
theorem discover_func_cases (discover_ret : bt_gatt_discover_params → Int)
    (subscribe_ret : bt_gatt_subscribe_params → Int) (conn : Nat) (ci : conninfo)
    (a : bt_gatt_attr) :
    ((discover_func discover_ret subscribe_ret conn ci (some a)).ret = BT_GATT_ITER_CONTINUE ∧
      (discover_func discover_ret subscribe_ret conn ci (some a)).ci = ci ∧
      (discover_func discover_ret subscribe_ret conn ci (some a)).calls = []) ∨
    ((discover_func discover_ret subscribe_ret conn ci (some a)).ret = BT_GATT_ITER_STOP ∧
      (discover_requests
        (discover_func discover_ret subscribe_ret conn ci (some a)).calls).length ≤ 1 ∧
      DiscoveryDone ((discover_func discover_ret subscribe_ret conn ci (some a)).ci,
        (discover_func discover_ret subscribe_ret conn ci (some a)).outstanding,
        (discover_func discover_ret subscribe_ret conn ci (some a)).calls)) ∨
    ((discover_func discover_ret subscribe_ret conn ci (some a)).ret = BT_GATT_ITER_STOP ∧
      (discover_requests
        (discover_func discover_ret subscribe_ret conn ci (some a)).calls).length = 1 ∧
      (discover_func discover_ret subscribe_ret conn ci (some a)).outstanding = true ∧
      ((ci.discover_params.type = BT_GATT_DISCOVER_CHARACTERISTIC ∧
          (discover_func discover_ret subscribe_ret conn ci
            (some a)).ci.discover_params.start_handle = (a.handle + 2) % 2 ^ 16) ∨
        (ci.discover_params.type = BT_GATT_DISCOVER_DESCRIPTOR ∧
          (discover_func discover_ret subscribe_ret conn ci
            (some a)).ci.discover_params.start_handle = (a.handle + 1) % 2 ^ 16))) := by
  unfold discover_func
  simp only
  by_cases h1 : ci.discover_params.type = BT_GATT_DISCOVER_CHARACTERISTIC
  · rw [if_pos h1]
    by_cases h2 : a.properties &&& BT_GATT_CHRC_NOTIFY = 0
    · rw [if_pos h2]
      exact Or.inl ⟨rfl, rfl, rfl⟩
    · rw [if_neg h2]
      split_ifs with h3
      · refine Or.inr (Or.inl ⟨rfl, ?_, discover_stop_done _ _⟩)
        simp [discover_stop, discover_requests, start_scan]
      · refine Or.inr (Or.inr ⟨rfl, ?_, rfl, Or.inl ⟨h1, rfl⟩⟩)
        simp [discover_requests]
  · rw [if_neg h1]
    by_cases h4 : ci.discover_params.type = BT_GATT_DISCOVER_DESCRIPTOR
    · rw [if_pos h4]
      cases first_free_sub_params ci.sub_params with
      | none =>
        refine Or.inr (Or.inl ⟨rfl, ?_, discover_stop_done _ _⟩)
        simp [discover_stop, discover_requests, start_scan]
      | some i =>
        simp only
        by_cases h3 : discover_ret
            { uuid := false, func := ci.discover_params.func,
              start_handle := (a.handle + 1) % 2 ^ 16,
              end_handle := ci.discover_params.end_handle,
              type := BT_GATT_DISCOVER_CHARACTERISTIC } ≠ 0
        · rw [if_pos h3]
          refine Or.inr (Or.inl ⟨rfl, ?_, discover_stop_done _ _⟩)
          simp [discover_stop, discover_requests, start_scan]
        · rw [if_neg h3]
          refine Or.inr (Or.inr ⟨rfl, ?_, rfl, Or.inr ⟨h4, rfl⟩⟩)
          simp [discover_requests]
    · rw [if_neg h4]
      refine Or.inr (Or.inl ⟨rfl, ?_, discover_stop_done _ _⟩)
      simp [discover_stop, discover_requests, start_scan]

theorem filter_length_lt {α : Type} (l : List α) (p q : α → Bool) (a : α)
    (hqp : ∀ x ∈ l, q x = true → p x = true) (ha : a ∈ l) (hpa : p a = true)
    (hqa : q a = false) : (l.filter q).length < (l.filter p).length := by
  induction l with
  | nil => cases ha
  | cons x xs ih =>
    have hle : (xs.filter q).length ≤ (xs.filter p).length := by
      have hsub : xs.filter q = (xs.filter p).filter q := by
        rw [List.filter_filter]
        apply List.filter_congr
        intro y hy
        cases hq : q y with
        | false => simp
        | true => simp [hqp y (List.mem_cons_of_mem _ hy) hq]
      rw [hsub]
      exact List.length_filter_le _ _
    rcases List.mem_cons.1 ha with e | hin
    · subst e
      rw [List.filter_cons, List.filter_cons, if_pos hpa, if_neg (by rw [hqa]; simp)]
      simp only [List.length_cons]
      omega
    · have := ih (fun y hy => hqp y (List.mem_cons_of_mem _ hy)) hin
      rw [List.filter_cons, List.filter_cons]
      cases hq : q x with
      | true =>
        rw [if_pos rfl, if_pos (hqp x (List.mem_cons_self _ _) hq)]
        simp only [List.length_cons]
        omega
      | false =>
        rw [if_neg (by simp)]
        split_ifs
        · simp only [List.length_cons]; omega
        · exact this

/-- A request issued past an attribute of the table leaves fewer attributes before the
discovery, also when the 16-bit start handle wraps to `0`. -/
theorem remaining_lt (table : List bt_gatt_attr) (ci ci' : conninfo) (a : bt_gatt_attr)
    (k : Nat) (hk : k = 1 ∨ k = 2) (ha : a ∈ table)
    (hstart : ci.discover_params.start_handle ≠ 0)
    (hle : ci.discover_params.start_handle ≤ a.handle)
    (hmax : a.handle + k ≤ 2 ^ 16)
    (hs' : ci'.discover_params.start_handle = (a.handle + k) % 2 ^ 16) :
    remaining table ci' < remaining table ci := by
  have hpos : 0 < (table.filter
      (fun x => decide (ci.discover_params.start_handle ≤ x.handle))).length := by
    apply List.length_pos_of_mem (a := a)
    exact List.mem_filter.2 ⟨ha, by simpa using hle⟩
  unfold remaining
  rw [if_neg hstart]
  by_cases hz : ci'.discover_params.start_handle = 0
  · rw [if_pos hz]; exact hpos
  · rw [if_neg hz]
    have hs2 : ci'.discover_params.start_handle = a.handle + k := by
      rw [hs']
      rw [hs'] at hz
      have : a.handle + k ≠ 2 ^ 16 := fun e => hz (by rw [e]; rfl)
      exact Nat.mod_eq_of_lt (by omega)
    apply filter_length_lt _ _ _ a _ ha (by simpa using hle)
    · simp only [decide_eq_false_iff_not, not_le]
      rw [hs2]; omega
    · intro x _ hx
      simp only [decide_eq_true_eq] at hx ⊢
      rw [hs2] at hx
      omega

theorem remaining_pos (table : List bt_gatt_attr) (ci : conninfo) (a : bt_gatt_attr)
    (ha : a ∈ table) (hstart : ci.discover_params.start_handle ≠ 0)
    (hle : ci.discover_params.start_handle ≤ a.handle) : 1 ≤ remaining table ci := by
  unfold remaining
  rw [if_neg hstart]
  apply List.length_pos_of_mem (a := a)
  exact List.mem_filter.2 ⟨ha, by simpa using hle⟩

/-- The host walking an answer either leaves one new request outstanding, with fewer
attributes before the discovery, or ends the discovery after at most one request. -/
theorem discover_iter_progress (discover_ret : bt_gatt_discover_params → Int)
    (subscribe_ret : bt_gatt_subscribe_params → Int) (conn : Nat)
    (table : List bt_gatt_attr) (hH : ∀ a ∈ table, a.handle ≤ 0xFFFF)
    (hD : ∀ a ∈ table, a.uuid = BT_UUID_GATT_CHRC → a.handle < 0xFFFF) (ci : conninfo)
    (hstart : ci.discover_params.start_handle ≠ 0) (L : List bt_gatt_attr)
    (hL : ∀ a ∈ L, a ∈ table ∧ ci.discover_params.start_handle ≤ a.handle ∧
      (ci.discover_params.type = BT_GATT_DISCOVER_CHARACTERISTIC →
        a.uuid = BT_UUID_GATT_CHRC)) :
    ((discover_iter discover_ret subscribe_ret conn L ci).2.1 = true ∧
      (discover_requests (discover_iter discover_ret subscribe_ret conn L ci).2.2).length = 1 ∧
      remaining table (discover_iter discover_ret subscribe_ret conn L ci).1 <
        remaining table ci) ∨
    (DiscoveryDone (discover_iter discover_ret subscribe_ret conn L ci) ∧
      (discover_requests (discover_iter discover_ret subscribe_ret conn L ci).2.2).length ≤
        remaining table ci) := by
  induction L with
  | nil =>
    right
    rw [discover_iter]
    refine ⟨discover_stop_done ci [], ?_⟩
    simp [discover_func, discover_stop, discover_requests, start_scan]
  | cons a rest ih =>
    obtain ⟨hat, hale, hachr⟩ := hL a (List.mem_cons_self _ _)
    have hne : BT_GATT_ITER_STOP ≠ BT_GATT_ITER_CONTINUE := by decide
    rw [discover_iter]
    rcases discover_func_cases discover_ret subscribe_ret conn ci a with
      ⟨hret, hci, hcalls⟩ | ⟨hret, hreq, hdone⟩ | ⟨hret, hreq, hout, hnext⟩
    · simp only [hret, if_true, hci, hcalls, List.nil_append]
      exact ih (fun x hx => hL x (List.mem_cons_of_mem _ hx))
    · right
      simp only [hret, if_neg hne]
      refine ⟨hdone, ?_⟩
      have := remaining_pos table ci a hat hstart hale
      omega
    · left
      simp only [hret, if_neg hne]
      refine ⟨hout, hreq, ?_⟩
      rcases hnext with ⟨ht, hs⟩ | ⟨_, hs⟩
      · have := hD a hat (hachr ht)
        exact remaining_lt table ci _ a 2 (Or.inr rfl) hat hstart hale (by omega) hs
      · have := hH a hat
        exact remaining_lt table ci _ a 1 (Or.inl rfl) hat hstart hale (by omega) hs

theorem discover_answer_mem (table : List bt_gatt_attr) (ci : conninfo) :
    ∀ a ∈ discover_answer table ci, a ∈ table ∧ ci.discover_params.start_handle ≤ a.handle ∧
      (ci.discover_params.type = BT_GATT_DISCOVER_CHARACTERISTIC →
        a.uuid = BT_UUID_GATT_CHRC) := by
  intro a ha
  unfold discover_answer at ha
  simp only at ha
  by_cases hg : ci.discover_params.start_handle = 0 ∨
      ci.discover_params.end_handle < ci.discover_params.start_handle
  · rw [if_pos hg] at ha
    cases ha
  · rw [if_neg hg] at ha
    obtain ⟨hm, hp⟩ := List.mem_filter.1 ha
    rw [Bool.and_eq_true, decide_eq_true_eq] at hp
    refine ⟨hm, hp.1.1, ?_⟩
    intro ht
    have h2 := hp.2
    rw [if_pos ht, Bool.and_eq_true, decide_eq_true_eq] at h2
    exact h2.1

theorem discover_answer_zero (table : List bt_gatt_attr) (ci : conninfo)
    (h : ci.discover_params.start_handle = 0) : discover_answer table ci = [] := by
  unfold discover_answer
  simp only
  rw [if_pos (Or.inl h)]

theorem discovery_rounds_idle (discover_ret : bt_gatt_discover_params → Int)
    (subscribe_ret : bt_gatt_subscribe_params → Int) (conn : Nat)
    (table : List bt_gatt_attr) (fuel : Nat) (ci : conninfo) :
    discovery_rounds discover_ret subscribe_ret conn table fuel ci false = (ci, false, []) := by
  cases fuel <;> rfl

theorem discover_requests_append (l1 l2 : List BtCall) :
    discover_requests (l1 ++ l2) = discover_requests l1 ++ discover_requests l2 := by
  unfold discover_requests
  exact List.filterMap_append _ _ _

/-- With a request outstanding and more rounds allowed than attributes remain before the
discovery, the rounds end the discovery, after at most as many further requests as
attributes remained. -/
theorem discovery_rounds_done (discover_ret : bt_gatt_discover_params → Int)
    (subscribe_ret : bt_gatt_subscribe_params → Int) (conn : Nat)
    (table : List bt_gatt_attr) (hH : ∀ a ∈ table, a.handle ≤ 0xFFFF)
    (hD : ∀ a ∈ table, a.uuid = BT_UUID_GATT_CHRC → a.handle < 0xFFFF) (fuel : Nat) :
    ∀ ci : conninfo, remaining table ci < fuel →
      DiscoveryDone (discovery_rounds discover_ret subscribe_ret conn table fuel ci true) ∧
      (discover_requests
        (discovery_rounds discover_ret subscribe_ret conn table fuel ci true).2.2).length ≤
        remaining table ci := by
  induction fuel with
  | zero => intro ci h; omega
  | succ fuel ih =>
    intro ci hfuel
    rw [discovery_rounds]
    simp only [if_true]
    have hstep : ((discover_iter discover_ret subscribe_ret conn
          (discover_answer table ci) ci).2.1 = true ∧
        (discover_requests (discover_iter discover_ret subscribe_ret conn
          (discover_answer table ci) ci).2.2).length = 1 ∧
        remaining table (discover_iter discover_ret subscribe_ret conn
          (discover_answer table ci) ci).1 < remaining table ci) ∨
      (DiscoveryDone (discover_iter discover_ret subscribe_ret conn
          (discover_answer table ci) ci) ∧
        (discover_requests (discover_iter discover_ret subscribe_ret conn
          (discover_answer table ci) ci).2.2).length ≤ remaining table ci) := by
      by_cases hz : ci.discover_params.start_handle = 0
      · right
        rw [discover_answer_zero table ci hz, discover_iter]
        refine ⟨discover_stop_done ci [], ?_⟩
        simp [discover_func, discover_stop, discover_requests, start_scan]
      · exact discover_iter_progress discover_ret subscribe_ret conn table hH hD ci hz _
          (discover_answer_mem table ci)
    rcases hstep with ⟨hout, hreq, hlt⟩ | ⟨hdone, hreq⟩
    · obtain ⟨i1, i2⟩ := ih (discover_iter discover_ret subscribe_ret conn
        (discover_answer table ci) ci).1 (by omega)
      rw [hout]
      refine ⟨⟨i1.1, i1.2.1, ?_⟩, ?_⟩
      · exact List.mem_append_right _ i1.2.2
      · simp only [discover_requests_append, List.length_append, hreq]
        omega
    · rw [hdone.1, discovery_rounds_idle]
      simp only [List.append_nil]
      exact ⟨⟨rfl, hdone.2.1, hdone.2.2⟩, hreq⟩

theorem remaining_le (table : List bt_gatt_attr) (ci : conninfo) :
    remaining table ci ≤ table.length := by
  unfold remaining
  split_ifs
  · omega
  · exact List.length_filter_le _ _

/-- C17 (as amended): for every finite attribute table with 16-bit handles in which no
characteristic declaration sits at the last handle `0xFFFF`, whatever `bt_gatt_discover`
and `bt_gatt_subscribe` return, the discovery started on link-up ends (no request
outstanding, scanning restarted; the discovery parameters zeroed once the first request
was accepted) as soon as `table.length + 1` requests may be answered, after at most
`table.length + 1` discovery requests: the first request is issued whatever the table
holds. -/
theorem discovery_terminates (discover_ret : bt_gatt_discover_params → Int)
    (subscribe_ret : bt_gatt_subscribe_params → Int) (conn : Nat)
    (table : List bt_gatt_attr) (fuel : Nat) (ci : conninfo)
    (hH : ∀ a ∈ table, a.handle ≤ 0xFFFF)
    (hD : ∀ a ∈ table, a.uuid = BT_UUID_GATT_CHRC → a.handle < 0xFFFF)
    (hfuel : table.length + 1 ≤ fuel) :
    (discovery_link_up discover_ret subscribe_ret conn table fuel ci).2.1 = false ∧
    BtCall.scan_start ∈
      (discovery_link_up discover_ret subscribe_ret conn table fuel ci).2.2 ∧
    (discover_ret initial_discover_params = 0 →
      (discovery_link_up discover_ret subscribe_ret conn table fuel ci).1.discover_params =
        ⟨false, false, 0, 0, 0⟩) ∧
    (discover_requests
      (discovery_link_up discover_ret subscribe_ret conn table fuel ci).2.2).length ≤
      table.length + 1 := by
  unfold discovery_link_up
  simp only
  by_cases hd : discover_ret initial_discover_params = 0
  · have hc : (connected_discover discover_ret conn ci).2.1 = true := by
      simp [connected_discover, hd]
    have hreq : discover_requests (connected_discover discover_ret conn ci).2.2 =
        [initial_discover_params] := by
      simp [connected_discover, hd, discover_requests]
    obtain ⟨⟨d1, d2, d3⟩, hle⟩ := discovery_rounds_done discover_ret subscribe_ret conn table
      hH hD fuel (connected_discover discover_ret conn ci).1
      (by have := remaining_le table (connected_discover discover_ret conn ci).1; omega)
    rw [hc]
    refine ⟨d1, List.mem_append_right _ d3, fun _ => d2, ?_⟩
    rw [discover_requests_append, List.length_append, hreq]
    have := remaining_le table (connected_discover discover_ret conn ci).1
    simp only [List.length_singleton]
    omega
  · have hc : (connected_discover discover_ret conn ci).2.1 = false := by
      simp [connected_discover, hd]
    rw [hc, discovery_rounds_idle]
    refine ⟨rfl, ?_, fun h => absurd h hd, ?_⟩
    · simp [connected_discover, hd, start_scan]
    · simp [connected_discover, hd, discover_requests, start_scan]

/-- C17 (as amended) at a table of six attributes with one notifiable characteristic:
three requests, then the end. -/
theorem discovery_terminates_witness :
    (discover_requests (discovery_link_up (fun _ => 0) (fun _ => 0) 7
      [⟨1, 0x2800, 0, 0, 0⟩, ⟨2, 0x2803, 0x02, 3, 0x2a00⟩, ⟨3, 0x2a00, 0, 0, 0⟩,
        ⟨4, 0x2803, 0x12, 5, 0x2a01⟩, ⟨5, 0x2a01, 0, 0, 0⟩, ⟨6, 0x2902, 0, 0, 0⟩]
      7 { conninfo.zero with conn := some 7 }).2.2).length ≤ 6 + 1 :=
  (discovery_terminates (fun _ => 0) (fun _ => 0) 7
    [⟨1, 0x2800, 0, 0, 0⟩, ⟨2, 0x2803, 0x02, 3, 0x2a00⟩, ⟨3, 0x2a00, 0, 0, 0⟩,
      ⟨4, 0x2803, 0x12, 5, 0x2a01⟩, ⟨5, 0x2a01, 0, 0, 0⟩, ⟨6, 0x2902, 0, 0, 0⟩]
    7 { conninfo.zero with conn := some 7 } (by decide) (by decide) (by decide)).2.2.2

/-- C17, counterexample: for the empty attribute table the discovery ends after one
discovery request, which is more than the number of attributes in the table. -/
theorem empty_table_one_request :
    (discovery_link_up (fun _ => 0) (fun _ => 0) 7 [] 1
        { conninfo.zero with conn := some 7 }).2.1 = false ∧
    discover_requests (discovery_link_up (fun _ => 0) (fun _ => 0) 7 [] 1
        { conninfo.zero with conn := some 7 }).2.2 = [initial_discover_params] ∧
    ¬ (discover_requests (discovery_link_up (fun _ => 0) (fun _ => 0) 7 [] 1
        { conninfo.zero with conn := some 7 }).2.2).length ≤
      ([] : List bt_gatt_attr).length := by
  refine ⟨rfl, rfl, ?_⟩
  decide

/-! ## The subscription pool during discovery -/

theorem first_free_split (l : List bt_gatt_subscribe_params) (i : Nat)
    (h : first_free_sub_params l = some i) :
    ∃ l1 e l2, l = l1 ++ e :: l2 ∧ l1.length = i ∧ (∀ p ∈ l1, p.notify = true) ∧
      e.notify = false := by
  unfold first_free_sub_params at h
  obtain ⟨_, hp, hlt⟩ := find?_range_some _ _ _ h
  have hi : i < l.length := by
    by_contra hc
    rw [List.getElem?_eq_none (by omega)] at hp
    simp at hp
  rw [List.getElem?_eq_getElem hi] at hp
  refine ⟨l.take i, l[i], l.drop (i + 1), ?_, ?_, ?_, by simpa using hp⟩
  · rw [← List.drop_eq_getElem_cons hi, List.take_append_drop]
  · rw [List.length_take]
    omega
  · intro p hp1
    obtain ⟨k, hk, rfl⟩ := List.getElem_of_mem hp1
    rw [List.length_take] at hk
    have hk1 : k < i := by omega
    have := hlt k hk1
    rw [List.getElem?_eq_getElem (by omega)] at this
    rw [List.getElem_take]
    simpa using this

theorem first_free_of_split (l1 l2 : List bt_gatt_subscribe_params)
    (e : bt_gatt_subscribe_params) (h1 : ∀ p ∈ l1, p.notify = true) (he : e.notify = false)
    (hlen : l1.length < SUB_PARAMS_COUNT) :
    first_free_sub_params (l1 ++ e :: l2) = some l1.length := by
  unfold first_free_sub_params
  apply find?_range_first _ _ _ hlen
  · have : (l1 ++ e :: l2)[l1.length]? = some e := by
      rw [List.getElem?_append_right (le_refl _)]
      simp
    simp only [this]
    simpa using he
  · intro k hk
    rw [List.getElem?_append_left hk, List.getElem?_eq_getElem hk]
    simp [h1 _ (List.getElem_mem hk)]

theorem set_split (l1 l2 : List bt_gatt_subscribe_params) (e x : bt_gatt_subscribe_params) :
    (l1 ++ e :: l2).set l1.length x = l1 ++ x :: l2 := by
  induction l1 with
  | nil => rfl
  | cons a l ih => simp [ih]

theorem filter_all_active (l : List bt_gatt_subscribe_params) (h : ∀ p ∈ l, p.notify = true) :
    l.filter (fun p => p.notify) = l := by
  apply List.filter_eq_self.2
  exact h

theorem discover_func_char_skip (discover_ret : bt_gatt_discover_params → Int)
    (subscribe_ret : bt_gatt_subscribe_params → Int) (conn : Nat) (ci : conninfo)
    (a : bt_gatt_attr) (h1 : ci.discover_params.type = BT_GATT_DISCOVER_CHARACTERISTIC)
    (h2 : a.properties &&& BT_GATT_CHRC_NOTIFY = 0) :
    discover_func discover_ret subscribe_ret conn ci (some a) =
      { ret := BT_GATT_ITER_CONTINUE, ci := ci, outstanding := true, calls := [] } := by
  unfold discover_func
  simp only
  rw [if_pos h1, if_pos h2]

theorem discover_func_char_notify (discover_ret : bt_gatt_discover_params → Int)
    (subscribe_ret : bt_gatt_subscribe_params → Int) (conn : Nat) (ci : conninfo)
    (a : bt_gatt_attr) (h1 : ci.discover_params.type = BT_GATT_DISCOVER_CHARACTERISTIC)
    (h2 : a.properties &&& BT_GATT_CHRC_NOTIFY ≠ 0) :
    discover_func discover_ret subscribe_ret conn ci (some a) =
      if discover_ret (desc_request ci a) ≠ 0 then
        discover_stop (desc_slot ci a)
          [.gatt_discover conn (desc_request ci a) (discover_ret (desc_request ci a))]
      else
        { ret := BT_GATT_ITER_STOP, ci := desc_slot ci a, outstanding := true,
          calls := [.gatt_discover conn (desc_request ci a) 0] } := by
  unfold discover_func desc_slot desc_request
  simp only
  rw [if_pos h1, if_neg h2]

theorem discover_func_desc_full (discover_ret : bt_gatt_discover_params → Int)
    (subscribe_ret : bt_gatt_subscribe_params → Int) (conn : Nat) (ci : conninfo)
    (a : bt_gatt_attr) (h1 : ci.discover_params.type = BT_GATT_DISCOVER_DESCRIPTOR)
    (h2 : first_free_sub_params ci.sub_params = none) :
    discover_func discover_ret subscribe_ret conn ci (some a) = discover_stop ci [] := by
  have hne : ¬ ci.discover_params.type = BT_GATT_DISCOVER_CHARACTERISTIC := by
    rw [h1]; decide
  unfold discover_func
  simp only
  rw [if_neg hne, if_pos h1, h2]

theorem discover_func_desc_free (discover_ret : bt_gatt_discover_params → Int)
    (subscribe_ret : bt_gatt_subscribe_params → Int) (conn : Nat) (ci : conninfo)
    (a : bt_gatt_attr) (i : Nat)
    (h1 : ci.discover_params.type = BT_GATT_DISCOVER_DESCRIPTOR)
    (h2 : first_free_sub_params ci.sub_params = some i) :
    discover_func discover_ret subscribe_ret conn ci (some a) =
      if discover_ret (char_request ci a) ≠ 0 then
        discover_stop (char_slot subscribe_ret ci i a)
          [.gatt_subscribe conn (new_subscription ci i a)
              (subscribe_ret (new_subscription ci i a)),
            .gatt_discover conn (char_request ci a) (discover_ret (char_request ci a))]
      else
        { ret := BT_GATT_ITER_STOP, ci := char_slot subscribe_ret ci i a, outstanding := true,
          calls := [.gatt_subscribe conn (new_subscription ci i a)
              (subscribe_ret (new_subscription ci i a)),
            .gatt_discover conn (char_request ci a) 0] } := by
  have hne : ¬ ci.discover_params.type = BT_GATT_DISCOVER_CHARACTERISTIC := by
    rw [h1]; decide
  unfold discover_func char_slot char_request kept_subscription new_subscription
  simp only
  rw [if_neg hne, if_pos h1, h2]

theorem discover_func_other (discover_ret : bt_gatt_discover_params → Int)
    (subscribe_ret : bt_gatt_subscribe_params → Int) (conn : Nat) (ci : conninfo)
    (a : bt_gatt_attr) (h1 : ci.discover_params.type ≠ BT_GATT_DISCOVER_CHARACTERISTIC)
    (h2 : ci.discover_params.type ≠ BT_GATT_DISCOVER_DESCRIPTOR) :
    discover_func discover_ret subscribe_ret conn ci (some a) = discover_stop ci [] := by
  unfold discover_func
  simp only
  rw [if_neg h1, if_neg h2]

theorem active_fill_kept (l : List bt_gatt_subscribe_params) (i : Nat)
    (x : bt_gatt_subscribe_params) (h : first_free_sub_params l = some i)
    (hx : x.notify = true) :
    ((l.set i x).filter (fun p => p.notify)).Perm (x :: l.filter (fun p => p.notify)) := by
  obtain ⟨l1, e, l2, rfl, rfl, _, he⟩ := first_free_split l i h
  rw [set_split]
  simp only [List.filter_append, List.filter_cons, hx, he, if_true]
  simp only [Bool.false_eq_true, if_false]
  exact List.perm_middle

theorem active_fill_released (l : List bt_gatt_subscribe_params) (i : Nat)
    (x : bt_gatt_subscribe_params) (h : first_free_sub_params l = some i)
    (hx : x.notify = false) :
    (l.set i x).filter (fun p => p.notify) = l.filter (fun p => p.notify) := by
  obtain ⟨l1, e, l2, rfl, rfl, _, he⟩ := first_free_split l i h
  rw [set_split]
  simp [List.filter_append, List.filter_cons, hx, he]

theorem kept_subscription_cases (err : Int) (sub : bt_gatt_subscribe_params) :
    ((err = 0 ∨ err = -EALREADY) ∧ kept_subscription err sub = sub) ∨
    ((err ≠ 0 ∧ err ≠ -EALREADY) ∧ (kept_subscription err sub).notify = false) := by
  unfold kept_subscription
  by_cases h : err ≠ 0 ∧ err ≠ -EALREADY
  · rw [if_pos h]
    exact Or.inr ⟨h, rfl⟩
  · rw [if_neg h]
    left
    refine ⟨?_, rfl⟩
    by_cases h0 : err = 0
    · exact Or.inl h0
    · right
      by_contra h1
      exact h ⟨h0, h1⟩

/-- The active value handles after `discover_func` served a descriptor: the slot's current
value handle is added when `bt_gatt_subscribe` returned `0` or `-EALREADY`, and nothing
changes otherwise. -/
theorem char_slot_active (subscribe_ret : bt_gatt_subscribe_params → Int) (ci : conninfo)
    (i : Nat) (a : bt_gatt_attr) (h : first_free_sub_params ci.sub_params = some i) :
    (active_value_handles (char_slot subscribe_ret ci i a)).Perm
        (ci.value_handle :: active_value_handles ci) ∨
      active_value_handles (char_slot subscribe_ret ci i a) = active_value_handles ci := by
  unfold active_value_handles active_subscriptions char_slot
  simp only [List.map_map]
  rcases kept_subscription_cases (subscribe_ret (new_subscription ci i a))
    (new_subscription ci i a) with ⟨_, hk⟩ | ⟨_, hk⟩
  · left
    rw [hk]
    exact (active_fill_kept ci.sub_params i _ h rfl).map _
  · right
    rw [active_fill_released ci.sub_params i _ h hk]

theorem declaredBelow_mono (table : List bt_gatt_attr) (vs : List Nat) (h1 h2 : Nat)
    (hle : h1 ≤ h2) (h : DeclaredBelow table vs h1) : DeclaredBelow table vs h2 := by
  intro v hv
  obtain ⟨d, hd, hu, hvh, hlt⟩ := h v hv
  exact ⟨d, hd, hu, hvh, by omega⟩

theorem discover_stop_inv (table : List bt_gatt_attr) (ci : conninfo) (calls : List BtCall)
    (h : NoDupActive ci) : DiscoveryInv table (discover_stop ci calls).ci :=
  ⟨h, Or.inl rfl⟩

/-- One call of `discover_func` with an attribute of the answer keeps the state of the
discovery. -/
theorem discover_func_inv (discover_ret : bt_gatt_discover_params → Int)
    (subscribe_ret : bt_gatt_subscribe_params → Int) (conn : Nat)
    (table : List bt_gatt_attr) (hH : ∀ a ∈ table, a.handle ≤ 0xFFFF)
    (hD : ∀ a ∈ table, a.uuid = BT_UUID_GATT_CHRC → a.handle < 0xFFFF)
    (hinj : DistinctValueHandles table) (ci : conninfo) (a : bt_gatt_attr)
    (hinv : DiscoveryInv table ci) (ha : a ∈ table)
    (hs : ci.discover_params.start_handle ≠ 0)
    (hle : ci.discover_params.start_handle ≤ a.handle)
    (hchr : ci.discover_params.type = BT_GATT_DISCOVER_CHARACTERISTIC →
      a.uuid = BT_UUID_GATT_CHRC) :
    DiscoveryInv table (discover_func discover_ret subscribe_ret conn ci (some a)).ci := by
  have hne : BT_GATT_DISCOVER_DESCRIPTOR ≠ BT_GATT_DISCOVER_CHARACTERISTIC := by decide
  obtain ⟨hnd, hrest⟩ := hinv
  by_cases h1 : ci.discover_params.type = BT_GATT_DISCOVER_CHARACTERISTIC
  · by_cases h2 : a.properties &&& BT_GATT_CHRC_NOTIFY = 0
    · rw [discover_func_char_skip _ _ _ _ _ h1 h2]
      exact ⟨hnd, hrest⟩
    · rw [discover_func_char_notify _ _ _ _ _ h1 h2]
      have hnd1 : NoDupActive (desc_slot ci a) := hnd
      by_cases h3 : discover_ret (desc_request ci a) ≠ 0
      · rw [if_pos h3]
        exact discover_stop_inv table _ _ hnd1
      · rw [if_neg h3]
        refine ⟨hnd1, ?_⟩
        by_cases hw : a.handle + 2 < 2 ^ 16
        · right; right
          have hb : DeclaredBelow table (active_value_handles ci)
              ci.discover_params.start_handle := by
            rcases hrest with h0 | ⟨_, hc⟩ | ⟨hd, _⟩
            · exact absurd h0 hs
            · exact hc
            · rw [h1] at hd
              exact absurd hd.symm hne
          refine ⟨rfl, a, ha, hchr h1, rfl, ?_, declaredBelow_mono table _ _ _ hle hb⟩
          show a.handle < (a.handle + 2) % 2 ^ 16
          rw [Nat.mod_eq_of_lt hw]
          omega
        · left
          have := hD a ha (hchr h1)
          show (a.handle + 2) % 2 ^ 16 = 0
          have h4 : a.handle = 0xFFFE := by omega
          rw [h4]
          rfl
  · by_cases h2 : ci.discover_params.type = BT_GATT_DISCOVER_DESCRIPTOR
    · cases hf : first_free_sub_params ci.sub_params with
      | none =>
        rw [discover_func_desc_full _ _ _ _ _ h2 hf]
        exact discover_stop_inv table _ _ hnd
      | some i =>
        rw [discover_func_desc_free _ _ _ _ _ i h2 hf]
        obtain ⟨d0, hd0, hu0, hv0, hlt0, hb0⟩ : ∃ d0 ∈ table, d0.uuid = BT_UUID_GATT_CHRC ∧
            bt_gatt_attr_value_handle d0 = ci.value_handle ∧
            d0.handle < ci.discover_params.start_handle ∧
            DeclaredBelow table (active_value_handles ci) d0.handle := by
          rcases hrest with h0 | ⟨hc, _⟩ | ⟨_, hd⟩
          · exact absurd h0 hs
          · exact absurd hc h1
          · exact hd
        have hfresh : ci.value_handle ∉ active_value_handles ci := by
          intro hm
          obtain ⟨d, hd, hu, hv, hlt⟩ := hb0 _ hm
          have := hinj d hd d0 hd0 hu hu0 (by rw [hv, hv0])
          omega
        have hnd1 : NoDupActive (char_slot subscribe_ret ci i a) := by
          unfold NoDupActive
          rcases char_slot_active subscribe_ret ci i a hf with hp | he
          · rw [hp.nodup_iff]
            exact List.nodup_cons.2 ⟨hfresh, hnd⟩
          · rw [he]
            exact hnd
        have hb1 : DeclaredBelow table (active_value_handles (char_slot subscribe_ret ci i a))
            (a.handle + 1) := by
          intro v hv
          have hv1 : v = ci.value_handle ∨ v ∈ active_value_handles ci := by
            rcases char_slot_active subscribe_ret ci i a hf with hp | he
            · simpa using hp.mem_iff.1 hv
            · rw [he] at hv
              exact Or.inr hv
          rcases hv1 with rfl | hv1
          · exact ⟨d0, hd0, hu0, hv0, by omega⟩
          · obtain ⟨d, hd, hu, hvh, hlt⟩ := hb0 _ hv1
            exact ⟨d, hd, hu, hvh, by omega⟩
        by_cases h3 : discover_ret (char_request ci a) ≠ 0
        · rw [if_pos h3]
          exact discover_stop_inv table _ _ hnd1
        · rw [if_neg h3]
          refine ⟨hnd1, ?_⟩
          by_cases hw : a.handle + 1 < 2 ^ 16
          · right; left
            refine ⟨rfl, ?_⟩
            show DeclaredBelow table _ ((a.handle + 1) % 2 ^ 16)
            rw [Nat.mod_eq_of_lt hw]
            exact hb1
          · left
            have := hH a ha
            show (a.handle + 1) % 2 ^ 16 = 0
            have h4 : a.handle = 0xFFFF := by omega
            rw [h4]
            rfl
    · rw [discover_func_other _ _ _ _ _ h1 h2]
      exact discover_stop_inv table _ _ hnd

theorem discover_iter_inv (discover_ret : bt_gatt_discover_params → Int)
    (subscribe_ret : bt_gatt_subscribe_params → Int) (conn : Nat)
    (table : List bt_gatt_attr) (hH : ∀ a ∈ table, a.handle ≤ 0xFFFF)
    (hD : ∀ a ∈ table, a.uuid = BT_UUID_GATT_CHRC → a.handle < 0xFFFF)
    (hinj : DistinctValueHandles table) (ci : conninfo) (hinv : DiscoveryInv table ci)
    (L : List bt_gatt_attr)
    (hL : ∀ a ∈ L, a ∈ table ∧ ci.discover_params.start_handle ≤ a.handle ∧
      (ci.discover_params.type = BT_GATT_DISCOVER_CHARACTERISTIC →
        a.uuid = BT_UUID_GATT_CHRC))
    (hs : L ≠ [] → ci.discover_params.start_handle ≠ 0) :
    DiscoveryInv table (discover_iter discover_ret subscribe_ret conn L ci).1 := by
  induction L with
  | nil =>
    rw [discover_iter]
    exact discover_stop_inv table ci [] hinv.1
  | cons a rest ih =>
    obtain ⟨hat, hale, hachr⟩ := hL a (List.mem_cons_self _ _)
    have hstep := discover_func_inv discover_ret subscribe_ret conn table hH hD hinj ci a hinv
      hat (hs (List.cons_ne_nil _ _)) hale hachr
    rw [discover_iter]
    simp only
    by_cases hc : (discover_func discover_ret subscribe_ret conn ci (some a)).ret =
        BT_GATT_ITER_CONTINUE
    · rw [if_pos hc]
      have hci : (discover_func discover_ret subscribe_ret conn ci (some a)).ci = ci := by
        have hne : BT_GATT_ITER_STOP ≠ BT_GATT_ITER_CONTINUE := by decide
        rcases discover_func_cases discover_ret subscribe_ret conn ci a with
          ⟨_, h, _⟩ | ⟨h, _⟩ | ⟨h, _⟩
        · exact h
        · rw [h] at hc; exact absurd hc hne
        · rw [h] at hc; exact absurd hc hne
      rw [hci]
      exact ih (fun x hx => hL x (List.mem_cons_of_mem _ hx))
        (fun _ => hs (List.cons_ne_nil _ _))
    · rw [if_neg hc]
      exact hstep

theorem discover_answer_start (table : List bt_gatt_attr) (ci : conninfo)
    (h : discover_answer table ci ≠ []) : ci.discover_params.start_handle ≠ 0 := by
  intro h0
  exact h (discover_answer_zero table ci h0)

theorem discovery_rounds_inv (discover_ret : bt_gatt_discover_params → Int)
    (subscribe_ret : bt_gatt_subscribe_params → Int) (conn : Nat)
    (table : List bt_gatt_attr) (hH : ∀ a ∈ table, a.handle ≤ 0xFFFF)
    (hD : ∀ a ∈ table, a.uuid = BT_UUID_GATT_CHRC → a.handle < 0xFFFF)
    (hinj : DistinctValueHandles table) (fuel : Nat) :
    ∀ (ci : conninfo) (outstanding : Bool), DiscoveryInv table ci →
      DiscoveryInv table
        (discovery_rounds discover_ret subscribe_ret conn table fuel ci outstanding).1 := by
  induction fuel with
  | zero => intro ci o h; exact h
  | succ fuel ih =>
    intro ci o h
    rw [discovery_rounds]
    cases o with
    | false => exact h
    | true =>
      simp only [if_true]
      exact ih _ _ (discover_iter_inv discover_ret subscribe_ret conn table hH hD hinj ci h _
        (discover_answer_mem table ci) (discover_answer_start table ci))

theorem filter_set_released (l : List bt_gatt_subscribe_params) :
    ∀ (i : Nat) (p : bt_gatt_subscribe_params),
      ((l.set i { p with notify := false }).filter (fun q => q.notify)).Sublist
        (l.filter (fun q => q.notify)) := by
  induction l with
  | nil => intro i p; simp
  | cons a t ih =>
    intro i p
    cases i with
    | zero =>
      simp only [List.set_cons_zero, List.filter_cons, Bool.false_eq_true, if_false]
      split_ifs
      · exact List.sublist_cons_self _ _
      · exact List.Sublist.refl _
    | succ i =>
      simp only [List.set_cons_succ, List.filter_cons]
      split_ifs
      · exact (ih i p).cons₂ _
      · exact ih i p

theorem notify_func_nodup (conn : Nat) (ci : conninfo) (i : Nat) (data : Option (List Nat))
    (h : NoDupActive ci) : NoDupActive (notify_func conn ci i data).2.1 := by
  unfold notify_func
  cases ci.sub_params[i]? with
  | none => exact h
  | some p =>
    cases data with
    | some bytes => exact h
    | none =>
      unfold NoDupActive active_value_handles active_subscriptions at h ⊢
      simp only [List.map_map] at h ⊢
      exact List.Nodup.sublist ((filter_set_released ci.sub_params i p).map _) h

theorem noDupActive_of_free (ci : conninfo) (h : ∀ p ∈ ci.sub_params, p.notify = false) :
    active_value_handles ci = [] := by
  unfold active_value_handles active_subscriptions
  rw [List.filter_eq_nil_iff.2 (fun p hp => by simp [h p hp])]
  rfl

/-- C15 (as amended): the routines never compare value handles, so distinctness rests on
the peer. For a peer whose handles are 16 bit, whose characteristic declarations sit below
`0xFFFF` and declare pairwise distinct value handles, a slot that starts its discovery with
no active subscription entry has, after any number of answered requests and whatever
`bt_gatt_discover` and `bt_gatt_subscribe` return, no two active entries with the same
value handle; and a notification or the end of a subscription keeps this. -/
theorem subscriptions_distinct (discover_ret : bt_gatt_discover_params → Int)
    (subscribe_ret : bt_gatt_subscribe_params → Int) (conn : Nat)
    (table : List bt_gatt_attr) (fuel : Nat) (ci : conninfo)
    (hH : ∀ a ∈ table, a.handle ≤ 0xFFFF)
    (hD : ∀ a ∈ table, a.uuid = BT_UUID_GATT_CHRC → a.handle < 0xFFFF)
    (hinj : DistinctValueHandles table)
    (hfree : ∀ p ∈ ci.sub_params, p.notify = false) :
    NoDupActive (discovery_link_up discover_ret subscribe_ret conn table fuel ci).1 ∧
    ∀ (i : Nat) (data : Option (List Nat)),
      NoDupActive (notify_func conn
        (discovery_link_up discover_ret subscribe_ret conn table fuel ci).1 i data).2.1 := by
  have h0 : active_value_handles (connected_discover discover_ret conn ci).1 = [] :=
    noDupActive_of_free _ hfree
  have hinv : DiscoveryInv table (connected_discover discover_ret conn ci).1 := by
    refine ⟨?_, Or.inr (Or.inl ⟨rfl, ?_⟩)⟩
    · unfold NoDupActive
      rw [h0]
      exact List.nodup_nil
    · rw [h0]
      intro v hv
      cases hv
  have h1 : NoDupActive
      (discovery_link_up discover_ret subscribe_ret conn table fuel ci).1 :=
    (discovery_rounds_inv discover_ret subscribe_ret conn table hH hD hinj fuel _ _ hinv).1
  exact ⟨h1, fun i data => notify_func_nodup conn _ i data h1⟩

/-- C15 (as amended) at a peer with two notifiable characteristics of distinct value
handles. -/
theorem subscriptions_distinct_witness :
    NoDupActive (discovery_link_up (fun _ => 0) (fun _ => 0) 7
      [⟨2, 0x2803, 0x10, 3, 0x2a19⟩, ⟨3, 0x2a19, 0, 0, 0⟩, ⟨4, 0x2902, 0, 0, 0⟩,
        ⟨5, 0x2803, 0x10, 6, 0x2a1c⟩, ⟨6, 0x2a1c, 0, 0, 0⟩, ⟨7, 0x2902, 0, 0, 0⟩]
      5 { conninfo.zero with conn := some 7 }).1 :=
  (subscriptions_distinct (fun _ => 0) (fun _ => 0) 7
    [⟨2, 0x2803, 0x10, 3, 0x2a19⟩, ⟨3, 0x2a19, 0, 0, 0⟩, ⟨4, 0x2902, 0, 0, 0⟩,
      ⟨5, 0x2803, 0x10, 6, 0x2a1c⟩, ⟨6, 0x2a1c, 0, 0, 0⟩, ⟨7, 0x2902, 0, 0, 0⟩]
    5 { conninfo.zero with conn := some 7 } (by decide) (by decide)
    (by unfold DistinctValueHandles; decide) (by decide)).1

/-- C15, counterexample: a peer declares two notifiable characteristics with the same value
handle `3`, descriptors at `4` and `7`; `bt_gatt_subscribe` returns `0` for the first and
`-EALREADY` for the second. Discovery from a fresh slot ends with two active entries for
value handle `3`. -/
theorem duplicate_subscription :
    active_subscriptions (discovery_link_up (fun _ => 0)
      (fun p => if p.ccc_handle = 7 then -EALREADY else 0) 7
      [⟨2, 0x2803, 0x10, 3, 0x2a19⟩, ⟨3, 0x2a19, 0, 0, 0⟩, ⟨4, 0x2902, 0, 0, 0⟩,
        ⟨5, 0x2803, 0x10, 3, 0x2a19⟩, ⟨6, 0x2a19, 0, 0, 0⟩, ⟨7, 0x2902, 0, 0, 0⟩]
      5 { conninfo.zero with conn := some 7 }).1 = [(3, 4), (3, 7)] ∧
    ¬ NoDupActive (discovery_link_up (fun _ => 0)
      (fun p => if p.ccc_handle = 7 then -EALREADY else 0) 7
      [⟨2, 0x2803, 0x10, 3, 0x2a19⟩, ⟨3, 0x2a19, 0, 0, 0⟩, ⟨4, 0x2902, 0, 0, 0⟩,
        ⟨5, 0x2803, 0x10, 3, 0x2a19⟩, ⟨6, 0x2a19, 0, 0, 0⟩, ⟨7, 0x2902, 0, 0, 0⟩]
      5 { conninfo.zero with conn := some 7 }).1 := by
  refine ⟨by decide, ?_⟩
  unfold NoDupActive
  decide

/-! ## Discovery of a well-formed peer -/

/-- In the characteristic phase the host walks the answer up to the first declaration with
the notify bit: there the descriptor request is issued; with none the discovery ends. -/
theorem discover_iter_char (discover_ret : bt_gatt_discover_params → Int)
    (subscribe_ret : bt_gatt_subscribe_params → Int) (conn : Nat)
    (hd : ∀ p, discover_ret p = 0) (ci : conninfo)
    (h1 : ci.discover_params.type = BT_GATT_DISCOVER_CHARACTERISTIC) :
    ∀ L : List bt_gatt_attr, discover_iter discover_ret subscribe_ret conn L ci =
      match L.find? notify_bit with
      | none => ((discover_stop ci []).ci, false, start_scan)
      | some x => (desc_slot ci x, true, [.gatt_discover conn (desc_request ci x) 0]) := by
  intro L
  induction L with
  | nil =>
    rw [discover_iter]
    rfl
  | cons a rest ih =>
    rw [discover_iter]
    by_cases h2 : a.properties &&& BT_GATT_CHRC_NOTIFY = 0
    · have hb : notify_bit a = false := by simp [notify_bit, h2]
      rw [discover_func_char_skip _ _ _ _ _ h1 h2, List.find?_cons_of_neg _ (by simp [hb])]
      simp only [if_true, List.nil_append]
      exact ih
    · have hb : notify_bit a = true := by simp [notify_bit, h2]
      have hne : BT_GATT_ITER_STOP ≠ BT_GATT_ITER_CONTINUE := by decide
      have e : discover_func discover_ret subscribe_ret conn ci (some a) =
          { ret := BT_GATT_ITER_STOP, ci := desc_slot ci a, outstanding := true,
            calls := [.gatt_discover conn (desc_request ci a) 0] } := by
        rw [discover_func_char_notify _ _ _ _ _ h1 h2]
        exact if_neg (by rw [hd]; simp)
      rw [e, List.find?_cons_of_pos _ hb]
      simp only [if_neg hne]

/-- In the descriptor phase, with a free entry, the host stops at the first descriptor of
the answer: the entry is filled and the characteristic request issued. -/
theorem discover_iter_desc (discover_ret : bt_gatt_discover_params → Int)
    (subscribe_ret : bt_gatt_subscribe_params → Int) (conn : Nat)
    (hd : ∀ p, discover_ret p = 0) (ci : conninfo) (i : Nat) (c : bt_gatt_attr)
    (rest : List bt_gatt_attr)
    (h1 : ci.discover_params.type = BT_GATT_DISCOVER_DESCRIPTOR)
    (h2 : first_free_sub_params ci.sub_params = some i) :
    discover_iter discover_ret subscribe_ret conn (c :: rest) ci =
      (char_slot subscribe_ret ci i c, true,
        [.gatt_subscribe conn (new_subscription ci i c)
            (subscribe_ret (new_subscription ci i c)),
          .gatt_discover conn (char_request ci c) 0]) := by
  have hne : BT_GATT_ITER_STOP ≠ BT_GATT_ITER_CONTINUE := by decide
  have e : discover_func discover_ret subscribe_ret conn ci (some c) =
      { ret := BT_GATT_ITER_STOP, ci := char_slot subscribe_ret ci i c, outstanding := true,
        calls := [.gatt_subscribe conn (new_subscription ci i c)
            (subscribe_ret (new_subscription ci i c)),
          .gatt_discover conn (char_request ci c) 0] } := by
    rw [discover_func_desc_free _ _ _ _ _ i h1 h2]
    exact if_neg (by rw [hd]; simp)
  rw [discover_iter, e]
  simp only [if_neg hne]

theorem find?_sorted_min (p : bt_gatt_attr → Bool) (l : List bt_gatt_attr)
    (hs : l.Pairwise (fun a b => a.handle < b.handle)) (c : bt_gatt_attr) (hc : c ∈ l)
    (hp : p c = true) :
    ∃ c0, l.find? p = some c0 ∧ c0 ∈ l ∧ p c0 = true ∧ c0.handle ≤ c.handle := by
  induction l with
  | nil => cases hc
  | cons a t ih =>
    obtain ⟨ha, ht⟩ := List.pairwise_cons.1 hs
    by_cases hpa : p a = true
    · refine ⟨a, List.find?_cons_of_pos _ hpa, List.mem_cons_self _ _, hpa, ?_⟩
      rcases List.mem_cons.1 hc with rfl | hc1
      · exact le_refl _
      · exact le_of_lt (ha c hc1)
    · have hc1 : c ∈ t := by
        rcases List.mem_cons.1 hc with rfl | hc1
        · exact absurd hp hpa
        · exact hc1
      obtain ⟨c0, h1, h2, h3, h4⟩ := ih ht hc1
      exact ⟨c0, by rw [List.find?_cons_of_neg _ hpa]; exact h1, List.mem_cons_of_mem _ h2,
        h3, h4⟩

theorem filter_of_find? (p : bt_gatt_attr → Bool) (l : List bt_gatt_attr) (c : bt_gatt_attr)
    (h : l.find? p = some c) : ∃ rest, l.filter p = c :: rest := by
  induction l with
  | nil => cases h
  | cons a t ih =>
    by_cases hpa : p a = true
    · rw [List.find?_cons_of_pos _ hpa] at h
      cases h
      exact ⟨t.filter p, List.filter_cons_of_pos hpa⟩
    · rw [List.find?_cons_of_neg _ hpa] at h
      obtain ⟨rest, hr⟩ := ih h
      exact ⟨rest, by rw [List.filter_cons_of_neg hpa]; exact hr⟩

theorem find?_of_filter (p : bt_gatt_attr → Bool) (l : List bt_gatt_attr) :
    l.find? p = (l.filter p).head? := by
  induction l with
  | nil => rfl
  | cons a t ih =>
    by_cases hpa : p a = true
    · rw [List.find?_cons_of_pos _ hpa, List.filter_cons_of_pos hpa]
      rfl
    · rw [List.find?_cons_of_neg _ hpa, List.filter_cons_of_neg hpa]
      exact ih

/-- The answer to a characteristic request over the whole range above the start handle:
its declarations with the notify bit are the notifiable declarations from the start
handle. -/
theorem discover_answer_char (table : List bt_gatt_attr)
    (hH : ∀ a ∈ table, 1 ≤ a.handle ∧ a.handle ≤ 0xFFFF) (ci : conninfo)
    (h1 : ci.discover_params.type = BT_GATT_DISCOVER_CHARACTERISTIC)
    (h2 : ci.discover_params.uuid = false)
    (h3 : ci.discover_params.end_handle = 0xFFFF) :
    (discover_answer table ci).filter notify_bit =
      notifiable_from table ci.discover_params.start_handle := by
  unfold discover_answer notifiable_from
  simp only
  by_cases h0 : ci.discover_params.start_handle = 0
  · rw [if_pos (Or.inl h0), if_pos h0]
    rfl
  · rw [if_neg h0]
    by_cases hg : ci.discover_params.end_handle < ci.discover_params.start_handle
    · rw [if_pos (Or.inr hg)]
      symm
      apply List.filter_eq_nil_iff.2
      intro a ha
      have := (hH a ha).2
      rw [h3] at hg
      simp only [Bool.and_eq_true, decide_eq_true_eq, not_and]
      intro hle
      omega
    · rw [if_neg (by intro h; rcases h with h | h; exact h0 h; exact hg h), List.filter_filter]
      apply List.filter_congr
      intro a ha
      have := (hH a ha).2
      rw [if_pos h1, h2, h3]
      simp only [notify_bit, notifiable, Bool.not_false, Bool.true_or, Bool.and_true]
      by_cases hle : ci.discover_params.start_handle ≤ a.handle
      · simp [hle, this, Bool.and_comm]
      · simp [hle]

/-- The answer to the descriptor request issued on a notifiable declaration of a
well-formed peer starts with the control descriptor of that declaration, which sits before
the next declaration. -/
theorem discover_answer_desc (table : List bt_gatt_attr) (hw : WellFormedPeer table)
    (ci : conninfo) (x : bt_gatt_attr) (hx : x ∈ table) (hn : notifiable x = true)
    (h3 : ci.discover_params.end_handle = 0xFFFF) :
    ∃ c rest, discover_answer table (desc_slot ci x) = c :: rest ∧
      control_descriptor table x = some c ∧ c ∈ table ∧ c.uuid = BT_UUID_GATT_CCC ∧
      x.handle + 2 ≤ c.handle ∧
      ∀ y ∈ table, y.uuid = BT_UUID_GATT_CHRC → x.handle < y.handle → c.handle < y.handle := by
  obtain ⟨hs, hH, hccc⟩ := hw
  obtain ⟨c1, hc1, hu1, hle1, hnext1⟩ := hccc x hx hn
  obtain ⟨c, hfind, hc, hpc, hcle⟩ := find?_sorted_min
    (fun c => decide (c.uuid = BT_UUID_GATT_CCC) && decide (x.handle + 2 ≤ c.handle)) table hs
    c1 hc1 (by simp [hu1, hle1])
  simp only [Bool.and_eq_true, decide_eq_true_eq] at hpc
  have hmax := (hH c1 hc1).2
  have hstart : (x.handle + 2) % 2 ^ 16 = x.handle + 2 := Nat.mod_eq_of_lt (by omega)
  have hne : ¬ BT_GATT_DISCOVER_DESCRIPTOR = BT_GATT_DISCOVER_CHARACTERISTIC := by decide
  have hans : discover_answer table (desc_slot ci x) =
      table.filter (fun c => decide (c.uuid = BT_UUID_GATT_CCC) &&
        decide (x.handle + 2 ≤ c.handle)) := by
    unfold discover_answer desc_slot desc_request
    simp only
    rw [hstart, h3, if_neg (by omega)]
    apply List.filter_congr
    intro a ha
    have := (hH a ha).2
    rw [if_neg hne]
    simp only [if_true]
    by_cases hle : x.handle + 2 ≤ a.handle
    · simp [hle, this]
    · simp [hle]
  obtain ⟨rest, hrest⟩ := filter_of_find? _ table c hfind
  refine ⟨c, rest, by rw [hans, hrest], hfind, hc, hpc.1, hpc.2, ?_⟩
  intro y hy hyu hlt
  have := hnext1 y hy hyu hlt
  omega

/-- Past the control descriptor of the first notifiable declaration from `s`, the
notifiable declarations left are the others. -/
theorem notifiable_from_next (table : List bt_gatt_attr) (hw : WellFormedPeer table)
    (s : Nat) (x c : bt_gatt_attr) (T : List bt_gatt_attr)
    (hN : notifiable_from table s = x :: T) (hc : c ∈ table)
    (hxc : x.handle + 2 ≤ c.handle)
    (hnext : ∀ y ∈ table, y.uuid = BT_UUID_GATT_CHRC → x.handle < y.handle →
      c.handle < y.handle) :
    notifiable_from table ((c.handle + 1) % 2 ^ 16) = T := by
  obtain ⟨hs, hH, _⟩ := hw
  unfold notifiable_from at hN
  by_cases h0 : s = 0
  · rw [if_pos h0] at hN
    cases hN
  · rw [if_neg h0] at hN
    have hpw : (x :: T).Pairwise (fun a b => a.handle < b.handle) := by
      rw [← hN]
      exact hs.sublist (List.filter_sublist _)
    have hxT := (List.pairwise_cons.1 hpw).1
    have hmem : ∀ y ∈ T, y ∈ table ∧ s ≤ y.handle ∧ notifiable y = true := by
      intro y hy
      have : y ∈ table.filter (fun a => decide (s ≤ a.handle) && notifiable a) := by
        rw [hN]
        exact List.mem_cons_of_mem _ hy
      obtain ⟨h1, h2⟩ := List.mem_filter.1 this
      simp only [Bool.and_eq_true, decide_eq_true_eq] at h2
      exact ⟨h1, h2.1, h2.2⟩
    have hTc : ∀ y ∈ T, c.handle < y.handle := by
      intro y hy
      obtain ⟨h1, _, h3⟩ := hmem y hy
      have hu : y.uuid = BT_UUID_GATT_CHRC := by
        simp only [notifiable, Bool.and_eq_true, decide_eq_true_eq] at h3
        exact h3.1
      exact hnext y h1 hu (hxT y hy)
    have hcmax := (hH c hc).2
    unfold notifiable_from
    by_cases hwrap : c.handle + 1 < 2 ^ 16
    · rw [Nat.mod_eq_of_lt hwrap, if_neg (by omega)]
      have hsplit : table.filter (fun a => decide (c.handle + 1 ≤ a.handle) && notifiable a) =
          (table.filter (fun a => decide (s ≤ a.handle) && notifiable a)).filter
            (fun a => decide (c.handle + 1 ≤ a.handle)) := by
        rw [List.filter_filter]
        apply List.filter_congr
        intro a ha
        by_cases hle : c.handle + 1 ≤ a.handle
        · have hsx : s ≤ x.handle := by
            have : x ∈ table.filter (fun a => decide (s ≤ a.handle) && notifiable a) := by
              rw [hN]
              exact List.mem_cons_self _ _
            have h2 := (List.mem_filter.1 this).2
            simp only [Bool.and_eq_true, decide_eq_true_eq] at h2
            exact h2.1
          have : s ≤ a.handle := by omega
          simp [hle, this]
        · simp [hle]
      rw [hsplit, hN, List.filter_cons_of_neg (by simp; omega)]
      apply List.filter_eq_self.2
      intro y hy
      have := hTc y hy
      simp only [decide_eq_true_eq]
      omega
    · have h1 : c.handle = 0xFFFF := by omega
      have h2 : (c.handle + 1) % 2 ^ 16 = 0 := by rw [h1]; rfl
      rw [h2, if_pos rfl]
      cases T with
      | nil => rfl
      | cons y T1 =>
        have := hTc y (List.mem_cons_self _ _)
        have := (hmem y (List.mem_cons_self _ _)).1
        have := (hH y this).2
        omega

theorem active_subscriptions_split (ci : conninfo) (A F : List bt_gatt_subscribe_params)
    (h : ci.sub_params = A ++ F) (hA : ∀ p ∈ A, p.notify = true)
    (hF : ∀ p ∈ F, p.notify = false) :
    active_subscriptions ci = A.map (fun p => (p.value_handle, p.ccc_handle)) := by
  unfold active_subscriptions
  rw [h, List.filter_append, filter_all_active A hA,
    List.filter_eq_nil_iff.2 (fun p hp => by simp [hF p hp]), List.append_nil]

/-- From a characteristic request on, a well-formed peer with `n` notifiable declarations
left and as many free entries is discovered in `2 * n` further requests, each declaration
adding its subscription. -/
theorem discovery_rounds_wellformed (discover_ret : bt_gatt_discover_params → Int)
    (subscribe_ret : bt_gatt_subscribe_params → Int) (conn : Nat)
    (table : List bt_gatt_attr) (hw : WellFormedPeer table)
    (hd : ∀ p, discover_ret p = 0)
    (hsub : ∀ p, subscribe_ret p = 0 ∨ subscribe_ret p = -EALREADY) :
    ∀ (n : Nat) (ci : conninfo) (A F : List bt_gatt_subscribe_params) (fuel : Nat),
      ci.discover_params.type = BT_GATT_DISCOVER_CHARACTERISTIC →
      ci.discover_params.uuid = false →
      ci.discover_params.end_handle = 0xFFFF →
      ci.sub_params = A ++ F → (∀ p ∈ A, p.notify = true) → (∀ p ∈ F, p.notify = false) →
      A.length + F.length = SUB_PARAMS_COUNT →
      (notifiable_from table ci.discover_params.start_handle).length = n →
      n ≤ F.length → 2 * n + 1 ≤ fuel →
      DiscoveryDone (discovery_rounds discover_ret subscribe_ret conn table fuel ci true) ∧
      (discover_requests (discovery_rounds discover_ret subscribe_ret conn table fuel ci
        true).2.2).length = 2 * n ∧
      active_subscriptions (discovery_rounds discover_ret subscribe_ret conn table fuel ci
        true).1 =
        A.map (fun p => (p.value_handle, p.ccc_handle)) ++
          (notifiable_from table ci.discover_params.start_handle).map
            (expected_subscription table) := by
  intro n
  induction n with
  | zero =>
    intro ci A F fuel h1 h2 h3 hAF hA hF _ hN _ hfuel
    obtain ⟨f, rfl⟩ : ∃ f, fuel = f + 1 := ⟨fuel - 1, by omega⟩
    have hnil : notifiable_from table ci.discover_params.start_handle = [] :=
      List.length_eq_zero.1 hN
    have hfind : (discover_answer table ci).find? notify_bit = none := by
      rw [find?_of_filter, discover_answer_char table hw.2.1 ci h1 h2 h3, hnil]
      rfl
    have ht : discover_iter discover_ret subscribe_ret conn (discover_answer table ci) ci =
        ((discover_stop ci []).ci, false, start_scan) := by
      rw [discover_iter_char discover_ret subscribe_ret conn hd ci h1, hfind]
    rw [discovery_rounds]
    simp only [if_true]
    rw [ht, discovery_rounds_idle, hnil]
    refine ⟨⟨rfl, rfl, by simp [start_scan]⟩, by simp [start_scan, discover_requests], ?_⟩
    simp only [List.map_nil, List.append_nil]
    exact active_subscriptions_split _ A F hAF hA hF
  | succ n ih =>
    intro ci A F fuel h1 h2 h3 hAF hA hF hlen hN hnF hfuel
    obtain ⟨f, rfl⟩ : ∃ f, fuel = f + 2 := ⟨fuel - 2, by omega⟩
    obtain ⟨x, T, hxT⟩ : ∃ x T, notifiable_from table ci.discover_params.start_handle =
        x :: T := by
      cases e : notifiable_from table ci.discover_params.start_handle with
      | nil => rw [e] at hN; cases hN
      | cons x T => exact ⟨x, T, rfl⟩
    obtain ⟨e, F1, rfl⟩ : ∃ e F1, F = e :: F1 := by
      cases F with
      | nil => simp at hnF
      | cons e F1 => exact ⟨e, F1, rfl⟩
    have hxmem : x ∈ table ∧ notifiable x = true := by
      have hm : x ∈ notifiable_from table ci.discover_params.start_handle := by
        rw [hxT]
        exact List.mem_cons_self _ _
      unfold notifiable_from at hm
      split_ifs at hm
      · cases hm
      · obtain ⟨m1, m2⟩ := List.mem_filter.1 hm
        simp only [Bool.and_eq_true, decide_eq_true_eq] at m2
        exact ⟨m1, m2.2⟩
    have hfind : (discover_answer table ci).find? notify_bit = some x := by
      rw [find?_of_filter, discover_answer_char table hw.2.1 ci h1 h2 h3, hxT]
      rfl
    have ht1 : discover_iter discover_ret subscribe_ret conn (discover_answer table ci) ci =
        (desc_slot ci x, true, [.gatt_discover conn (desc_request ci x) 0]) := by
      rw [discover_iter_char discover_ret subscribe_ret conn hd ci h1, hfind]
    obtain ⟨c, rest, hans, hctl, hc, _, hxc, hnext⟩ :=
      discover_answer_desc table hw ci x hxmem.1 hxmem.2 h3
    have hfree : first_free_sub_params (desc_slot ci x).sub_params = some A.length := by
      show first_free_sub_params ci.sub_params = some A.length
      rw [hAF]
      exact first_free_of_split A F1 e hA (hF e (List.mem_cons_self _ _))
        (by simp only [List.length_cons] at hlen; omega)
    have ht2 : discover_iter discover_ret subscribe_ret conn
        (discover_answer table (desc_slot ci x)) (desc_slot ci x) =
        (char_slot subscribe_ret (desc_slot ci x) A.length c, true,
          [.gatt_subscribe conn (new_subscription (desc_slot ci x) A.length c)
              (subscribe_ret (new_subscription (desc_slot ci x) A.length c)),
            .gatt_discover conn (char_request (desc_slot ci x) c) 0]) := by
      rw [hans]
      exact discover_iter_desc discover_ret subscribe_ret conn hd _ _ c rest rfl hfree
    have hkept : kept_subscription
        (subscribe_ret (new_subscription (desc_slot ci x) A.length c))
        (new_subscription (desc_slot ci x) A.length c) =
        new_subscription (desc_slot ci x) A.length c := by
      rcases kept_subscription_cases
        (subscribe_ret (new_subscription (desc_slot ci x) A.length c))
        (new_subscription (desc_slot ci x) A.length c) with ⟨_, hk⟩ | ⟨⟨hk1, hk2⟩, _⟩
      · exact hk
      · rcases hsub (new_subscription (desc_slot ci x) A.length c) with h | h
        · exact absurd h hk1
        · exact absurd h hk2
    have hsp : (char_slot subscribe_ret (desc_slot ci x) A.length c).sub_params =
        (A ++ [new_subscription (desc_slot ci x) A.length c]) ++ F1 := by
      show ((desc_slot ci x).sub_params).set A.length _ = _
      rw [hkept]
      show (ci.sub_params).set A.length _ = _
      rw [hAF, set_split]
      simp
    have hstart : (char_slot subscribe_ret (desc_slot ci x) A.length c
        ).discover_params.start_handle = (c.handle + 1) % 2 ^ 16 := rfl
    have hT : notifiable_from table (char_slot subscribe_ret (desc_slot ci x) A.length c
        ).discover_params.start_handle = T := by
      rw [hstart]
      exact notifiable_from_next table hw _ x c T hxT hc hxc hnext
    obtain ⟨i1, i2, i3⟩ := ih (char_slot subscribe_ret (desc_slot ci x) A.length c)
      (A ++ [new_subscription (desc_slot ci x) A.length c]) F1 f rfl rfl h3 hsp
      (by
        intro p hp
        rcases List.mem_append.1 hp with hp | hp
        · exact hA p hp
        · rw [List.mem_singleton.1 hp]
          rfl)
      (fun p hp => hF p (List.mem_cons_of_mem _ hp))
      (by simp only [List.length_append, List.length_cons, List.length_nil] at hlen ⊢; omega)
      (by rw [hT]; rw [hxT] at hN; simpa using hN)
      (by simp only [List.length_cons] at hnF; omega)
      (by omega)
    rw [discovery_rounds]
    simp only [if_true]
    rw [ht1]
    simp only
    rw [discovery_rounds]
    simp only [if_true]
    rw [ht2]
    simp only
    refine ⟨⟨i1.1, i1.2.1, ?_⟩, ?_, ?_⟩
    · exact List.mem_append_right _ (List.mem_append_right _ i1.2.2)
    · rw [discover_requests_append, discover_requests_append, List.length_append,
        List.length_append, i2]
      simp only [discover_requests, List.filterMap_cons, List.filterMap_nil, List.length_cons,
        List.length_nil]
      omega
    · rw [i3, hT, hxT]
      simp only [List.map_append, List.map_cons, List.map_nil, List.append_assoc,
        List.singleton_append]
      congr 2
      unfold expected_subscription
      rw [hctl]
      rfl

theorem notifiable_from_first (table : List bt_gatt_attr)
    (hH : ∀ a ∈ table, 1 ≤ a.handle ∧ a.handle ≤ 0xFFFF) :
    notifiable_from table BT_ATT_FIRST_ATTTRIBUTE_HANDLE = table.filter notifiable := by
  unfold notifiable_from
  rw [if_neg (by decide)]
  apply List.filter_congr
  intro a ha
  have h1 : BT_ATT_FIRST_ATTTRIBUTE_HANDLE ≤ a.handle := (hH a ha).1
  simp [h1]

/-- C18: for a peer table in increasing handle order with handles in `1 .. 0xFFFF`, in
which every notifiable characteristic declaration has its control descriptor (a client
characteristic configuration descriptor at least two handles after the declaration and
before the next declaration), with `k <= 10` notifiable declarations, every
`bt_gatt_discover` accepted and every `bt_gatt_subscribe` returning `0` or `-EALREADY`, the
discovery started on link-up in a slot of ten free subscription entries ends (no request
outstanding, parameters zeroed, scanning restarted) after exactly `2 * k + 1` discovery
requests with exactly `k` active subscriptions: for each notifiable declaration, in handle
order, its value handle and the handle of its control descriptor. In particular with
exactly one notifiable declaration `x`, whatever other characteristics come before or
after it: exactly 3 requests and the one subscription of `x`. -/
theorem notifiable_discovery (discover_ret : bt_gatt_discover_params → Int)
    (subscribe_ret : bt_gatt_subscribe_params → Int) (conn : Nat)
    (table : List bt_gatt_attr) (fuel : Nat) (ci : conninfo)
    (hw : WellFormedPeer table)
    (hd : ∀ p, discover_ret p = 0)
    (hsub : ∀ p, subscribe_ret p = 0 ∨ subscribe_ret p = -EALREADY)
    (hlen : ci.sub_params.length = SUB_PARAMS_COUNT)
    (hfree : ∀ p ∈ ci.sub_params, p.notify = false)
    (hk : (table.filter notifiable).length ≤ SUB_PARAMS_COUNT)
    (hfuel : 2 * (table.filter notifiable).length + 1 ≤ fuel) :
    DiscoveryDone (discovery_link_up discover_ret subscribe_ret conn table fuel ci) ∧
    (discover_requests
      (discovery_link_up discover_ret subscribe_ret conn table fuel ci).2.2).length =
      2 * (table.filter notifiable).length + 1 ∧
    active_subscriptions (discovery_link_up discover_ret subscribe_ret conn table fuel ci).1 =
      (table.filter notifiable).map (expected_subscription table) ∧
    (active_subscriptions
      (discovery_link_up discover_ret subscribe_ret conn table fuel ci).1).length =
      (table.filter notifiable).length ∧
    (∀ x, table.filter notifiable = [x] →
      (discover_requests
        (discovery_link_up discover_ret subscribe_ret conn table fuel ci).2.2).length = 3 ∧
      active_subscriptions
        (discovery_link_up discover_ret subscribe_ret conn table fuel ci).1 =
        [expected_subscription table x]) := by
  have hc : connected_discover discover_ret conn ci =
      ({ ci with discover_params := initial_discover_params }, true,
        [.gatt_discover conn initial_discover_params 0]) := by
    unfold connected_discover
    simp [hd]
  have hfirst : notifiable_from table
      ({ ci with discover_params := initial_discover_params } : conninfo
        ).discover_params.start_handle = table.filter notifiable :=
    notifiable_from_first table hw.2.1
  obtain ⟨i1, i2, i3⟩ := discovery_rounds_wellformed discover_ret subscribe_ret conn table hw
    hd hsub (table.filter notifiable).length
    { ci with discover_params := initial_discover_params } [] ci.sub_params fuel rfl rfl rfl
    rfl (fun p hp => by cases hp) hfree (by simpa using hlen) (by rw [hfirst])
    (by rw [hlen]; exact hk) hfuel
  rw [hfirst] at i3
  simp only [List.map_nil, List.nil_append] at i3
  have hreq : (discover_requests
      (discovery_link_up discover_ret subscribe_ret conn table fuel ci).2.2).length =
      2 * (table.filter notifiable).length + 1 := by
    unfold discovery_link_up
    simp only
    rw [hc]
    simp only
    rw [discover_requests_append, List.length_append, i2]
    simp only [discover_requests, List.filterMap_cons, List.filterMap_nil, List.length_cons,
      List.length_nil]
    omega
  have hact : active_subscriptions
      (discovery_link_up discover_ret subscribe_ret conn table fuel ci).1 =
      (table.filter notifiable).map (expected_subscription table) := by
    unfold discovery_link_up
    simp only
    rw [hc]
    exact i3
  refine ⟨?_, hreq, hact, by rw [hact, List.length_map], ?_⟩
  · unfold discovery_link_up
    simp only
    rw [hc]
    exact ⟨i1.1, i1.2.1, List.mem_append_right _ i1.2.2⟩
  · intro x hx
    rw [hreq, hact, hx]
    exact ⟨rfl, rfl⟩

/-- C18 at two peers with two characteristics, one of them notifiable with its control
descriptor: the notifiable one second (subscription `(5, 6)`) and first (subscription
`(3, 4)`); three requests each. -/
theorem notifiable_discovery_witness :
    ((discover_requests (discovery_link_up (fun _ => 0) (fun _ => 0) 7
        [⟨1, 0x2800, 0, 0, 0⟩, ⟨2, 0x2803, 0x02, 3, 0x2a00⟩, ⟨3, 0x2a00, 0, 0, 0⟩,
          ⟨4, 0x2803, 0x12, 5, 0x2a19⟩, ⟨5, 0x2a19, 0, 0, 0⟩, ⟨6, 0x2902, 0, 0, 0⟩]
        3 { conninfo.zero with conn := some 7 }).2.2).length = 3 ∧
      active_subscriptions (discovery_link_up (fun _ => 0) (fun _ => 0) 7
        [⟨1, 0x2800, 0, 0, 0⟩, ⟨2, 0x2803, 0x02, 3, 0x2a00⟩, ⟨3, 0x2a00, 0, 0, 0⟩,
          ⟨4, 0x2803, 0x12, 5, 0x2a19⟩, ⟨5, 0x2a19, 0, 0, 0⟩, ⟨6, 0x2902, 0, 0, 0⟩]
        3 { conninfo.zero with conn := some 7 }).1 = [(5, 6)]) ∧
    ((discover_requests (discovery_link_up (fun _ => 0) (fun _ => 0) 7
        [⟨1, 0x2800, 0, 0, 0⟩, ⟨2, 0x2803, 0x12, 3, 0x2a19⟩, ⟨3, 0x2a19, 0, 0, 0⟩,
          ⟨4, 0x2902, 0, 0, 0⟩, ⟨5, 0x2803, 0x02, 6, 0x2a00⟩, ⟨6, 0x2a00, 0, 0, 0⟩]
        3 { conninfo.zero with conn := some 7 }).2.2).length = 3 ∧
      active_subscriptions (discovery_link_up (fun _ => 0) (fun _ => 0) 7
        [⟨1, 0x2800, 0, 0, 0⟩, ⟨2, 0x2803, 0x12, 3, 0x2a19⟩, ⟨3, 0x2a19, 0, 0, 0⟩,
          ⟨4, 0x2902, 0, 0, 0⟩, ⟨5, 0x2803, 0x02, 6, 0x2a00⟩, ⟨6, 0x2a00, 0, 0, 0⟩]
        3 { conninfo.zero with conn := some 7 }).1 = [(3, 4)]) :=
  ⟨(notifiable_discovery (fun _ => 0) (fun _ => 0) 7
      [⟨1, 0x2800, 0, 0, 0⟩, ⟨2, 0x2803, 0x02, 3, 0x2a00⟩, ⟨3, 0x2a00, 0, 0, 0⟩,
        ⟨4, 0x2803, 0x12, 5, 0x2a19⟩, ⟨5, 0x2a19, 0, 0, 0⟩, ⟨6, 0x2902, 0, 0, 0⟩]
      3 { conninfo.zero with conn := some 7 } (by unfold WellFormedPeer; decide)
      (fun _ => rfl) (fun _ => Or.inl rfl) (by decide) (by decide) (by decide)
      (by decide)).2.2.2.2 ⟨4, 0x2803, 0x12, 5, 0x2a19⟩ (by decide),
    (notifiable_discovery (fun _ => 0) (fun _ => 0) 7
      [⟨1, 0x2800, 0, 0, 0⟩, ⟨2, 0x2803, 0x12, 3, 0x2a19⟩, ⟨3, 0x2a19, 0, 0, 0⟩,
        ⟨4, 0x2902, 0, 0, 0⟩, ⟨5, 0x2803, 0x02, 6, 0x2a00⟩, ⟨6, 0x2a00, 0, 0, 0⟩]
      3 { conninfo.zero with conn := some 7 } (by unfold WellFormedPeer; decide)
      (fun _ => rfl) (fun _ => Or.inl rfl) (by decide) (by decide) (by decide)
      (by decide)).2.2.2.2 ⟨2, 0x2803, 0x12, 3, 0x2a19⟩ (by decide)⟩

theorem wrap_cycle (fuel : Nat) :
    (discovery_rounds (fun _ => 0) (fun _ => -ENOMEM) 7 wrap_table fuel
      wrap_char_state true).2.1 = true ∧
    (discovery_rounds (fun _ => 0) (fun _ => -ENOMEM) 7 wrap_table fuel
      wrap_desc_state true).2.1 = true := by
  induction fuel with
  | zero => exact ⟨rfl, rfl⟩
  | succ f ih =>
    have h1 : discover_iter (fun _ => 0) (fun _ => -ENOMEM) 7
        (discover_answer wrap_table wrap_char_state) wrap_char_state =
        (wrap_desc_state, true,
          [.gatt_discover 7 ⟨true, true, 1, 0xffff, BT_GATT_DISCOVER_DESCRIPTOR⟩ 0]) := by
      decide
    have h2 : discover_iter (fun _ => 0) (fun _ => -ENOMEM) 7
        (discover_answer wrap_table wrap_desc_state) wrap_desc_state =
        (wrap_char_state, true,
          [.gatt_subscribe 7 ⟨true, 0, 4, 1, 1⟩ (-ENOMEM),
            .gatt_discover 7 ⟨false, true, 5, 0xffff, BT_GATT_DISCOVER_CHARACTERISTIC⟩ 0]) := by
      decide
    constructor
    · rw [discovery_rounds]
      simp only [if_true]
      rw [h1]
      exact ih.2
    · rw [discovery_rounds]
      simp only [if_true]
      rw [h2]
      exact ih.1

/-- Without the bound on the declarations the discovery need not end: for the peer
`wrap_table`, whose notifiable declaration sits at handle `0xFFFF`, the start handle
`0xFFFF + 2` wraps to `1`, and when every `bt_gatt_subscribe` fails a request is
outstanding after any number of answered requests. -/
theorem wrapping_declaration_never_done (fuel : Nat) :
    (discovery_link_up (fun _ => 0) (fun _ => -ENOMEM) 7 wrap_table fuel
      { conninfo.zero with conn := some 7 }).2.1 = true := by
  match fuel with
  | 0 => rfl
  | 1 => rfl
  | f + 2 =>
    have h0 : connected_discover (fun _ => 0) 7 { conninfo.zero with conn := some 7 } =
        ({ conninfo.zero with conn := some 7, discover_params := initial_discover_params },
          true, [.gatt_discover 7 initial_discover_params 0]) := by
      decide
    have h1 : discover_iter (fun _ => 0) (fun _ => -ENOMEM) 7
        (discover_answer wrap_table
          { conninfo.zero with conn := some 7, discover_params := initial_discover_params })
        { conninfo.zero with conn := some 7, discover_params := initial_discover_params } =
        ({ wrap_desc_state with sub_params := conninfo.zero.sub_params }, true,
          [.gatt_discover 7 ⟨true, true, 1, 0xffff, BT_GATT_DISCOVER_DESCRIPTOR⟩ 0]) := by
      decide
    have h2 : discover_iter (fun _ => 0) (fun _ => -ENOMEM) 7
        (discover_answer wrap_table
          { wrap_desc_state with sub_params := conninfo.zero.sub_params })
        { wrap_desc_state with sub_params := conninfo.zero.sub_params } =
        (wrap_char_state, true,
          [.gatt_subscribe 7 ⟨true, 0, 4, 1, 1⟩ (-ENOMEM),
            .gatt_discover 7 ⟨false, true, 5, 0xffff, BT_GATT_DISCOVER_CHARACTERISTIC⟩ 0]) := by
      decide
    unfold discovery_link_up
    simp only
    rw [h0]
    simp only
    rw [discovery_rounds]
    simp only [if_true]
    rw [h1]
    simp only
    rw [discovery_rounds]
    simp only [if_true]
    rw [h2]
    exact (wrap_cycle f).1

/-! ## The handle segment of the control topic -/

/-- The topic decoding of `handle_publish` on a control topic with an accepted address and
any 4-character handle segment without a slash: the handle is what `strtoul(., NULL, 16)`
makes of the segment, rejected only when that is `0` or `ULONG_MAX` or `errno` is set. -/
theorem handle_publish_topic_strtoul (root mac hhhh rest : List Char)
    (btaddr addr : bt_addr_t) (hroot : '/' ∉ root) (hmac : mac.length = 17)
    (haddr : bt_addr_from_str mac btaddr = .ok addr)
    (hlen : hhhh.length = 4) (hslash : '/' ∉ hhhh) :
    handle_publish_topic
        ⟨controlTopic root mac hhhh ++ rest, (controlTopic root mac hhhh).length⟩ btaddr =
      if (strtoul16 hhhh).1 = 0 ∨ (strtoul16 hhhh).1 = ULONG_MAX ∨ (strtoul16 hhhh).2 ≠ 0
      then .fail (-EINVAL) else .ok (addr, (strtoul16 hhhh).1) := by
  have et : controlTopic root mac hhhh ++ rest =
      root ++ '/' :: (mac ++ '/' :: (hhhh ++ '/' :: ("set".toList ++ rest))) := by
    simp [controlTopic, List.append_assoc]
  have el : (controlTopic root mac hhhh).length = root.length + 1 + (mac.length + 1 + 8) := by
    simp [controlTopic, hlen]; omega
  rw [et, el]
  have hm := bt_addr_from_str_no_slash mac btaddr addr hmac haddr
  unfold handle_publish_topic
  have e1 := get_path_segment_one root mac (hhhh ++ '/' :: ("set".toList ++ rest))
    (mac.length + 1 + 8) hroot hm
  rw [e1, get_path_segment_two root mac hhhh ("set".toList ++ rest) 8 hroot hm hslash]
  simp only [hmac, hlen, BT_ADDR_STR_LEN]
  have t1 : List.take 17 (mac ++ '/' :: (hhhh ++ '/' :: ("set".toList ++ rest))) = mac := by
    rw [← hmac]; exact List.take_left' rfl
  have t2 : List.take 4 (hhhh ++ '/' :: ("set".toList ++ rest)) = hhhh := by
    rw [← hlen]; exact List.take_left' rfl
  simp only [t1, t2, haddr]
  rw [if_neg (by simp), if_neg (by simp)]

/-- The conversion `strtoul(., NULL, 16)` finds no digit in a string whose first character
is neither a hexadecimal digit nor white space nor a sign: it returns `0`. -/
theorem strtoul16_leading_non_digit (c : Char) (t : List Char)
    (hc : hexDigitValue c = none) (hsp : isspace c = false) (hplus : c ≠ '+')
    (hminus : c ≠ '-') : strtoul16 (c :: t) = (0, 0) := by
  have h2 : char2hex c = none := by rw [char2hex_eq_hexDigitValue]; exact hc
  have h0 : c ≠ '0' := by
    intro e
    rw [e] at h2
    exact absurd h2 (by decide)
  have hacc : strtoul_acc 16 (c :: t) 0 false = (0, false) := by
    rw [strtoul_acc]
    cases e : strtoul_digit c with
    | none => rfl
    | some d =>
      simp only
      have hd : 16 ≤ d := by
        by_contra hlt
        have c0 : '0'.toNat = 48 := rfl
        have c9 : '9'.toNat = 57 := rfl
        have ca : 'a'.toNat = 97 := rfl
        have cf : 'f'.toNat = 102 := rfl
        have cz : 'z'.toNat = 122 := rfl
        have cA : 'A'.toNat = 65 := rfl
        have cF : 'F'.toNat = 70 := rfl
        have cZ : 'Z'.toNat = 90 := rfl
        unfold strtoul_digit at e
        unfold char2hex at h2
        rw [c0, c9, ca, cz, cA, cZ] at e
        rw [c0, c9, ca, cf, cA, cF] at h2
        split_ifs at e h2 <;> simp at e <;> omega
      rw [if_pos hd]
  unfold strtoul16
  simp only [List.dropWhile_cons, hsp, Bool.false_eq_true, if_false]
  have hsign : strtoul_sign (c :: t) = (false, c :: t) := by
    unfold strtoul_sign
    simp only
    rw [if_neg hminus, if_neg hplus]
  have hmark : strtoul_hexmark (c :: t) = c :: t := by
    unfold strtoul_hexmark
    cases t with
    | nil => rfl
    | cons x t1 =>
      simp only
      rw [if_neg (fun h => h0 h.1)]
  rw [hsign]
  simp only
  rw [hmark, hacc]
  rfl

/-- C24 (as amended): on a control topic with an accepted address, the 4-character handle
segment is decoded by `strtoul(., NULL, 16)` and rejected only when the result is `0` or
`ULONG_MAX` (or `errno` is set). A segment whose first character is neither a hexadecimal
digit nor white space nor a sign is rejected: `main_set_bluetooth_value` is not called, no
attribute write is issued, the connection table is unchanged and the message is
acknowledged. Any other segment is forwarded with the value `strtoul` converts, truncated
to 16 bits, whatever follows the converted prefix. -/
theorem handle_segment_by_strtoul (lookup : bt_addr_le_t → Option Nat) (gatt_write_ret : Int)
    (script script' : List ReadStep) (btaddr addr : bt_addr_t) (conns : List conninfo)
    (qos len id : Nat) (root mac hhhh rest payload : List Char) (raw : List Nat)
    (hroot : '/' ∉ root) (hmac : mac.length = 17)
    (haddr : bt_addr_from_str mac btaddr = .ok addr) (hlen : hhhh.length = 4)
    (hslash : '/' ∉ hhhh) (hsize : len ≤ APP_MQTT_BUFFER_SIZE)
    (hread : read_payload script len = (.ok payload, script'))
    (hhex : hex2bin payload APP_MQTT_BUFFER_SIZE = some raw) (hraw : raw ≠ []) :
    handle_publish_topic
        ⟨controlTopic root mac hhhh ++ rest, (controlTopic root mac hhhh).length⟩ btaddr =
      (if (strtoul16 hhhh).1 = 0 ∨ (strtoul16 hhhh).1 = ULONG_MAX ∨ (strtoul16 hhhh).2 ≠ 0
      then .fail (-EINVAL) else .ok (addr, (strtoul16 hhhh).1)) ∧
    (∀ c t, hhhh = c :: t → hexDigitValue c = none → isspace c = false → c ≠ '+' →
      c ≠ '-' →
      handle_publish lookup gatt_write_ret script btaddr conns
          ⟨⟨controlTopic root mac hhhh ++ rest, (controlTopic root mac hhhh).length⟩,
            qos, len, id⟩ =
        some ⟨conns, [len], none, [], handle_publish_ack qos id⟩) ∧
    ((strtoul16 hhhh).1 ≠ 0 → (strtoul16 hhhh).1 ≠ ULONG_MAX → (strtoul16 hhhh).2 = 0 →
      (handle_publish lookup gatt_write_ret script btaddr conns
          ⟨⟨controlTopic root mac hhhh ++ rest, (controlTopic root mac hhhh).length⟩,
            qos, len, id⟩).map (fun o => o.dispatch) =
        some (some (addr, (strtoul16 hhhh).1 % 2 ^ 16, raw,
          (main_set_bluetooth_value lookup gatt_write_ret conns addr
            ((strtoul16 hhhh).1 % 2 ^ 16) raw raw.length).1))) := by
  have htopic := handle_publish_topic_strtoul root mac hhhh rest btaddr addr hroot hmac haddr
    hlen hslash
  have hdec := handle_publish_decoded lookup gatt_write_ret script script' btaddr conns
    ⟨⟨controlTopic root mac hhhh ++ rest, (controlTopic root mac hhhh).length⟩, qos, len, id⟩
    payload raw hsize hread hhex hraw
  refine ⟨htopic, ?_, ?_⟩
  · intro c t hct hc hsp hplus hminus
    rw [hdec]
    simp only
    rw [htopic, hct, strtoul16_leading_non_digit c t hc hsp hplus hminus]
    rfl
  · intro h0 hmax herr
    rw [hdec]
    simp only
    rw [htopic, if_neg (by
      intro h
      rcases h with h | h | h
      · exact h0 h
      · exact hmax h
      · exact h herr)]
    rfl

/-- C24 (as amended) at the topic `bridge/AA:BB:CC:DD:EE:FF/zz12/set`: rejected and
acknowledged. -/
theorem handle_segment_by_strtoul_witness :
    handle_publish (fun _ => some 7) 0 [.bytes "01".toList] ⟨[0, 0, 0, 0, 0, 0]⟩
        [{ conninfo.zero with conn := some 7 }]
        ⟨⟨"bridge/AA:BB:CC:DD:EE:FF/zz12/set".toList, 33⟩, 1, 2, 9⟩ =
      some ⟨[{ conninfo.zero with conn := some 7 }], [2], none, [], [.puback 9]⟩ :=
  (handle_segment_by_strtoul (fun _ => some 7) 0 [.bytes "01".toList] []
    ⟨[0, 0, 0, 0, 0, 0]⟩ ⟨[0xFF, 0xEE, 0xDD, 0xCC, 0xBB, 0xAA]⟩
    [{ conninfo.zero with conn := some 7 }] 1 2 9
    "bridge".toList "AA:BB:CC:DD:EE:FF".toList "zz12".toList [] "01".toList [1]
    (by decide) (by decide) (by decide) (by decide) (by decide) (by decide) (by decide)
    (by decide) (by decide)).2.1 'z' "z12".toList rfl (by decide) (by decide) (by decide)
    (by decide)

/-- C24, counterexample: the handle segments `12zz`, `0x12` and `-002` contain characters
that are not hexadecimal digits and are accepted. `strtoul` converts `12zz` and `0x12` to
`0x12` and `-002` to `ULONG_MAX - 1`, which becomes the 16-bit handle `0xFFFE`, and
`handle_publish` issues the attribute write to the connected peer. -/
theorem non_hex_handle_written :
    (handle_publish (fun _ => some 7) 0 [.bytes "01".toList] ⟨[0, 0, 0, 0, 0, 0]⟩
        [{ conninfo.zero with conn := some 7 }]
        ⟨⟨"bridge/AA:BB:CC:DD:EE:FF/12zz/set".toList, 33⟩, 1, 2, 9⟩).map
      (fun o => (o.writes, o.acks)) =
      some ([⟨7, 0x12, 0, 1, [0x01]⟩], [.puback 9]) ∧
    (handle_publish (fun _ => some 7) 0 [.bytes "01".toList] ⟨[0, 0, 0, 0, 0, 0]⟩
        [{ conninfo.zero with conn := some 7 }]
        ⟨⟨"bridge/AA:BB:CC:DD:EE:FF/0x12/set".toList, 33⟩, 1, 2, 9⟩).map
      (fun o => (o.writes, o.acks)) =
      some ([⟨7, 0x12, 0, 1, [0x01]⟩], [.puback 9]) ∧
    (handle_publish (fun _ => some 7) 0 [.bytes "01".toList] ⟨[0, 0, 0, 0, 0, 0]⟩
        [{ conninfo.zero with conn := some 7 }]
        ⟨⟨"bridge/AA:BB:CC:DD:EE:FF/-002/set".toList, 33⟩, 1, 2, 9⟩).map
      (fun o => (o.writes, o.acks)) =
      some ([⟨7, 0xFFFE, 0, 1, [0x01]⟩], [.puback 9]) :=
  ⟨rfl, rfl, rfl⟩

/-! ## The bounds of `get_path_segment` -/

/-- With fewer than `n` slashes among the `size` bytes of the path, the `while (n)` loop
of `get_path_segment` ends with `-ENOENT`. -/
theorem get_path_segment_skip_not_found (utf8 : List Char) :
    ∀ (size n : Nat), size ≤ utf8.length → (utf8.take size).count '/' < n →
      get_path_segment_skip utf8 size n = .fail (-ENOENT) := by
  induction utf8 with
  | nil =>
    intro size n hlen hcount
    have hs : size = 0 := by simpa using hlen
    subst hs
    cases n with
    | zero => simp at hcount
    | succ n => rfl
  | cons c t ih =>
    intro size n hlen hcount
    cases n with
    | zero => simp at hcount
    | succ n =>
      cases size with
      | zero => rfl
      | succ size =>
        rw [get_path_segment_skip]
        simp only [List.take_succ_cons, List.length_cons] at hcount hlen
        by_cases hc : c = '/'
        · rw [if_pos hc]
          rw [hc, List.count_cons_self] at hcount
          exact ih size n (by omega) (by omega)
        · rw [if_neg hc]
          rw [List.count_cons_of_ne (fun h => hc h.symm)] at hcount
          exact ih size (n + 1) (by omega) hcount

/-- Routine `get_path_segment` fails with `-ENOENT` on a path with fewer than `n` slashes. -/
theorem get_path_segment_not_found (path : mqtt_utf8) (n : Nat)
    (hlen : path.size ≤ path.utf8.length) (hcount : (path.utf8.take path.size).count '/' < n) :
    get_path_segment path n = .fail (-ENOENT) := by
  unfold get_path_segment
  rw [get_path_segment_skip_not_found path.utf8 path.size n hlen hcount]

/-- C25, the divergence: the `for` loop of `get_path_segment` that measures the segment
has no bound, it runs on to the next `/` in memory. For the topic `a/b` (3 bytes, one
slash) and `n = 1`, with the bytes `xy/` following the topic in memory, the call succeeds
with a segment of 3 bytes starting at offset 2, so bytes 3, 4 and 5 were read and the
segment ends past the topic; with nothing mapped after the topic the read leaves the
memory; and for the topic `a/` the whole segment lies past the topic. Seen from
`handle_publish`: for the 25-byte topic `bridge/AA:BB:CC:DD:EE:FF/` followed in memory by
`0012/set`, the handle is taken from the bytes after the topic and a write is issued. -/
theorem get_path_segment_reads_past_topic :
    get_path_segment ⟨"a/bxy/".toList, 3⟩ 1 = .ok ⟨"bxy/".toList, 3⟩ ∧
    get_path_segment ⟨"a/b".toList, 3⟩ 1 = .undefined ∧
    get_path_segment ⟨"a/xy/".toList, 2⟩ 1 = .ok ⟨"xy/".toList, 2⟩ ∧
    (handle_publish (fun _ => some 7) 0 [.bytes "01".toList] ⟨[0, 0, 0, 0, 0, 0]⟩
        [{ conninfo.zero with conn := some 7 }]
        ⟨⟨"bridge/AA:BB:CC:DD:EE:FF/0012/set".toList, 25⟩, 1, 2, 9⟩).map
      (fun o => (o.writes, o.acks)) =
      some ([⟨7, 0x12, 0, 1, [0x01]⟩], [.puback 9]) :=
  ⟨rfl, rfl, rfl, rfl⟩

/-! ## Payloads that decode to nothing -/

/-- C26: when the payload of an inbound publish fits the buffer and has been read, and
`hex2bin` yields zero bytes for it (a decoding failure, or the empty payload),
`handle_publish` returns with no call of `main_set_bluetooth_value`, no attribute write,
the connection table unchanged and no acknowledgment, whatever the QoS class. Once the
payload has decoded to at least one byte, every rejection of the topic decoding (a missing
segment, a segment of the wrong length, an address or handle that is not accepted) ends
with the acknowledgment of the QoS class and no write, and an accepted topic is
acknowledged whatever `main_set_bluetooth_value` returns. -/
theorem undecodable_payload_unacknowledged (lookup : bt_addr_le_t → Option Nat)
    (gatt_write_ret : Int) (script script' : List ReadStep) (btaddr : bt_addr_t)
    (conns : List conninfo) (param : mqtt_publish_param) (payload : List Char)
    (hsize : param.payload_len ≤ APP_MQTT_BUFFER_SIZE)
    (hread : read_payload script param.payload_len = (.ok payload, script')) :
    ((hex2bin payload APP_MQTT_BUFFER_SIZE = none ∨
        hex2bin payload APP_MQTT_BUFFER_SIZE = some []) →
      handle_publish lookup gatt_write_ret script btaddr conns param =
        some ⟨conns, [param.payload_len], none, [], []⟩) ∧
    (payload = [] → hex2bin payload APP_MQTT_BUFFER_SIZE = some []) ∧
    (∀ raw, hex2bin payload APP_MQTT_BUFFER_SIZE = some raw → raw ≠ [] →
      (∀ e, handle_publish_topic param.topic btaddr = .fail e →
        handle_publish lookup gatt_write_ret script btaddr conns param =
          some ⟨conns, [param.payload_len], none, [],
            handle_publish_ack param.qos param.message_id⟩) ∧
      (∀ addr handle_ul, handle_publish_topic param.topic btaddr = .ok (addr, handle_ul) →
        ∃ o, handle_publish lookup gatt_write_ret script btaddr conns param = some o ∧
          o.dispatch = some (addr, handle_ul % 2 ^ 16, raw,
            (main_set_bluetooth_value lookup gatt_write_ret conns addr (handle_ul % 2 ^ 16)
              raw raw.length).1) ∧
          o.acks = handle_publish_ack param.qos param.message_id)) := by
  have hl : ¬ APP_MQTT_BUFFER_SIZE < param.payload_len := by omega
  refine ⟨?_, ?_, ?_⟩
  · intro h
    unfold handle_publish
    simp only [if_neg hl, hread]
    rcases h with h | h
    · simp only [h]
    · simp only [h, List.length_nil, if_true]
  · intro h
    rw [h]
    rfl
  · intro raw hhex hraw
    have hdec := handle_publish_decoded lookup gatt_write_ret script script' btaddr conns
      param payload raw hsize hread hhex hraw
    constructor
    · intro e he
      rw [hdec, he]
    · intro addr handle_ul hok
      rw [hdec, hok]
      exact ⟨_, rfl, rfl, rfl⟩

/-- C26 at three QoS 1 publishes with message id 9: the payload `zz` is not acknowledged,
the payload `01` on a topic with the bad address `AA:BB:CC:DD:EE:GG` is acknowledged. -/
theorem undecodable_payload_unacknowledged_witness :
    handle_publish (fun _ => some 7) 0 [.bytes "zz".toList] ⟨[0, 0, 0, 0, 0, 0]⟩
        [{ conninfo.zero with conn := some 7 }]
        ⟨⟨"bridge/AA:BB:CC:DD:EE:FF/0012/set".toList, 33⟩, 1, 2, 9⟩ =
      some ⟨[{ conninfo.zero with conn := some 7 }], [2], none, [], []⟩ ∧
    handle_publish (fun _ => some 7) 0 [.bytes "01".toList] ⟨[0, 0, 0, 0, 0, 0]⟩
        [{ conninfo.zero with conn := some 7 }]
        ⟨⟨"bridge/AA:BB:CC:DD:EE:GG/0012/set".toList, 33⟩, 1, 2, 9⟩ =
      some ⟨[{ conninfo.zero with conn := some 7 }], [2], none, [], [.puback 9]⟩ :=
  ⟨(undecodable_payload_unacknowledged (fun _ => some 7) 0 [.bytes "zz".toList] []
      ⟨[0, 0, 0, 0, 0, 0]⟩ [{ conninfo.zero with conn := some 7 }]
      ⟨⟨"bridge/AA:BB:CC:DD:EE:FF/0012/set".toList, 33⟩, 1, 2, 9⟩ "zz".toList
      (by decide) (by decide)).1 (Or.inl (by decide)),
    ((undecodable_payload_unacknowledged (fun _ => some 7) 0 [.bytes "01".toList] []
      ⟨[0, 0, 0, 0, 0, 0]⟩ [{ conninfo.zero with conn := some 7 }]
      ⟨⟨"bridge/AA:BB:CC:DD:EE:GG/0012/set".toList, 33⟩, 1, 2, 9⟩ "01".toList
      (by decide) (by decide)).2.2 [1] (by decide) (by decide)).1 (-EINVAL) (by decide)⟩

/-! ## Which descriptor a subscription is paired with -/

theorem char_slot_subscriptions (subscribe_ret : bt_gatt_subscribe_params → Int)
    (ci : conninfo) (i : Nat) (a : bt_gatt_attr)
    (h : first_free_sub_params ci.sub_params = some i) :
    (active_subscriptions (char_slot subscribe_ret ci i a)).Perm
        ((ci.value_handle, a.handle) :: active_subscriptions ci) ∨
      active_subscriptions (char_slot subscribe_ret ci i a) = active_subscriptions ci := by
  unfold active_subscriptions char_slot
  rcases kept_subscription_cases (subscribe_ret (new_subscription ci i a))
    (new_subscription ci i a) with ⟨_, hk⟩ | ⟨_, hk⟩
  · left
    rw [hk]
    exact (active_fill_kept ci.sub_params i _ h rfl).map _
  · right
    rw [active_fill_released ci.sub_params i _ h hk]

theorem discover_stop_pairing (table : List bt_gatt_attr) (ci : conninfo)
    (calls : List BtCall) (h : ∀ pair ∈ active_subscriptions ci, PairedFirst table pair) :
    PairingInv table (discover_stop ci calls).ci :=
  ⟨h, Or.inl rfl⟩

/-- The answer to a descriptor request for the descriptors of the CCC type from
`x.handle + 2` up to `0xFFFF`. -/
theorem discover_answer_ccc (table : List bt_gatt_attr)
    (hH : ∀ a ∈ table, a.handle ≤ 0xFFFF) (ci : conninfo) (x : bt_gatt_attr)
    (h1 : ci.discover_params.type = BT_GATT_DISCOVER_DESCRIPTOR)
    (h2 : ci.discover_params.uuid = true) (h3 : ci.uuid = BT_UUID_GATT_CCC)
    (h4 : ci.discover_params.start_handle = x.handle + 2)
    (h5 : ci.discover_params.end_handle = 0xFFFF) :
    discover_answer table ci =
      table.filter (fun c => decide (c.uuid = BT_UUID_GATT_CCC) &&
        decide (x.handle + 2 ≤ c.handle)) := by
  have hne : ¬ ci.discover_params.type = BT_GATT_DISCOVER_CHARACTERISTIC := by
    rw [h1]; decide
  unfold discover_answer
  simp only
  by_cases hg : ci.discover_params.start_handle = 0 ∨
      ci.discover_params.end_handle < ci.discover_params.start_handle
  · rw [if_pos hg]
    symm
    apply List.filter_eq_nil_iff.2
    intro a ha
    have := hH a ha
    rw [h4, h5] at hg
    simp only [Bool.and_eq_true, decide_eq_true_eq, not_and]
    intro _ hle
    omega
  · rw [if_neg hg]
    apply List.filter_congr
    intro a ha
    have := hH a ha
    rw [if_neg hne, if_pos h1, h2, h3, h4, h5]
    simp only [if_true]
    by_cases hle : x.handle + 2 ≤ a.handle
    · simp [hle, this]
    · simp [hle]

theorem discover_iter_char_pairing (discover_ret : bt_gatt_discover_params → Int)
    (subscribe_ret : bt_gatt_subscribe_params → Int) (conn : Nat)
    (table : List bt_gatt_attr)
    (hD : ∀ a ∈ table, a.uuid = BT_UUID_GATT_CHRC → a.handle < 0xFFFF) (ci : conninfo)
    (h1 : ci.discover_params.type = BT_GATT_DISCOVER_CHARACTERISTIC)
    (hsubs : ∀ pair ∈ active_subscriptions ci, PairedFirst table pair)
    (hend : ci.discover_params.end_handle = 0xFFFF) (L : List bt_gatt_attr)
    (hL : ∀ a ∈ L, a ∈ table ∧ a.uuid = BT_UUID_GATT_CHRC) :
    PairingInv table (discover_iter discover_ret subscribe_ret conn L ci).1 := by
  have hne : BT_GATT_ITER_STOP ≠ BT_GATT_ITER_CONTINUE := by decide
  induction L with
  | nil =>
    rw [discover_iter]
    exact discover_stop_pairing table ci [] hsubs
  | cons a rest ih =>
    obtain ⟨hat, hau⟩ := hL a (List.mem_cons_self _ _)
    rw [discover_iter]
    by_cases h2 : a.properties &&& BT_GATT_CHRC_NOTIFY = 0
    · rw [discover_func_char_skip _ _ _ _ _ h1 h2]
      simp only [if_true]
      exact ih (fun x hx => hL x (List.mem_cons_of_mem _ hx))
    · rw [discover_func_char_notify _ _ _ _ _ h1 h2]
      by_cases h3 : discover_ret (desc_request ci a) ≠ 0
      · rw [if_pos h3]
        have hs : (discover_stop (desc_slot ci a)
            [.gatt_discover conn (desc_request ci a) (discover_ret (desc_request ci a))]).ret =
            BT_GATT_ITER_STOP := rfl
        simp only [hs, if_neg hne]
        exact discover_stop_pairing table (desc_slot ci a) _ hsubs
      · rw [if_neg h3]
        simp only [if_neg hne]
        refine ⟨hsubs, ?_⟩
        by_cases hw : a.handle + 2 < 2 ^ 16
        · right
          refine ⟨hend, fun _ => ⟨a, hat, ?_, rfl, ?_, rfl, rfl⟩⟩
          · simp [notifiable, hau, h2]
          · show (a.handle + 2) % 2 ^ 16 = a.handle + 2
            exact Nat.mod_eq_of_lt hw
        · left
          have := hD a hat hau
          show (a.handle + 2) % 2 ^ 16 = 0
          have h4 : a.handle = 0xFFFE := by omega
          rw [h4]
          rfl

/-- The host walking one answer keeps the pairing of the subscriptions. -/
theorem discover_iter_pairing (discover_ret : bt_gatt_discover_params → Int)
    (subscribe_ret : bt_gatt_subscribe_params → Int) (conn : Nat)
    (table : List bt_gatt_attr) (hH : ∀ a ∈ table, a.handle ≤ 0xFFFF)
    (hD : ∀ a ∈ table, a.uuid = BT_UUID_GATT_CHRC → a.handle < 0xFFFF) (ci : conninfo)
    (hinv : PairingInv table ci) :
    PairingInv table
      (discover_iter discover_ret subscribe_ret conn (discover_answer table ci) ci).1 := by
  have hne : BT_GATT_ITER_STOP ≠ BT_GATT_ITER_CONTINUE := by decide
  obtain ⟨hsubs, hrest⟩ := hinv
  rcases hrest with h0 | ⟨hend, hdesc⟩
  · rw [discover_answer_zero table ci h0, discover_iter]
    exact discover_stop_pairing table ci [] hsubs
  · by_cases h1 : ci.discover_params.type = BT_GATT_DISCOVER_CHARACTERISTIC
    · exact discover_iter_char_pairing discover_ret subscribe_ret conn table hD ci h1 hsubs
        hend _ (fun a ha => ⟨(discover_answer_mem table ci a ha).1,
          (discover_answer_mem table ci a ha).2.2 h1⟩)
    · by_cases h2 : ci.discover_params.type = BT_GATT_DISCOVER_DESCRIPTOR
      · obtain ⟨x, hx, hnx, hvh, hstart, hu, hcu⟩ := hdesc h2
        have hans := discover_answer_ccc table hH ci x h2 hu hcu hstart hend
        cases hL : discover_answer table ci with
        | nil =>
          rw [discover_iter]
          exact discover_stop_pairing table ci [] hsubs
        | cons c rest =>
          rw [discover_iter]
          cases hf : first_free_sub_params ci.sub_params with
          | none =>
            rw [discover_func_desc_full _ _ _ _ _ h2 hf]
            have hs : (discover_stop ci []).ret = BT_GATT_ITER_STOP := rfl
            simp only [hs, if_neg hne]
            exact discover_stop_pairing table ci [] hsubs
          | some i =>
            have hctl : control_descriptor table x = some c := by
              unfold control_descriptor
              rw [find?_of_filter, ← hans, hL]
              rfl
            have hsubs1 : ∀ pair ∈ active_subscriptions (char_slot subscribe_ret ci i c),
                PairedFirst table pair := by
              intro pair hp
              rcases char_slot_subscriptions subscribe_ret ci i c hf with hperm | heq
              · rcases List.mem_cons.1 (hperm.mem_iff.1 hp) with rfl | hold
                · exact ⟨x, hx, hnx, hvh, c, hctl, rfl⟩
                · exact hsubs pair hold
              · rw [heq] at hp
                exact hsubs pair hp
            rw [discover_func_desc_free _ _ _ _ _ i h2 hf]
            by_cases h3 : discover_ret (char_request ci c) ≠ 0
            · rw [if_pos h3]
              have hs : (discover_stop (char_slot subscribe_ret ci i c)
                  [.gatt_subscribe conn (new_subscription ci i c)
                      (subscribe_ret (new_subscription ci i c)),
                    .gatt_discover conn (char_request ci c)
                      (discover_ret (char_request ci c))]).ret = BT_GATT_ITER_STOP := rfl
              simp only [hs, if_neg hne]
              exact discover_stop_pairing table _ _ hsubs1
            · rw [if_neg h3]
              simp only [if_neg hne]
              refine ⟨hsubs1, Or.inr ⟨hend, ?_⟩⟩
              intro hcon
              have hne2 : BT_GATT_DISCOVER_CHARACTERISTIC ≠ BT_GATT_DISCOVER_DESCRIPTOR := by
                decide
              exact absurd hcon hne2
      · cases hL : discover_answer table ci with
        | nil =>
          rw [discover_iter]
          exact discover_stop_pairing table ci [] hsubs
        | cons c rest =>
          rw [discover_iter, discover_func_other _ _ _ _ _ h1 h2]
          have hs : (discover_stop ci []).ret = BT_GATT_ITER_STOP := rfl
          simp only [hs, if_neg hne]
          exact discover_stop_pairing table ci [] hsubs

theorem discovery_rounds_pairing (discover_ret : bt_gatt_discover_params → Int)
    (subscribe_ret : bt_gatt_subscribe_params → Int) (conn : Nat)
    (table : List bt_gatt_attr) (hH : ∀ a ∈ table, a.handle ≤ 0xFFFF)
    (hD : ∀ a ∈ table, a.uuid = BT_UUID_GATT_CHRC → a.handle < 0xFFFF) (fuel : Nat) :
    ∀ (ci : conninfo) (outstanding : Bool), PairingInv table ci →
      PairingInv table
        (discovery_rounds discover_ret subscribe_ret conn table fuel ci outstanding).1 := by
  induction fuel with
  | zero => intro ci o h; exact h
  | succ fuel ih =>
    intro ci o h
    rw [discovery_rounds]
    cases o with
    | false => exact h
    | true =>
      simp only [if_true]
      exact ih _ _ (discover_iter_pairing discover_ret subscribe_ret conn table hH hD ci h)

/-- C27 (as amended): for every attribute table with 16-bit handles and no characteristic
declaration at `0xFFFF`, whatever `bt_gatt_discover` and `bt_gatt_subscribe` return, every
subscription that is active after any number of answered requests of a discovery started
with no active entry pairs the value handle of a notifiable declaration `x` of the table
with the handle of the first CCC descriptor of the table at or after `x.handle + 2`,
wherever that descriptor lies. It is a descriptor of `x` itself (before the next
declaration) when the table is in increasing handle order and `x` has a descriptor of its
own; when `x` has none, it is the descriptor of a later characteristic. -/
theorem subscriptions_paired_with_next_descriptor
    (discover_ret : bt_gatt_discover_params → Int)
    (subscribe_ret : bt_gatt_subscribe_params → Int) (conn : Nat)
    (table : List bt_gatt_attr) (fuel : Nat) (ci : conninfo)
    (hH : ∀ a ∈ table, a.handle ≤ 0xFFFF)
    (hD : ∀ a ∈ table, a.uuid = BT_UUID_GATT_CHRC → a.handle < 0xFFFF)
    (hfree : ∀ p ∈ ci.sub_params, p.notify = false) :
    ∀ pair ∈ active_subscriptions
        (discovery_link_up discover_ret subscribe_ret conn table fuel ci).1,
      ∃ x ∈ table, notifiable x = true ∧ pair.1 = bt_gatt_attr_value_handle x ∧
        ∃ cd ∈ table, control_descriptor table x = some cd ∧ pair.2 = cd.handle ∧
          cd.uuid = BT_UUID_GATT_CCC ∧ x.handle + 2 ≤ cd.handle ∧
          (table.Pairwise (fun a b => a.handle < b.handle) → OwnDescriptor table x →
            ∀ y ∈ table, y.uuid = BT_UUID_GATT_CHRC → x.handle < y.handle →
              cd.handle < y.handle) := by
  have h0 : active_subscriptions (connected_discover discover_ret conn ci).1 = [] := by
    unfold active_subscriptions
    rw [List.filter_eq_nil_iff.2 (fun p hp => by
      have := hfree p hp
      simp [this])]
    rfl
  have hinv : PairingInv table (connected_discover discover_ret conn ci).1 := by
    refine ⟨?_, Or.inr ⟨rfl, ?_⟩⟩
    · rw [h0]
      intro pair hp
      cases hp
    · intro hcon
      have hne2 : BT_GATT_DISCOVER_CHARACTERISTIC ≠ BT_GATT_DISCOVER_DESCRIPTOR := by decide
      exact absurd hcon hne2
  have hfin := (discovery_rounds_pairing discover_ret subscribe_ret conn table hH hD fuel _
    (connected_discover discover_ret conn ci).2.1 hinv).1
  intro pair hp
  obtain ⟨x, hx, hnx, hv, cd, hctl, hc⟩ := hfin pair hp
  have hcd := List.find?_some hctl
  simp only [Bool.and_eq_true, decide_eq_true_eq] at hcd
  refine ⟨x, hx, hnx, hv, cd, List.mem_of_find?_eq_some hctl, hctl, hc, hcd.1, hcd.2, ?_⟩
  intro hs hown y hy hyu hlt
  obtain ⟨c, hcm, hcu, hcle, hcnext⟩ := hown
  obtain ⟨c0, hfind, _, _, hmin⟩ := find?_sorted_min
    (fun c => decide (c.uuid = BT_UUID_GATT_CCC) && decide (x.handle + 2 ≤ c.handle)) table hs
    c hcm (by simp [hcu, hcle])
  have hsame : c0 = cd := by
    unfold control_descriptor at hctl
    rw [hfind] at hctl
    exact Option.some.inj hctl
  rw [← hsame]
  have := hcnext y hy hyu hlt
  omega

/-- C27 (as amended) at a peer with two notifiable characteristics, each with its own
descriptor: the subscriptions are `(3, 4)` and `(6, 7)`, and `(3, 4)` is the value handle
of a notifiable declaration with the first CCC descriptor after it. -/
theorem subscriptions_paired_with_next_descriptor_witness :
    active_subscriptions (discovery_link_up (fun _ => 0) (fun _ => 0) 7
      [⟨2, 0x2803, 0x10, 3, 0x2a19⟩, ⟨3, 0x2a19, 0, 0, 0⟩, ⟨4, 0x2902, 0, 0, 0⟩,
        ⟨5, 0x2803, 0x10, 6, 0x2a1c⟩, ⟨6, 0x2a1c, 0, 0, 0⟩, ⟨7, 0x2902, 0, 0, 0⟩]
      5 { conninfo.zero with conn := some 7 }).1 = [(3, 4), (6, 7)] ∧
    ∃ x ∈ ([⟨2, 0x2803, 0x10, 3, 0x2a19⟩, ⟨3, 0x2a19, 0, 0, 0⟩, ⟨4, 0x2902, 0, 0, 0⟩,
        ⟨5, 0x2803, 0x10, 6, 0x2a1c⟩, ⟨6, 0x2a1c, 0, 0, 0⟩, ⟨7, 0x2902, 0, 0, 0⟩] :
        List bt_gatt_attr),
      notifiable x = true ∧ 3 = bt_gatt_attr_value_handle x ∧
      ∃ cd ∈ ([⟨2, 0x2803, 0x10, 3, 0x2a19⟩, ⟨3, 0x2a19, 0, 0, 0⟩, ⟨4, 0x2902, 0, 0, 0⟩,
          ⟨5, 0x2803, 0x10, 6, 0x2a1c⟩, ⟨6, 0x2a1c, 0, 0, 0⟩, ⟨7, 0x2902, 0, 0, 0⟩] :
          List bt_gatt_attr),
        4 = cd.handle ∧ cd.uuid = BT_UUID_GATT_CCC := by
  refine ⟨by decide, ?_⟩
  obtain ⟨x, hx, hn, hv, cd, hcd, _, hc, hu, _⟩ := subscriptions_paired_with_next_descriptor
    (fun _ => 0) (fun _ => 0) 7
    [⟨2, 0x2803, 0x10, 3, 0x2a19⟩, ⟨3, 0x2a19, 0, 0, 0⟩, ⟨4, 0x2902, 0, 0, 0⟩,
      ⟨5, 0x2803, 0x10, 6, 0x2a1c⟩, ⟨6, 0x2a1c, 0, 0, 0⟩, ⟨7, 0x2902, 0, 0, 0⟩]
    5 { conninfo.zero with conn := some 7 } (by decide) (by decide) (by decide) (3, 4)
    (by decide)
  exact ⟨x, hx, hn, hv, cd, hcd, hc, hu⟩

/-- C27, counterexample: the notifiable characteristic declared at handle 2 (value handle
3) has no descriptor of its own; the next characteristic, declared at handle 4 (value
handle 5), has the descriptor at handle 6. Discovery ends with the single subscription
`(3, 6)`: the value handle of the first characteristic paired with the descriptor of the
second, which lies after the declaration at handle 4. -/
theorem subscription_paired_with_foreign_descriptor :
    active_subscriptions (discovery_link_up (fun _ => 0) (fun _ => 0) 7
      [⟨2, 0x2803, 0x10, 3, 0x2a19⟩, ⟨3, 0x2a19, 0, 0, 0⟩, ⟨4, 0x2803, 0x10, 5, 0x2a1c⟩,
        ⟨5, 0x2a1c, 0, 0, 0⟩, ⟨6, 0x2902, 0, 0, 0⟩]
      5 { conninfo.zero with conn := some 7 }).1 = [(3, 6)] ∧
    bt_gatt_attr_value_handle ⟨2, 0x2803, 0x10, 3, 0x2a19⟩ = 3 ∧
    (⟨4, 0x2803, 0x10, 5, 0x2a1c⟩ : bt_gatt_attr).uuid = BT_UUID_GATT_CHRC ∧
    ¬ OwnDescriptor
      [⟨2, 0x2803, 0x10, 3, 0x2a19⟩, ⟨3, 0x2a19, 0, 0, 0⟩, ⟨4, 0x2803, 0x10, 5, 0x2a1c⟩,
        ⟨5, 0x2a1c, 0, 0, 0⟩, ⟨6, 0x2902, 0, 0, 0⟩]
      ⟨2, 0x2803, 0x10, 3, 0x2a19⟩ := by
  refine ⟨by decide, by decide, by decide, ?_⟩
  unfold OwnDescriptor
  decide

/-! ## The interlocks of the dehumidifier -/

theorem main_compressor_set_off (waterbox : Nat → Bool) (depth : Nat) (s : Dehumidifier) :
    ∃ s', main_compressor_set waterbox (depth + 1) false s = some (0, s') ∧
      s'.compressor_active = false ∧ s'.ionizer_active = s.ionizer_active ∧
      s'.fanmode = s.fanmode := by
  simp [main_compressor_set, main_waterbox_get]

theorem main_ionizer_set_off (waterbox : Nat → Bool) (depth : Nat) (s : Dehumidifier) :
    ∃ s', main_ionizer_set waterbox (depth + 1) false s = some (0, s') ∧
      s'.ionizer_active = false ∧ s'.compressor_active = s.compressor_active ∧
      s'.fanmode = s.fanmode := by
  simp [main_ionizer_set, main_waterbox_get]

/-- Routine `main_fan_set` returns: either refused because of the waterbox, with the three
globals unchanged, or with compressor and ionizer off and, on success, the mode set. -/
theorem main_fan_set_spec (waterbox : Nat → Bool) (depth mode : Nat) (s : Dehumidifier) :
    ∃ ret s', main_fan_set waterbox (depth + 2) mode s = some (ret, s') ∧
      ((ret ≠ 0 ∧ s'.ionizer_active = s.ionizer_active ∧ s'.fanmode = s.fanmode ∧
          s'.compressor_active = s.compressor_active) ∨
        (s'.compressor_active = false ∧ s'.ionizer_active = false ∧
          (ret = 0 → s'.fanmode = mode) ∧ (ret ≠ 0 → s'.fanmode = s.fanmode))) := by
  rw [main_fan_set]
  simp only [main_waterbox_get]
  by_cases hw : mode ≠ FANMODE_OFF ∧ waterbox s.readings = true
  · rw [if_pos hw]
    exact ⟨_, _, rfl, Or.inl ⟨by decide, rfl, rfl, rfl⟩⟩
  · rw [if_neg hw]
    obtain ⟨s1, h1, c1, i1, f1⟩ := main_compressor_set_off waterbox depth
      { s with readings := s.readings + 1 }
    rw [h1]
    simp only
    obtain ⟨s2, h2, i2, c2, f2⟩ := main_ionizer_set_off waterbox depth s1
    rw [h2]
    simp only
    by_cases m0 : mode = FANMODE_OFF
    · rw [if_pos m0]
      exact ⟨_, _, rfl, Or.inr ⟨by rw [← c1]; exact c2, i2, fun _ => rfl,
        fun h => absurd rfl h⟩⟩
    · rw [if_neg m0]
      by_cases m1 : mode = FANMODE_HALF
      · rw [if_pos m1]
        exact ⟨_, _, rfl, Or.inr ⟨by rw [← c1]; exact c2, i2, fun _ => rfl,
          fun h => absurd rfl h⟩⟩
      · rw [if_neg m1]
        by_cases m2 : mode = FANMODE_FULL
        · rw [if_pos m2]
          exact ⟨_, _, rfl, Or.inr ⟨by rw [← c1]; exact c2, i2, fun _ => rfl,
            fun h => absurd rfl h⟩⟩
        · rw [if_neg m2]
          refine ⟨_, _, rfl, Or.inr ⟨by rw [← c1]; exact c2, i2, ?_, ?_⟩⟩
          · intro h
            exact absurd h (by decide)
          · intro _
            rw [f2, f1]

theorem interlocks_of_same (s s' : Dehumidifier) (h : Interlocks s)
    (hi : s'.ionizer_active = s.ionizer_active) (hf : s'.fanmode = s.fanmode)
    (hc : s'.compressor_active = s.compressor_active) : Interlocks s' := by
  unfold Interlocks at h ⊢
  rw [hi, hf, hc]
  exact h

theorem interlocks_of_off (s : Dehumidifier) (hc : s.compressor_active = false)
    (hi : s.ionizer_active = false) : Interlocks s := by
  unfold Interlocks
  rw [hc, hi]
  exact ⟨fun h => absurd h (by decide), fun h => absurd h (by decide)⟩

theorem main_fan_set_interlocks (waterbox : Nat → Bool) (depth mode : Nat)
    (s : Dehumidifier) (h : Interlocks s) :
    ∃ ret s', main_fan_set waterbox (depth + 2) mode s = some (ret, s') ∧ Interlocks s' := by
  obtain ⟨ret, s', hr, hcase⟩ := main_fan_set_spec waterbox depth mode s
  refine ⟨ret, s', hr, ?_⟩
  rcases hcase with ⟨_, hi, hf, hc⟩ | ⟨hc, hi, _, _⟩
  · exact interlocks_of_same s s' h hi hf hc
  · exact interlocks_of_off s' hc hi

theorem main_compressor_set_interlocks (waterbox : Nat → Bool) (depth : Nat) (val : Bool)
    (s : Dehumidifier) (h : Interlocks s) :
    ∃ ret s', main_compressor_set waterbox (depth + 3) val s = some (ret, s') ∧
      Interlocks s' := by
  rw [main_compressor_set]
  simp only [main_waterbox_get]
  by_cases hw : val = true ∧ waterbox s.readings = true
  · rw [if_pos hw]
    exact ⟨_, _, rfl, interlocks_of_same s _ h rfl rfl rfl⟩
  · rw [if_neg hw]
    by_cases hfan : val = true ∧ s.fanmode ≠ FANMODE_FULL
    · rw [if_pos hfan]
      obtain ⟨ret, s1, hr, hcase⟩ := main_fan_set_spec waterbox depth FANMODE_FULL
        { s with readings := s.readings + 1 }
      rw [hr]
      simp only
      by_cases h0 : ret ≠ 0
      · rw [if_pos h0]
        refine ⟨_, _, rfl, ?_⟩
        rcases hcase with ⟨_, hi, hf, hc⟩ | ⟨hc, hi, _, _⟩
        · exact interlocks_of_same s s1 h hi hf hc
        · exact interlocks_of_off s1 hc hi
      · rw [if_neg h0]
        refine ⟨_, _, rfl, ?_⟩
        rcases hcase with ⟨hne, _⟩ | ⟨_, hi, hf, _⟩
        · exact absurd hne h0
        · have hf0 : s1.fanmode = FANMODE_FULL := hf (not_not.1 h0)
          exact ⟨fun _ => hf0, fun hcon => by
            have : s1.ionizer_active = true := hcon
            rw [hi] at this
            cases this⟩
    · rw [if_neg hfan]
      simp only
      rw [if_neg (by simp)]
      refine ⟨_, _, rfl, ?_⟩
      constructor
      · intro hv
        have hv' : val = true := hv
        by_contra hne
        exact hfan ⟨hv', hne⟩
      · exact h.2

theorem main_ionizer_set_interlocks (waterbox : Nat → Bool) (depth : Nat) (val : Bool)
    (s : Dehumidifier) (h : Interlocks s) :
    ∃ ret s', main_ionizer_set waterbox (depth + 3) val s = some (ret, s') ∧
      Interlocks s' := by
  rw [main_ionizer_set]
  simp only [main_waterbox_get]
  by_cases hw : val = true ∧ waterbox s.readings = true
  · rw [if_pos hw]
    exact ⟨_, _, rfl, interlocks_of_same s _ h rfl rfl rfl⟩
  · rw [if_neg hw]
    by_cases hfan : val = true ∧ s.fanmode = FANMODE_OFF
    · rw [if_pos hfan]
      obtain ⟨ret, s1, hr, hcase⟩ := main_fan_set_spec waterbox depth FANMODE_HALF
        { s with readings := s.readings + 1 }
      rw [hr]
      simp only
      by_cases h0 : ret ≠ 0
      · rw [if_pos h0]
        refine ⟨_, _, rfl, ?_⟩
        rcases hcase with ⟨_, hi, hf, hc⟩ | ⟨hc, hi, _, _⟩
        · exact interlocks_of_same s s1 h hi hf hc
        · exact interlocks_of_off s1 hc hi
      · rw [if_neg h0]
        refine ⟨_, _, rfl, ?_⟩
        rcases hcase with ⟨hne, _⟩ | ⟨hc, _, hf, _⟩
        · exact absurd hne h0
        · have hf0 : s1.fanmode = FANMODE_HALF := hf (not_not.1 h0)
          constructor
          · intro hcon
            have : s1.compressor_active = true := hcon
            rw [hc] at this
            cases this
          · intro _
            show s1.fanmode ≠ FANMODE_OFF
            rw [hf0]
            decide
    · rw [if_neg hfan]
      simp only
      rw [if_neg (by simp)]
      refine ⟨_, _, rfl, ?_⟩
      constructor
      · exact h.1
      · intro hv
        have hv' : val = true := hv
        intro hoff
        exact hfan ⟨hv', hoff⟩

theorem handle_waterbox_changed_interlocks (waterbox : Nat → Bool) (depth : Nat)
    (s : Dehumidifier) (h : Interlocks s) :
    ∃ s', handle_waterbox_changed waterbox (depth + 3) s = some s' ∧ Interlocks s' := by
  unfold handle_waterbox_changed main_waterbox_get
  dsimp only
  by_cases hw : waterbox s.readings = true
  · rw [if_pos hw]
    obtain ⟨s1, h1, c1, i1, f1⟩ := main_compressor_set_off waterbox (depth + 2)
      { s with readings := s.readings + 1 }
    rw [h1]
    dsimp only
    obtain ⟨s2, h2, i2, c2, f2⟩ := main_ionizer_set_off waterbox (depth + 2) s1
    rw [h2]
    dsimp only
    have hs2 : Interlocks s2 := interlocks_of_off s2 (by rw [c2]; exact c1) i2
    obtain ⟨ret, s3, h3, hi3⟩ := main_fan_set_interlocks waterbox (depth + 1) FANMODE_OFF s2 hs2
    rw [h3]
    exact ⟨_, rfl, interlocks_of_same s3 _ hi3 rfl rfl rfl⟩
  · rw [if_neg hw]
    exact ⟨_, rfl, interlocks_of_same s _ h rfl rfl rfl⟩

theorem dehumid_step_interlocks (waterbox : Nat → Bool) (depth : Nat) (s : Dehumidifier)
    (op : DehumidOp) (h : Interlocks s) :
    ∃ s', dehumid_step waterbox (depth + 3) s op = some s' ∧ Interlocks s' := by
  cases op with
  | ionizer_set val =>
    obtain ⟨ret, s', hr, hi⟩ := main_ionizer_set_interlocks waterbox depth val s h
    exact ⟨s', by rw [dehumid_step, hr]; rfl, hi⟩
  | fan_set mode =>
    obtain ⟨ret, s', hr, hi⟩ := main_fan_set_interlocks waterbox (depth + 1) mode s h
    exact ⟨s', by rw [dehumid_step, hr]; rfl, hi⟩
  | compressor_set val =>
    obtain ⟨ret, s', hr, hi⟩ := main_compressor_set_interlocks waterbox depth val s h
    exact ⟨s', by rw [dehumid_step, hr]; rfl, hi⟩
  | waterbox_changed => exact handle_waterbox_changed_interlocks waterbox depth s h

theorem dehumid_run_interlocks (waterbox : Nat → Bool) (depth : Nat) (ops : List DehumidOp) :
    ∀ s, Interlocks s →
      ∃ s', dehumid_run waterbox (depth + 3) ops s = some s' ∧ Interlocks s' := by
  induction ops with
  | nil => intro s h; exact ⟨s, rfl, h⟩
  | cons op ops ih =>
    intro s h
    obtain ⟨s1, h1, hi1⟩ := dehumid_step_interlocks waterbox depth s op h
    rw [dehumid_run, h1]
    exact ih s1 hi1

/-- C23: from the all-off state, for every sequence of calls of `main_ionizer_set`,
`main_fan_set` and `main_compressor_set` with any arguments and of waterbox-change
handlings, and for every sequence of waterbox readings, every operation returns (three
levels of nested setter calls suffice) and the state after the sequence satisfies the
interlocks: compressor active implies fan mode `FANMODE_FULL`, ionizer active implies fan
mode other than `FANMODE_OFF`. The sequence being arbitrary, this holds after each of its
operations. -/
theorem interlocks_hold (waterbox : Nat → Bool) (depth : Nat) (ops : List DehumidOp)
    (hdepth : 3 ≤ depth) :
    ∃ s, dehumid_run waterbox depth ops Dehumidifier.init = some s ∧
      (s.compressor_active = true → s.fanmode = FANMODE_FULL) ∧
      (s.ionizer_active = true → s.fanmode ≠ FANMODE_OFF) := by
  obtain ⟨d, rfl⟩ : ∃ d, depth = d + 3 := ⟨depth - 3, by omega⟩
  exact dehumid_run_interlocks waterbox d ops Dehumidifier.init
    (interlocks_of_off _ rfl rfl)

/-- C23 at a run in which the ionizer and then the compressor are switched on and the
waterbox then reports full: everything ends off. -/
theorem interlocks_hold_witness :
    ∃ s, dehumid_run (fun k => decide (k = 8)) 3
        [.ionizer_set true, .compressor_set true, .waterbox_changed] Dehumidifier.init =
        some s ∧
      (s.compressor_active = true → s.fanmode = FANMODE_FULL) ∧
      (s.ionizer_active = true → s.fanmode ≠ FANMODE_OFF) :=
  interlocks_hold (fun k => decide (k = 8)) 3
    [.ionizer_set true, .compressor_set true, .waterbox_changed] (by decide)

/-! ## Discovery, the descriptor callback -/

/-- C21 (as amended): in descriptor discovery, for a reported descriptor `attr` (handle
`d`) while the slot has a free subscription entry, `i` being the first one:
`discover_func` fills entry `i` with the remembered value handle, the handle `d` and the
notify request, issues `bt_gatt_subscribe` for it, and leaves the entry active exactly when
the result is `0` or `-EALREADY`; then, whatever the subscribe result, it issues exactly
one `bt_gatt_discover`, a characteristic discovery with no UUID filter up to the unchanged
end handle, whose start handle is `d + 1` as a 16-bit value (`d + 1` for `d < 0xFFFF`, `0`
for `d = 0xFFFF`), and returns `BT_GATT_ITER_STOP`; if that request is refused the
parameters are zeroed and scanning is restarted. -/
theorem descriptor_step (discover_ret : bt_gatt_discover_params → Int)
    (subscribe_ret : bt_gatt_subscribe_params → Int) (conn : Nat) (ci : conninfo)
    (attr : bt_gatt_attr) (i : Nat)
    (htype : ci.discover_params.type = BT_GATT_DISCOVER_DESCRIPTOR)
    (hfree : first_free_sub_params ci.sub_params = some i) :
    ((∃ old, ci.sub_params[i]? = some old ∧ old.notify = false) ∧
      ∀ j < i, ∀ p, ci.sub_params[j]? = some p → p.notify = true) ∧
    ∃ sub : bt_gatt_subscribe_params,
      sub.notify = true ∧ sub.value_handle = ci.value_handle ∧ sub.ccc_handle = attr.handle ∧
      sub.value = BT_GATT_CCC_NOTIFY ∧
      (discover_func discover_ret subscribe_ret conn ci (some attr)).ret = BT_GATT_ITER_STOP ∧
      (discover_func discover_ret subscribe_ret conn ci (some attr)).calls =
        [.gatt_subscribe conn sub (subscribe_ret sub),
          .gatt_discover conn
            ⟨false, ci.discover_params.func, (attr.handle + 1) % 2 ^ 16,
              ci.discover_params.end_handle, BT_GATT_DISCOVER_CHARACTERISTIC⟩
            (discover_ret
              ⟨false, ci.discover_params.func, (attr.handle + 1) % 2 ^ 16,
                ci.discover_params.end_handle, BT_GATT_DISCOVER_CHARACTERISTIC⟩)] ++
          (if discover_ret
              ⟨false, ci.discover_params.func, (attr.handle + 1) % 2 ^ 16,
                ci.discover_params.end_handle, BT_GATT_DISCOVER_CHARACTERISTIC⟩ ≠ 0
            then [.scan_start] else []) ∧
      (attr.handle < 0xFFFF →
        discover_requests (discover_func discover_ret subscribe_ret conn ci (some attr)).calls =
          [⟨false, ci.discover_params.func, attr.handle + 1, ci.discover_params.end_handle,
            BT_GATT_DISCOVER_CHARACTERISTIC⟩]) ∧
      (attr.handle = 0xFFFF →
        discover_requests (discover_func discover_ret subscribe_ret conn ci (some attr)).calls =
          [⟨false, ci.discover_params.func, 0, ci.discover_params.end_handle,
            BT_GATT_DISCOVER_CHARACTERISTIC⟩]) ∧
      (discover_func discover_ret subscribe_ret conn ci (some attr)).ci =
        { ci with
          sub_params := ci.sub_params.set i
            { sub with
              notify := decide (subscribe_ret sub = 0 ∨ subscribe_ret sub = -EALREADY) }
          discover_params :=
            if discover_ret
                ⟨false, ci.discover_params.func, (attr.handle + 1) % 2 ^ 16,
                  ci.discover_params.end_handle, BT_GATT_DISCOVER_CHARACTERISTIC⟩ ≠ 0
            then ⟨false, false, 0, 0, 0⟩
            else ⟨false, ci.discover_params.func, (attr.handle + 1) % 2 ^ 16,
              ci.discover_params.end_handle, BT_GATT_DISCOVER_CHARACTERISTIC⟩ } ∧
      (discover_func discover_ret subscribe_ret conn ci (some attr)).outstanding =
        decide (discover_ret
          ⟨false, ci.discover_params.func, (attr.handle + 1) % 2 ^ 16,
            ci.discover_params.end_handle, BT_GATT_DISCOVER_CHARACTERISTIC⟩ = 0) := by
  constructor
  · unfold first_free_sub_params at hfree
    obtain ⟨_, hp, hlt⟩ := find?_range_some _ _ _ hfree
    constructor
    · cases e : ci.sub_params[i]? with
      | none => rw [e] at hp; simp at hp
      | some old =>
        rw [e] at hp
        exact ⟨old, rfl, by simpa using hp⟩
    · intro j hj p hjp
      have := hlt j hj
      rw [hjp] at this
      simpa using this
  · refine ⟨new_subscription ci i attr, rfl, rfl, rfl, rfl, ?_⟩
    have hkept : kept_subscription (subscribe_ret (new_subscription ci i attr))
        (new_subscription ci i attr) =
        { new_subscription ci i attr with
          notify := decide (subscribe_ret (new_subscription ci i attr) = 0 ∨
            subscribe_ret (new_subscription ci i attr) = -EALREADY) } := by
      unfold kept_subscription
      by_cases h : subscribe_ret (new_subscription ci i attr) ≠ 0 ∧
          subscribe_ret (new_subscription ci i attr) ≠ -EALREADY
      · rw [if_pos h]
        have : ¬ (subscribe_ret (new_subscription ci i attr) = 0 ∨
            subscribe_ret (new_subscription ci i attr) = -EALREADY) := by
          intro hc
          rcases hc with hc | hc
          · exact h.1 hc
          · exact h.2 hc
        have hdec : decide (subscribe_ret (new_subscription ci i attr) = 0 ∨
            subscribe_ret (new_subscription ci i attr) = -EALREADY) = false :=
          decide_eq_false this
        rw [hdec]
      · rw [if_neg h]
        have : subscribe_ret (new_subscription ci i attr) = 0 ∨
            subscribe_ret (new_subscription ci i attr) = -EALREADY := by
          by_contra hc
          exact h ⟨fun h0 => hc (Or.inl h0), fun h1 => hc (Or.inr h1)⟩
        have hdec : decide (subscribe_ret (new_subscription ci i attr) = 0 ∨
            subscribe_ret (new_subscription ci i attr) = -EALREADY) = true :=
          decide_eq_true this
        rw [hdec]
        rfl
    rw [discover_func_desc_free _ _ _ _ _ i htype hfree]
    have hreq : char_request ci attr =
        ⟨false, ci.discover_params.func, (attr.handle + 1) % 2 ^ 16,
          ci.discover_params.end_handle, BT_GATT_DISCOVER_CHARACTERISTIC⟩ := rfl
    have hslot : char_slot subscribe_ret ci i attr =
        { ci with
          sub_params := ci.sub_params.set i
            { new_subscription ci i attr with
              notify := decide (subscribe_ret (new_subscription ci i attr) = 0 ∨
                subscribe_ret (new_subscription ci i attr) = -EALREADY) }
          discover_params := char_request ci attr } := by
      unfold char_slot
      rw [hkept]
    rw [hslot, hreq]
    by_cases hd : discover_ret
        ⟨false, ci.discover_params.func, (attr.handle + 1) % 2 ^ 16,
          ci.discover_params.end_handle, BT_GATT_DISCOVER_CHARACTERISTIC⟩ ≠ 0
    · rw [if_pos hd, if_pos hd, if_pos hd]
      refine ⟨rfl, rfl, ?_, ?_, rfl, ?_⟩
      · intro hmax
        rw [Nat.mod_eq_of_lt (by omega)]
        rfl
      · intro hmax
        rw [hmax]
        rfl
      · exact (decide_eq_false hd).symm
    · have h0 : discover_ret
          ⟨false, ci.discover_params.func, (attr.handle + 1) % 2 ^ 16,
            ci.discover_params.end_handle, BT_GATT_DISCOVER_CHARACTERISTIC⟩ = 0 := by
        by_contra h
        exact hd h
      rw [if_neg hd, h0]
      refine ⟨rfl, rfl, ?_, ?_, rfl, rfl⟩
      · intro hmax
        rw [Nat.mod_eq_of_lt (by omega)]
        rfl
      · intro hmax
        rw [hmax]
        rfl

/-- C21 (as amended) at the descriptor with handle 6 reported while value handle 5 is remembered and
all entries are free: the entry `(5, 6)` is stored at index 0 and the characteristic
discovery resumes at handle 7. -/
theorem descriptor_step_witness :
    (discover_func (fun _ => 0) (fun _ => 0) 7
      { conninfo.zero with
        conn := some 7
        uuid := BT_UUID_GATT_CCC
        value_handle := 5
        discover_params := ⟨true, true, 6, 0xffff, BT_GATT_DISCOVER_DESCRIPTOR⟩ }
      (some ⟨6, 0x2902, 0, 0, 0⟩)).ret = BT_GATT_ITER_STOP ∧
    discover_requests (discover_func (fun _ => 0) (fun _ => 0) 7
      { conninfo.zero with
        conn := some 7
        uuid := BT_UUID_GATT_CCC
        value_handle := 5
        discover_params := ⟨true, true, 6, 0xffff, BT_GATT_DISCOVER_DESCRIPTOR⟩ }
      (some ⟨6, 0x2902, 0, 0, 0⟩)).calls =
      [⟨false, true, 7, 0xffff, BT_GATT_DISCOVER_CHARACTERISTIC⟩] ∧
    active_subscriptions (discover_func (fun _ => 0) (fun _ => 0) 7
      { conninfo.zero with
        conn := some 7
        uuid := BT_UUID_GATT_CCC
        value_handle := 5
        discover_params := ⟨true, true, 6, 0xffff, BT_GATT_DISCOVER_DESCRIPTOR⟩ }
      (some ⟨6, 0x2902, 0, 0, 0⟩)).ci = [(5, 6)] := by
  obtain ⟨_, sub, _, _, _, _, hret, _, hreq, _, _, _⟩ :=
    descriptor_step (fun _ => 0) (fun _ => 0) 7
      { conninfo.zero with
        conn := some 7
        uuid := BT_UUID_GATT_CCC
        value_handle := 5
        discover_params := ⟨true, true, 6, 0xffff, BT_GATT_DISCOVER_DESCRIPTOR⟩ }
      ⟨6, 0x2902, 0, 0, 0⟩ 0 rfl (by decide)
  exact ⟨hret, hreq (by decide), by decide⟩

/-- C21, counterexample: a descriptor is reported at the last handle `0xFFFF` while value
handle `0xFFFE` is remembered and all entries are free. The entry `(0xFFFE, 0xFFFF)` is
stored and subscribed, but the next request does not start at `d + 1`: `start_handle` is a
`uint16_t`, and the characteristic discovery is requested from handle `0` up to
`0xffff`. -/
theorem descriptor_step_wraps :
    discover_requests (discover_func (fun _ => 0) (fun _ => 0) 7
      { conninfo.zero with
        conn := some 7
        uuid := BT_UUID_GATT_CCC
        value_handle := 0xFFFE
        discover_params := ⟨true, true, 0xFFFF, 0xffff, BT_GATT_DISCOVER_DESCRIPTOR⟩ }
      (some ⟨0xFFFF, 0x2902, 0, 0, 0⟩)).calls =
      [⟨false, true, 0, 0xffff, BT_GATT_DISCOVER_CHARACTERISTIC⟩] ∧
    active_subscriptions (discover_func (fun _ => 0) (fun _ => 0) 7
      { conninfo.zero with
        conn := some 7
        uuid := BT_UUID_GATT_CCC
        value_handle := 0xFFFE
        discover_params := ⟨true, true, 0xFFFF, 0xffff, BT_GATT_DISCOVER_DESCRIPTOR⟩ }
      (some ⟨0xFFFF, 0x2902, 0, 0, 0⟩)).ci = [(0xFFFE, 0xFFFF)] ∧
    (0 : Nat) ≠ 0xFFFF + 1 := by
  refine ⟨by decide, by decide, by decide⟩

/-! ## Discovery, the characteristic callback -/

/-- C20 (as amended): in characteristic discovery, for a reported characteristic
declaration with handle `a`: without the notify property `discover_func` returns
`BT_GATT_ITER_CONTINUE` with the slot unchanged and no call made; with the notify property
it remembers the value handle, makes exactly one `bt_gatt_discover` call, for the
descriptors with the CCC UUID up to the unchanged end handle, whose start handle is `a + 2`
as a 16-bit value (`a + 2` for `a <= 0xFFFD`, `0` for `a = 0xFFFE`, `1` for `a = 0xFFFF`),
and returns `BT_GATT_ITER_STOP`. If that call fails the parameters are zeroed and scanning
is restarted. -/
theorem characteristic_step (discover_ret : bt_gatt_discover_params → Int)
    (subscribe_ret : bt_gatt_subscribe_params → Int) (conn : Nat) (ci : conninfo)
    (attr : bt_gatt_attr)
    (htype : ci.discover_params.type = BT_GATT_DISCOVER_CHARACTERISTIC) :
    (attr.properties &&& BT_GATT_CHRC_NOTIFY = 0 →
      discover_func discover_ret subscribe_ret conn ci (some attr) =
        { ret := BT_GATT_ITER_CONTINUE, ci := ci, outstanding := true, calls := [] }) ∧
    (attr.properties &&& BT_GATT_CHRC_NOTIFY ≠ 0 →
      (discover_func discover_ret subscribe_ret conn ci (some attr)).ret =
        BT_GATT_ITER_STOP ∧
      discover_requests (discover_func discover_ret subscribe_ret conn ci (some attr)).calls =
        [{ uuid := true, func := ci.discover_params.func,
           start_handle := (attr.handle + 2) % 2 ^ 16,
           end_handle := ci.discover_params.end_handle,
           type := BT_GATT_DISCOVER_DESCRIPTOR }] ∧
      (attr.handle + 2 < 2 ^ 16 →
        discover_requests
            (discover_func discover_ret subscribe_ret conn ci (some attr)).calls =
          [{ uuid := true, func := ci.discover_params.func, start_handle := attr.handle + 2,
             end_handle := ci.discover_params.end_handle,
             type := BT_GATT_DISCOVER_DESCRIPTOR }]) ∧
      (discover_ret
          { uuid := true, func := ci.discover_params.func,
            start_handle := (attr.handle + 2) % 2 ^ 16,
            end_handle := ci.discover_params.end_handle,
            type := BT_GATT_DISCOVER_DESCRIPTOR } = 0 →
        (discover_func discover_ret subscribe_ret conn ci (some attr)).outstanding = true ∧
        (discover_func discover_ret subscribe_ret conn ci (some attr)).ci =
          { ci with
            uuid := BT_UUID_GATT_CCC
            value_handle := bt_gatt_attr_value_handle attr
            discover_params :=
              { uuid := true, func := ci.discover_params.func,
                start_handle := (attr.handle + 2) % 2 ^ 16,
                end_handle := ci.discover_params.end_handle,
                type := BT_GATT_DISCOVER_DESCRIPTOR } }) ∧
      (discover_ret
          { uuid := true, func := ci.discover_params.func,
            start_handle := (attr.handle + 2) % 2 ^ 16,
            end_handle := ci.discover_params.end_handle,
            type := BT_GATT_DISCOVER_DESCRIPTOR } ≠ 0 →
        (discover_func discover_ret subscribe_ret conn ci (some attr)).outstanding = false ∧
        (discover_func discover_ret subscribe_ret conn ci (some attr)).ci.discover_params =
          ⟨false, false, 0, 0, 0⟩ ∧
        BtCall.scan_start ∈
          (discover_func discover_ret subscribe_ret conn ci (some attr)).calls)) := by
  constructor
  · intro hn
    exact discover_func_char_skip _ _ _ _ _ htype hn
  · intro hn
    have hreq : desc_request ci attr =
        { uuid := true, func := ci.discover_params.func,
          start_handle := (attr.handle + 2) % 2 ^ 16,
          end_handle := ci.discover_params.end_handle,
          type := BT_GATT_DISCOVER_DESCRIPTOR } := rfl
    rw [discover_func_char_notify _ _ _ _ _ htype hn, hreq]
    by_cases hd : discover_ret
        { uuid := true, func := ci.discover_params.func,
          start_handle := (attr.handle + 2) % 2 ^ 16,
          end_handle := ci.discover_params.end_handle,
          type := BT_GATT_DISCOVER_DESCRIPTOR } ≠ 0
    · rw [if_pos hd]
      refine ⟨rfl, rfl, ?_, fun h0 => absurd h0 hd, fun _ => ⟨rfl, rfl, ?_⟩⟩
      · intro hw
        rw [Nat.mod_eq_of_lt hw]
        rfl
      · simp [discover_stop, start_scan]
    · rw [if_neg hd]
      refine ⟨rfl, rfl, ?_, fun _ => ⟨rfl, rfl⟩, fun h0 => absurd h0 hd⟩
      intro hw
      rw [Nat.mod_eq_of_lt hw]
      rfl

/-- C20 (as amended) at a notifiable characteristic declared at handle 4 with value handle
5, and at a characteristic without the notify property declared at handle 2, during the
first characteristic request. -/
theorem characteristic_step_witness :
    discover_func (fun _ => 0) (fun _ => 0) 7
        { conninfo.zero with conn := some 7, discover_params := initial_discover_params }
        (some ⟨4, 0x2803, 0x12, 5, 0x2a01⟩) =
      { ret := BT_GATT_ITER_STOP
        ci := { conninfo.zero with
          conn := some 7
          uuid := BT_UUID_GATT_CCC
          value_handle := 5
          discover_params := ⟨true, true, 6, 0xffff, BT_GATT_DISCOVER_DESCRIPTOR⟩ }
        outstanding := true
        calls := [.gatt_discover 7 ⟨true, true, 6, 0xffff, BT_GATT_DISCOVER_DESCRIPTOR⟩ 0] } ∧
    discover_requests (discover_func (fun _ => 0) (fun _ => 0) 7
        { conninfo.zero with conn := some 7, discover_params := initial_discover_params }
        (some ⟨4, 0x2803, 0x12, 5, 0x2a01⟩)).calls =
      [⟨true, true, 6, 0xffff, BT_GATT_DISCOVER_DESCRIPTOR⟩] ∧
    discover_func (fun _ => 0) (fun _ => 0) 7
        { conninfo.zero with conn := some 7, discover_params := initial_discover_params }
        (some ⟨2, 0x2803, 0x02, 3, 0x2a00⟩) =
      { ret := BT_GATT_ITER_CONTINUE
        ci := { conninfo.zero with conn := some 7, discover_params := initial_discover_params }
        outstanding := true
        calls := [] } :=
  ⟨rfl,
    ((characteristic_step (fun _ => 0) (fun _ => 0) 7
      { conninfo.zero with conn := some 7, discover_params := initial_discover_params }
      ⟨4, 0x2803, 0x12, 5, 0x2a01⟩ rfl).2 (by decide)).2.2.1 (by decide),
    (characteristic_step (fun _ => 0) (fun _ => 0) 7
      { conninfo.zero with conn := some 7, discover_params := initial_discover_params }
      ⟨2, 0x2803, 0x02, 3, 0x2a00⟩ rfl).1 (by decide)⟩

/-- C20, counterexample: notifiable characteristics are reported with the declaration at
one of the two last handles. The descriptor request does not start at `a + 2`:
`start_handle` is a `uint16_t`, so for `a = 0xFFFF` the request starts at handle `1`, below
the characteristic, and for `a = 0xFFFE` at handle `0`. -/
theorem characteristic_step_wraps :
    discover_requests (discover_func (fun _ => 0) (fun _ => 0) 7
        { conninfo.zero with conn := some 7, discover_params := initial_discover_params }
        (some ⟨0xFFFF, 0x2803, 0x10, 0, 0x2a19⟩)).calls =
      [⟨true, true, 1, 0xffff, BT_GATT_DISCOVER_DESCRIPTOR⟩] ∧
    discover_requests (discover_func (fun _ => 0) (fun _ => 0) 7
        { conninfo.zero with conn := some 7, discover_params := initial_discover_params }
        (some ⟨0xFFFE, 0x2803, 0x10, 0xFFFF, 0x2a19⟩)).calls =
      [⟨true, true, 0, 0xffff, BT_GATT_DISCOVER_DESCRIPTOR⟩] ∧
    (1 : Nat) ≠ 0xFFFF + 2 ∧ (0 : Nat) ≠ 0xFFFE + 2 := by
  refine ⟨by decide, by decide, by decide, by decide⟩

/-! ## The end of a discovery -/

/-- The `stop:` label of `discover_func`: on the no-more-attributes signal, whatever the
phase, and on every refused follow-up request issued from `discover_func`, the discovery
parameters of the slot are zeroed, no request is outstanding and scanning is restarted. -/
theorem discover_func_end_clears (discover_ret : bt_gatt_discover_params → Int)
    (subscribe_ret : bt_gatt_subscribe_params → Int) (conn : Nat) (ci : conninfo) :
    discover_func discover_ret subscribe_ret conn ci none =
      { ret := BT_GATT_ITER_STOP
        ci := { ci with discover_params := ⟨false, false, 0, 0, 0⟩ }
        outstanding := false
        calls := [.scan_start] } ∧
    (∀ (attr : bt_gatt_attr) (p : bt_gatt_discover_params) (e : Int),
      BtCall.gatt_discover conn p e ∈
        (discover_func discover_ret subscribe_ret conn ci (some attr)).calls →
      e ≠ 0 →
      (discover_func discover_ret subscribe_ret conn ci (some attr)).ci.discover_params =
        ⟨false, false, 0, 0, 0⟩ ∧
      (discover_func discover_ret subscribe_ret conn ci (some attr)).outstanding = false ∧
      (discover_func discover_ret subscribe_ret conn ci (some attr)).ret =
        BT_GATT_ITER_STOP ∧
      BtCall.scan_start ∈
        (discover_func discover_ret subscribe_ret conn ci (some attr)).calls) := by
  refine ⟨rfl, ?_⟩
  · intro attr p e hmem he
    have hstop : ∀ (c : conninfo) (calls : List BtCall),
        (discover_stop c calls).ci.discover_params = ⟨false, false, 0, 0, 0⟩ ∧
        (discover_stop c calls).outstanding = false ∧
        (discover_stop c calls).ret = BT_GATT_ITER_STOP ∧
        BtCall.scan_start ∈ (discover_stop c calls).calls := by
      intro c calls
      refine ⟨rfl, rfl, rfl, ?_⟩
      simp [discover_stop, start_scan]
    by_cases h1 : ci.discover_params.type = BT_GATT_DISCOVER_CHARACTERISTIC
    · by_cases h2 : attr.properties &&& BT_GATT_CHRC_NOTIFY = 0
      · rw [discover_func_char_skip _ _ _ _ _ h1 h2] at hmem
        cases hmem
      · rw [discover_func_char_notify _ _ _ _ _ h1 h2] at hmem ⊢
        by_cases h3 : discover_ret (desc_request ci attr) ≠ 0
        · rw [if_pos h3]
          exact hstop _ _
        · rw [if_neg h3] at hmem
          simp only [List.mem_singleton, BtCall.gatt_discover.injEq] at hmem
          exact absurd hmem.2.2 he
    · by_cases h2 : ci.discover_params.type = BT_GATT_DISCOVER_DESCRIPTOR
      · cases hf : first_free_sub_params ci.sub_params with
        | none =>
          rw [discover_func_desc_full _ _ _ _ _ h2 hf]
          exact hstop _ _
        | some i =>
          rw [discover_func_desc_free _ _ _ _ _ i h2 hf] at hmem ⊢
          by_cases h3 : discover_ret (char_request ci attr) ≠ 0
          · rw [if_pos h3]
            exact hstop _ _
          · rw [if_neg h3] at hmem
            simp only [List.mem_cons, List.mem_singleton, BtCall.gatt_discover.injEq,
              List.mem_nil_iff, or_false, false_or, reduceCtorEq] at hmem
            exact absurd hmem.2.2 he
      · rw [discover_func_other _ _ _ _ _ h1 h2]
        exact hstop _ _

/-- C22, the divergence: `bt_gatt_discover` refuses the first request, the one `connected`
issues on link-up for the connection in slot 0. Scanning is restarted, but the discovery
parameters of the slot are not cleared: they stay as `connected` set them (start handle 1,
end handle `0xffff`, callback set). The same refusal met by a follow-up request, here the
descriptor request `discover_func` issues for the declaration at handle 4, zeroes them. -/
theorem initial_failure_keeps_params :
    connected (fun _ => -ENOMEM) [{ conninfo.zero with conn := some 7 }] 7 0 =
      ([{ conninfo.zero with
          conn := some 7
          discover_params := ⟨false, true, 1, 0xffff, BT_GATT_DISCOVER_CHARACTERISTIC⟩ }],
        [.publish_connection_status 7 true, .conn_set_security 7,
          .gatt_discover 7 ⟨false, true, 1, 0xffff, BT_GATT_DISCOVER_CHARACTERISTIC⟩ (-ENOMEM),
          .scan_start]) ∧
    (⟨false, true, 1, 0xffff, BT_GATT_DISCOVER_CHARACTERISTIC⟩ : bt_gatt_discover_params) ≠
      ⟨false, false, 0, 0, 0⟩ ∧
    (discover_func (fun _ => -ENOMEM) (fun _ => 0) 7
        { conninfo.zero with conn := some 7, discover_params := initial_discover_params }
        (some ⟨4, 0x2803, 0x12, 5, 0x2a01⟩)).ci.discover_params = ⟨false, false, 0, 0, 0⟩ ∧
    (discover_func (fun _ => -ENOMEM) (fun _ => 0) 7
        { conninfo.zero with conn := some 7, discover_params := initial_discover_params }
        (some ⟨4, 0x2803, 0x12, 5, 0x2a01⟩)).calls =
      [.gatt_discover 7 ⟨true, true, 6, 0xffff, BT_GATT_DISCOVER_DESCRIPTOR⟩ (-ENOMEM),
        .scan_start] := by
  refine ⟨by decide, by decide, by decide, by decide⟩

/-! ## Completion of a write and the next dispatch -/

/-- A dispatch of 1 to 5 bytes to a connected peer whose slot has the free entry `j` first:
the buffer is filled, entry `j` is set up, `bt_gatt_write` is called once, and the entry
stays in flight exactly when the call returned `0`. -/
theorem main_set_bluetooth_value_allocates (lookup : bt_addr_le_t → Option Nat)
    (gatt_write_ret : Int) (conns : List conninfo) (addr : bt_addr_t) (handle : Nat)
    (data : List Nat) (len conn slot j : Nat) (ci : conninfo)
    (hlookup : lookup ⟨BT_ADDR_LE_RANDOM, addr⟩ = some conn)
    (hfind : conninfo_find conns (some conn) = some slot) (hci : conns[slot]? = some ci)
    (hfree : find_free_write_params ci.write_params = some j)
    (h0 : len ≠ 0) (hmax : len ≤ GATT_WRITE_BUF_SIZE) :
    main_set_bluetooth_value lookup gatt_write_ret conns addr handle data len =
      (gatt_write_ret,
        conns.set slot { ci with
          gatt_write_buf := memcpy ci.gatt_write_buf data len
          write_params := ci.write_params.set j
            ⟨decide (gatt_write_ret = 0), handle, 0, true, len⟩ },
        [⟨conn, handle, 0, len, (memcpy ci.gatt_write_buf data len).take len⟩]) := by
  unfold main_set_bluetooth_value
  simp only
  rw [if_neg h0, if_neg (by omega), hlookup]
  simp only
  rw [hfind]
  simp only
  rw [hci]
  simp only
  rw [hfree]
  simp only
  by_cases hr : gatt_write_ret ≠ 0
  · rw [if_pos hr]
    have hdec : decide (gatt_write_ret = 0) = false := decide_eq_false hr
    rw [hdec]
  · rw [if_neg hr]
    have hz : gatt_write_ret = 0 := not_not.1 hr
    have hdec : decide (gatt_write_ret = 0) = true := decide_eq_true hz
    rw [hdec, hz]

/-- C10 (as amended): when the completion callback `write_func` runs for entry `paramid`
of a slot, with any status `err`, the entry is zeroed and nothing else in the connection
table changes, so the entry is free again. The next dispatch on that slot (peer connected,
1 to 5 bytes) takes the first free entry `j` of the slot, sets it up and calls
`bt_gatt_write` for it; `j` is at or below `paramid`, and it is the completed entry
exactly when every lower entry is in flight. And no dispatch ever changes an entry that is
in flight, so an entry is not given to a new dispatch before it has completed. -/
theorem write_completion_frees_entry (conns : List conninfo) (slot paramid err : Nat)
    (ci : conninfo) (hci : conns[slot]? = some ci) (hp : paramid < WRITE_PARAMS_COUNT)
    (hwf : ci.write_params.length = WRITE_PARAMS_COUNT) :
    (write_func conns slot paramid err)[slot]? =
      some { ci with write_params := ci.write_params.set paramid bt_gatt_write_params.zero } ∧
    (ci.write_params.set paramid bt_gatt_write_params.zero)[paramid]? =
      some bt_gatt_write_params.zero ∧
    (∀ q, q ≠ paramid →
      (ci.write_params.set paramid bt_gatt_write_params.zero)[q]? = ci.write_params[q]?) ∧
    (∀ s, s ≠ slot → (write_func conns slot paramid err)[s]? = conns[s]?) ∧
    (∃ j, find_free_write_params (ci.write_params.set paramid bt_gatt_write_params.zero) =
        some j ∧ j ≤ paramid ∧
      (j = paramid ↔ ∀ i < paramid, ∀ q, ci.write_params[i]? = some q → q.func = true) ∧
      ∀ (lookup : bt_addr_le_t → Option Nat) (gatt_write_ret : Int) (addr : bt_addr_t)
          (handle : Nat) (data : List Nat) (len conn : Nat),
        lookup ⟨BT_ADDR_LE_RANDOM, addr⟩ = some conn →
        conninfo_find (write_func conns slot paramid err) (some conn) = some slot →
        len ≠ 0 → len ≤ GATT_WRITE_BUF_SIZE →
        main_set_bluetooth_value lookup gatt_write_ret (write_func conns slot paramid err)
            addr handle data len =
          (gatt_write_ret,
            (write_func conns slot paramid err).set slot { ci with
              gatt_write_buf := memcpy ci.gatt_write_buf data len
              write_params :=
                (ci.write_params.set paramid bt_gatt_write_params.zero).set j
                  ⟨decide (gatt_write_ret = 0), handle, 0, true, len⟩ },
            [⟨conn, handle, 0, len, (memcpy ci.gatt_write_buf data len).take len⟩])) ∧
    (∀ (lookup : bt_addr_le_t → Option Nat) (gatt_write_ret : Int) (cs : List conninfo)
        (addr : bt_addr_t) (handle : Nat) (data : List Nat) (len s q : Nat)
        (p : bt_gatt_write_params),
      (cs[s]?).bind (fun c => c.write_params[q]?) = some p → p.func = true →
      ((main_set_bluetooth_value lookup gatt_write_ret cs addr handle data len).2.1[s]?).bind
        (fun c => c.write_params[q]?) = some p) := by
  have hz : (ci.write_params.set paramid bt_gatt_write_params.zero)[paramid]? =
      some bt_gatt_write_params.zero := by
    rw [List.getElem?_set, if_pos rfl, if_pos (by omega)]
  have hslot : (write_func conns slot paramid err)[slot]? =
      some { ci with
        write_params := ci.write_params.set paramid bt_gatt_write_params.zero } := by
    unfold write_func
    simp only [hci]
    exact getElem?_set_self_of_some conns slot _ ci hci
  refine ⟨hslot, hz, ?_, ?_, ?_, ?_⟩
  · intro q hq
    exact List.getElem?_set_ne (Ne.symm hq)
  · intro s hs
    unfold write_func
    simp only [hci]
    exact List.getElem?_set_ne (Ne.symm hs)
  · have hfree : (match (ci.write_params.set paramid bt_gatt_write_params.zero)[paramid]? with
        | some p => decide (p.func = false)
        | none => false) = true := by
      rw [hz]; rfl
    cases e : find_free_write_params (ci.write_params.set paramid bt_gatt_write_params.zero) with
    | none =>
      unfold find_free_write_params at e
      have := List.find?_eq_none.1 e paramid (List.mem_range.2 hp)
      exact absurd hfree this
    | some j =>
      obtain ⟨_, ⟨pj, hpj, hpjf⟩, hmin⟩ := find_free_write_params_some _ _ e
      have hle : j ≤ paramid := by
        by_contra hgt
        have := hmin paramid (by omega) _ hz
        cases this
      refine ⟨j, rfl, hle, ⟨?_, ?_⟩, ?_⟩
      · intro hj i hi q hq
        rw [hj] at hmin
        exact hmin i hi q (by rw [List.getElem?_set_ne (by omega)]; exact hq)
      · intro hbusy
        by_contra hne
        have hlt : j < paramid := by omega
        rw [List.getElem?_set_ne (by omega)] at hpj
        have := hbusy j hlt pj hpj
        rw [this] at hpjf
        cases hpjf
      · intro lookup gatt_write_ret addr handle data len conn hl hf h0 hmax
        exact main_set_bluetooth_value_allocates lookup gatt_write_ret _ addr handle data len
          conn slot j _ hl hf hslot e h0 hmax
  · intro lookup gatt_write_ret cs addr handle data len s q p h1 h2
    exact main_set_bluetooth_value_keeps_in_flight lookup gatt_write_ret cs addr handle data
      len s q p h1 h2

/-- C10 (as amended) at a slot whose entries 0 and 1 are in flight, when entry 1 completes
with the error status `0x0e`: the next dispatch, of the byte `[9]` to handle `0x14`, is
given entry 1 again. -/
theorem write_completion_frees_entry_witness :
    (main_set_bluetooth_value (fun _ => some 7) 0
        (write_func
          [{ conninfo.zero with
              conn := some 7
              write_params := ⟨true, 0x12, 0, true, 2⟩ :: ⟨true, 0x13, 0, true, 1⟩ ::
                List.replicate 3 bt_gatt_write_params.zero }] 0 1 0x0e)
        ⟨[1, 2, 3, 4, 5, 6]⟩ 0x14 [9] 1).2.1.map (fun c => c.write_params.take 2) =
      [[⟨true, 0x12, 0, true, 2⟩, ⟨true, 0x14, 0, true, 1⟩]] := by
  obtain ⟨_, _, _, _, ⟨j, hj, _, hj2, hdisp⟩, _⟩ :=
    write_completion_frees_entry
      [{ conninfo.zero with
          conn := some 7
          write_params := ⟨true, 0x12, 0, true, 2⟩ :: ⟨true, 0x13, 0, true, 1⟩ ::
            List.replicate 3 bt_gatt_write_params.zero }] 0 1 0x0e
      { conninfo.zero with
          conn := some 7
          write_params := ⟨true, 0x12, 0, true, 2⟩ :: ⟨true, 0x13, 0, true, 1⟩ ::
            List.replicate 3 bt_gatt_write_params.zero } rfl (by decide) (by decide)
  have hj1 : j = 1 := hj2.2 (by decide)
  rw [hdisp (fun _ => some 7) 0 ⟨[1, 2, 3, 4, 5, 6]⟩ 0x14 [9] 1 7 rfl (by decide) (by decide)
    (by decide), hj1]
  decide

/-- C10, counterexample: two dispatches take entries 0 and 1 of the slot; entry 0 completes,
then entry 1 completes with the error status `0x0e`. The next dispatch on that slot does
not select entry 1 again: its search loop stops at entry 0, the lower free entry, and
entry 1 stays zeroed. -/
theorem completed_entry_not_selected :
    let conns0 : List conninfo := [{ conninfo.zero with conn := some 7 }]
    let r1 := main_set_bluetooth_value (fun _ => some 7) 0 conns0 ⟨[1, 2, 3, 4, 5, 6]⟩
      0x12 [1, 2] 2
    let r2 := main_set_bluetooth_value (fun _ => some 7) 0 r1.2.1 ⟨[1, 2, 3, 4, 5, 6]⟩
      0x13 [9] 1
    let c1 := write_func r2.2.1 0 0 0
    let c2 := write_func c1 0 1 0x0e
    let r3 := main_set_bluetooth_value (fun _ => some 7) 0 c2 ⟨[1, 2, 3, 4, 5, 6]⟩
      0x14 [7] 1
    (r2.2.1[0]?).bind (fun ci => ci.write_params[1]?) = some ⟨true, 0x13, 0, true, 1⟩ ∧
    (c2[0]?).bind (fun ci => ci.write_params[1]?) = some bt_gatt_write_params.zero ∧
    r3.1 = 0 ∧ r3.2.2 = [⟨7, 0x14, 0, 1, [7]⟩] ∧
    (r3.2.1[0]?).bind (fun ci => ci.write_params[0]?) = some ⟨true, 0x14, 0, true, 1⟩ ∧
    (r3.2.1[0]?).bind (fun ci => ci.write_params[1]?) = some bt_gatt_write_params.zero := by
  refine ⟨rfl, rfl, rfl, rfl, rfl, rfl⟩

end Central
